import Mathlib

/-!
# Layer-mode operators of `app/operations`

A shallow embedding of the per-pixel compositing operators

* `gimp_operation_normal_mode_process_pixels_core`  (gimpoperationnormalmode.c)
* `gimp_operation_dissolve_mode_process_pixels`     (gimpoperationdissolvemode.c)
* `gimp_operation_erase_mode_process_pixels`        (gimpoperationerasemode.c)
* `gimp_operation_replace_mode_process_pixels`      (gimpoperationreplacemode.c)

and of the mode-node function `gimp_gegl_mode_node_set_mode` (gimp-gegl-nodes.c).

Arithmetic convention: a `gfloat` is modelled twice.  The definitions without
a suffix (`normal_mode_pixel`, `replace_mode_pixel`, ...) take every operation
of a loop body in exact rational arithmetic: a statement about them is a
statement about the formula the code evaluates, without rounding.  The
definitions with the suffix `_f32` evaluate the same C expressions in IEEE 754
binary32, every operation rounded to nearest, ties to even, in the order of the
expression; their result is `none` when an operation overflows.  Buffers are
lists of samples, one list element for each group of four floats (`in += 4`),
and one rational per mask entry (`mask++`).  The output buffer is assumed not
to alias the input buffers.
-/

namespace Gimp

/-- One pixel of a `gfloat` buffer: the four floats at indices `RED`, `GREEN`,
`BLUE` and `ALPHA` (0, 1, 2, 3). -/
structure Sample where
  r : ℚ
  g : ℚ
  b : ℚ
  a : ℚ
deriving DecidableEq, Repr

/-- The `GeglRectangle` handed to every `process_pixels` function. -/
structure GeglRectangle where
  x : Int
  y : Int
  width : Int
  height : Int
deriving DecidableEq, Repr

/-! ## Normal mode -/

/-- The value of `aux_alpha` after lines 196-198 of gimpoperationnormalmode.c:
`aux_alpha = aux[ALPHA] * opacity; if (has_mask) aux_alpha *= *mask;`. -/
def normal_aux_alpha (aux : Sample) (mask : Option ℚ) (opacity : ℚ) : ℚ :=
  match mask with
  | some m => aux.a * opacity * m
  | none => aux.a * opacity

/-- The statement executed for one colour channel `b` when `out[ALPHA]` is not
zero: `out[b] = (aux[b] * aux_alpha + in[b] * in_weight) * recip_out_alpha`. -/
def normal_channel (inb auxb aux_alpha in_weight recip_out_alpha : ℚ) : ℚ :=
  (auxb * aux_alpha + inb * in_weight) * recip_out_alpha

/-- One iteration of the `while (samples--)` loop of
`gimp_operation_normal_mode_process_pixels_core`, in exact arithmetic (the
binary32 evaluation is `normal_mode_pixel_f32`). -/
def normal_mode_pixel (inp aux : Sample) (mask : Option ℚ) (opacity : ℚ) : Sample :=
  let aux_alpha := normal_aux_alpha aux mask opacity
  let out_alpha := aux_alpha + inp.a - aux_alpha * inp.a
  if out_alpha ≠ 0 then
    let in_weight := inp.a * (1 - aux_alpha)
    let recip_out_alpha := 1 / out_alpha
    { r := normal_channel inp.r aux.r aux_alpha in_weight recip_out_alpha
      g := normal_channel inp.g aux.g aux_alpha in_weight recip_out_alpha
      b := normal_channel inp.b aux.b aux_alpha in_weight recip_out_alpha
      a := out_alpha }
  else
    { r := inp.r, g := inp.g, b := inp.b, a := out_alpha }

/-- The mask pointer after `mask++` (only executed when `has_mask`). -/
def mask_next (mask : Option (List ℚ)) : Option (List ℚ) :=
  mask.map List.tail

/-- The value `*mask` read by an iteration, when there is a mask. -/
def mask_head (mask : Option (List ℚ)) : Option (Option ℚ) :=
  match mask with
  | none => some none
  | some (m :: _) => some (some m)
  | some [] => none

/-- The function `gimp_operation_normal_mode_process_pixels_core`: `samples`
iterations, each reading one sample of `in` and `aux` (and one mask entry when
`mask != NULL`) and writing one sample of `out`.  The list returned is the
contents of `out`; the loop stops early when a buffer is shorter than
`samples` (a read the caller must never ask for).  `roi` and `level` are not
used by the body. -/
def gimp_operation_normal_mode_process_pixels_core
    (inp aux : List Sample) (mask : Option (List ℚ)) (opacity : ℚ)
    (samples : Nat) (roi : GeglRectangle) : List Sample :=
  match samples, inp, aux with
  | n + 1, i :: inp', a :: aux' =>
      match mask_head mask with
      | some m =>
          normal_mode_pixel i a m opacity ::
            gimp_operation_normal_mode_process_pixels_core inp' aux' (mask_next mask) opacity n roi
      | none => []
  | _, _, _ => []
termination_by structural samples

/-- The Normal formula in the words of the specification: with
`aux_a = aux.a * opacity * (mask ?? 1)`, `out.a = aux_a + in.a - aux_a*in.a`;
if `out.a != 0` then `out.b = (aux.b*aux_a + in.b*in_weight) / out.a` with
`in_weight = in.a*(1-aux_a)`, else `out.b = in.b`. -/
def normal_spec (inp aux : Sample) (mask : Option ℚ) (opacity : ℚ) : Sample :=
  let aux_a := aux.a * opacity * mask.getD 1
  let out_a := aux_a + inp.a - aux_a * inp.a
  if out_a ≠ 0 then
    { r := (aux.r * aux_a + inp.r * (inp.a * (1 - aux_a))) / out_a
      g := (aux.g * aux_a + inp.g * (inp.a * (1 - aux_a))) / out_a
      b := (aux.b * aux_a + inp.b * (inp.a * (1 - aux_a))) / out_a
      a := out_a }
  else
    { r := inp.r, g := inp.g, b := inp.b, a := out_a }

/-! ## Erase mode -/

/-- One iteration of the `while (samples--)` loop of
`gimp_operation_erase_mode_process_pixels`: `value = opacity`, multiplied by
`*mask` when there is a mask; the colour channels are copied from `in` and
`out[ALPHA] = in[ALPHA] - in[ALPHA] * layer[ALPHA] * value`, in exact
arithmetic (the binary32 evaluation is `erase_mode_pixel_f32`). -/
def erase_mode_pixel (inp layer : Sample) (mask : Option ℚ) (opacity : ℚ) : Sample :=
  let value := match mask with
    | some m => opacity * m
    | none => opacity
  { r := inp.r, g := inp.g, b := inp.b, a := inp.a - inp.a * layer.a * value }

/-- The function `gimp_operation_erase_mode_process_pixels`, with the same
reading of the buffers as for the Normal operator. -/
def gimp_operation_erase_mode_process_pixels
    (inp layer : List Sample) (mask : Option (List ℚ)) (opacity : ℚ)
    (samples : Nat) (roi : GeglRectangle) : List Sample :=
  match samples, inp, layer with
  | n + 1, i :: inp', l :: layer' =>
      match mask_head mask with
      | some m =>
          erase_mode_pixel i l m opacity ::
            gimp_operation_erase_mode_process_pixels inp' layer' (mask_next mask) opacity n roi
      | none => []
  | _, _, _ => []
termination_by structural samples

/-! ## Replace mode -/

/-- The value of `new_alpha` (lines 97-100 of gimpoperationreplacemode.c). -/
def replace_new_alpha (inp layer : Sample) (mask : Option ℚ) (opacity : ℚ) : ℚ :=
  match mask with
  | some m => (layer.a - inp.a) * m * opacity + inp.a
  | none => (layer.a - inp.a) * opacity + inp.a

/-- The value of `ratio` (lines 106-109), computed when `new_alpha` is not
zero. -/
def replace_ratio (layer : Sample) (mask : Option ℚ) (opacity new_alpha : ℚ) : ℚ :=
  match mask with
  | some m => m * opacity * layer.a / new_alpha
  | none => opacity * layer.a / new_alpha

/-- The body of the channel loop (lines 113-124): the two branches on
`layer[b] > in[b]`. -/
def replace_channel (inb layerb ratio : ℚ) : ℚ :=
  if layerb > inb then
    inb + (layerb - inb) * ratio
  else
    inb - (inb - layerb) * ratio

/-- One iteration of the `while (samples--)` loop of
`gimp_operation_replace_mode_process_pixels`, in exact arithmetic (the binary32
evaluation is `replace_mode_pixel_f32`). -/
def replace_mode_pixel (inp layer : Sample) (mask : Option ℚ) (opacity : ℚ) : Sample :=
  let new_alpha := replace_new_alpha inp layer mask opacity
  if new_alpha ≠ 0 then
    let ratio := replace_ratio layer mask opacity new_alpha
    { r := replace_channel inp.r layer.r ratio
      g := replace_channel inp.g layer.g ratio
      b := replace_channel inp.b layer.b ratio
      a := new_alpha }
  else
    { r := inp.r, g := inp.g, b := inp.b, a := new_alpha }

/-- The function `gimp_operation_replace_mode_process_pixels`, with the same
reading of the buffers as for the Normal operator. -/
def gimp_operation_replace_mode_process_pixels
    (inp layer : List Sample) (mask : Option (List ℚ)) (opacity : ℚ)
    (samples : Nat) (roi : GeglRectangle) : List Sample :=
  match samples, inp, layer with
  | n + 1, i :: inp', l :: layer' =>
      match mask_head mask with
      | some m =>
          replace_mode_pixel i l m opacity ::
            gimp_operation_replace_mode_process_pixels inp' layer' (mask_next mask) opacity n roi
      | none => []
  | _, _, _ => []
termination_by structural samples

/-! ## Dissolve mode -/

/-- The constant `RANDOM_TABLE_SIZE`. -/
def RANDOM_TABLE_SIZE : Nat := 4096

/-- The part of GLib's `GRand` interface the dissolve operator calls.  GLib is
an external library, so the generator is a parameter of the model: a state, a
constructor from a `guint32` seed, `g_rand_int` (one 32-bit draw) and
`g_rand_int_range (gr, begin, end)`.  Nothing is assumed about how the two draw
functions advance the state. -/
structure GRand where
  State : Type
  new_with_seed : Nat → State
  rand_int : State → Nat × State
  rand_int_range : State → Int → Int → Int × State

/-- Storing a `guint32` in a `gint32` (`random_table[i] = g_rand_int (gr)`). -/
def to_gint32 (v : Nat) : Int :=
  if v % 2 ^ 32 < 2 ^ 31 then (v % 2 ^ 32 : Nat) else ((v % 2 ^ 32 : Nat) : Int) - 2 ^ 32

/-- Passing a `gint32` where a `guint32` is expected
(`g_rand_new_with_seed (random_table[...])`). -/
def to_guint32 (v : Int) : Nat :=
  (v % 2 ^ 32).toNat

/-- The loop `for (i = 0; i < RANDOM_TABLE_SIZE; i++) random_table[i] =
g_rand_int (gr);`, with `n` entries left to write. -/
def random_table_fill (G : GRand) : Nat → G.State → List Int
  | 0, _ => []
  | n + 1, gr => to_gint32 (G.rand_int gr).1 :: random_table_fill G n (G.rand_int gr).2

/-- The table of random seeds generated by
`gimp_operation_dissolve_mode_class_init`. -/
def gimp_operation_dissolve_mode_class_init (G : GRand) : List Int :=
  random_table_fill G RANDOM_TABLE_SIZE (G.new_with_seed 314159265)

/-- The read `random_table[i]` of the static array: defined for an index inside
the array only. -/
def random_table_read (random_table : List Int) (i : Int) : Option Int :=
  if i < 0 then none else random_table[i.toNat]?

/-- The loop `for (x = 0; x < result->x; x++) g_rand_int (gr);`, with `n`
iterations left: it runs `result->x` times when that is positive and not at
all otherwise. -/
def fast_forward (G : GRand) : Nat → G.State → G.State
  | 0, gr => gr
  | n + 1, gr => fast_forward G n (G.rand_int gr).2

/-- The body of the inner loop of
`gimp_operation_dissolve_mode_process_pixels` for the drawn integer `draw`:
`value = aux[ALPHA] * opacity * 255`, multiplied by `*mask` when there is a
mask; the input sample is kept when `draw >= value`, and otherwise the output
is the layer colour with alpha `1.0`.  The value is taken in exact arithmetic
(the binary32 evaluation is `dissolve_pixel_f32`). -/
def dissolve_pixel (draw : Int) (inp aux : Sample) (mask : Option ℚ) (opacity : ℚ) : Sample :=
  let value := match mask with
    | some m => aux.a * opacity * 255 * m
    | none => aux.a * opacity * 255
  if (draw : ℚ) ≥ value then
    inp
  else
    { r := aux.r, g := aux.g, b := aux.b, a := 1 }

/-- The inner loop `for (x = result->x; x < result->x + result->width; x++)`,
with `n` iterations left.  Returns the samples written to `out` and the
advanced `in`, `aux` and `mask` pointers. -/
def dissolve_row (G : GRand) (opacity : ℚ) :
    Nat → G.State → List Sample → List Sample → Option (List ℚ) →
      List Sample × List Sample × List Sample × Option (List ℚ)
  | n + 1, gr, i :: inp, a :: aux, mask =>
      match mask_head mask with
      | some m =>
          let d := G.rand_int_range gr 0 255
          let rest := dissolve_row G opacity n d.2 inp aux (mask_next mask)
          (dissolve_pixel d.1 i a m opacity :: rest.1, rest.2)
      | none => ([], i :: inp, a :: aux, mask)
  | _, _, inp, aux, mask => ([], inp, aux, mask)

/-- The outer loop `for (y = result->y; y < result->y + result->height; y++)`,
with `rows` iterations left and the current value of `y`.  The result is
`none` when the seed is read outside `random_table`. -/
def dissolve_rows (G : GRand) (random_table : List Int) (opacity : ℚ)
    (result : GeglRectangle) :
    Nat → Int → List Sample → List Sample → Option (List ℚ) → Option (List Sample)
  | 0, _, _, _, _ => some []
  | rows + 1, y, inp, aux, mask =>
      match random_table_read random_table (Int.tmod y RANDOM_TABLE_SIZE) with
      | none => none
      | some seed =>
          let gr := fast_forward G result.x.toNat (G.new_with_seed (to_guint32 seed))
          let row := dissolve_row G opacity result.width.toNat gr inp aux mask
          (dissolve_rows G random_table opacity result rows (y + 1)
            row.2.1 row.2.2.1 row.2.2.2).map (row.1 ++ ·)

/-- The function `gimp_operation_dissolve_mode_process_pixels`; `random_table`
is the static table of the file.  The list returned is the contents of `out`,
row after row. -/
def gimp_operation_dissolve_mode_process_pixels (G : GRand) (random_table : List Int)
    (inp aux : List Sample) (mask : Option (List ℚ)) (opacity : ℚ)
    (result : GeglRectangle) : Option (List Sample) :=
  dissolve_rows G random_table opacity result result.height.toNat result.y inp aux mask

/-- A linear congruential generator behind the `GRand` interface: a second,
small generator on which the array functions are run where a statement holds
for every generator.  It is not GLib's generator, which is `g_rand` below.
Both draw functions consume exactly one word of the stream. -/
def lcg : GRand where
  State := Nat
  new_with_seed := fun seed => seed
  rand_int := fun s => ((1103515245 * s + 12345) % 2 ^ 32, (1103515245 * s + 12345) % 2 ^ 32)
  rand_int_range := fun s lo hi =>
    (lo + (((1103515245 * s + 12345) % 2 ^ 32 / 65536 : Nat) : Int) % (hi - lo),
      (1103515245 * s + 12345) % 2 ^ 32)

/-! ## Specification-side formulas and the shape of the point loops -/

/-- Moving `inb` toward `auxb` by `|auxb - inb| * ratio`, preserving the sign of
the difference, in the words of the specification. -/
def move_toward (inb auxb ratio : ℚ) : ℚ :=
  if auxb - inb > 0 then inb + |auxb - inb| * ratio else inb - |auxb - inb| * ratio

/-- The Replace formula in the words of the specification:
`new_a = (aux.a - in.a)*(mask ?? 1)*opacity + in.a`; if `new_a != 0` then
`ratio = (mask ?? 1)*opacity*aux.a / new_a` and every colour channel moves from
`in.b` toward `aux.b` by `|aux.b - in.b| * ratio`; `out.a = new_a`; if
`new_a == 0` the colours pass through unchanged. -/
def replace_spec (inp aux : Sample) (mask : Option ℚ) (opacity : ℚ) : Sample :=
  let new_a := (aux.a - inp.a) * mask.getD 1 * opacity + inp.a
  if new_a ≠ 0 then
    let ratio := mask.getD 1 * opacity * aux.a / new_a
    { r := move_toward inp.r aux.r ratio
      g := move_toward inp.g aux.g ratio
      b := move_toward inp.b aux.b ratio
      a := new_a }
  else
    { r := inp.r, g := inp.g, b := inp.b, a := new_a }

/-- The common shape of the `while (samples--)` loops of the Normal, Erase and
Replace operators, for a loop body `f`. -/
def point_loop (f : Sample → Sample → Option ℚ → ℚ → Sample)
    (inp aux : List Sample) (mask : Option (List ℚ)) (opacity : ℚ)
    (samples : Nat) : List Sample :=
  match samples, inp, aux with
  | n + 1, i :: inp', a :: aux' =>
      match mask_head mask with
      | some m => f i a m opacity :: point_loop f inp' aux' (mask_next mask) opacity n
      | none => []
  | _, _, _ => []
termination_by structural samples

/-- The mask value that belongs to sample `i`: no value when there is no mask,
entry `i` of the mask otherwise (undefined past the end of the mask). -/
def mask_at (mask : Option (List ℚ)) (i : Nat) : Option (Option ℚ) :=
  match mask with
  | none => some none
  | some ms => (ms[i]?).map some

/-- Sample `i` of the per-pixel map of `f`: a function of `in[i]`, `aux[i]`,
`mask[i]` (when there is a mask) and the opacity only, defined where the three
buffers have an entry `i`. -/
def sample_at (f : Sample → Sample → Option ℚ → ℚ → Sample)
    (inp aux : List Sample) (mask : Option (List ℚ)) (opacity : ℚ) (i : Nat) : Option Sample :=
  match inp[i]?, aux[i]?, mask_at mask i with
  | some x, some a, some m => some (f x a m opacity)
  | _, _, _ => none

/-! ## Mode nodes (gimp-gegl-nodes.c) -/

/-- The enumerators of `GimpLayerModeEffects` named by the `case` labels of
`gimp_gegl_mode_node_set_mode`, in the order of the `switch`. -/
inductive GimpLayerModeEffects where
  | GIMP_NORMAL_MODE
  | GIMP_DISSOLVE_MODE
  | GIMP_BEHIND_MODE
  | GIMP_MULTIPLY_MODE
  | GIMP_SCREEN_MODE
  | GIMP_OVERLAY_MODE
  | GIMP_DIFFERENCE_MODE
  | GIMP_ADDITION_MODE
  | GIMP_SUBTRACT_MODE
  | GIMP_DARKEN_ONLY_MODE
  | GIMP_LIGHTEN_ONLY_MODE
  | GIMP_HUE_MODE
  | GIMP_SATURATION_MODE
  | GIMP_COLOR_MODE
  | GIMP_VALUE_MODE
  | GIMP_DIVIDE_MODE
  | GIMP_DODGE_MODE
  | GIMP_BURN_MODE
  | GIMP_HARDLIGHT_MODE
  | GIMP_SOFTLIGHT_MODE
  | GIMP_GRAIN_EXTRACT_MODE
  | GIMP_GRAIN_MERGE_MODE
  | GIMP_COLOR_ERASE_MODE
  | GIMP_ERASE_MODE
  | GIMP_REPLACE_MODE
  | GIMP_ANTI_ERASE_MODE
deriving DecidableEq, Repr

/-- All the enumerators, in the order of the `switch`. -/
def GimpLayerModeEffects.all : List GimpLayerModeEffects :=
  [.GIMP_NORMAL_MODE,
    .GIMP_DISSOLVE_MODE,
    .GIMP_BEHIND_MODE,
    .GIMP_MULTIPLY_MODE,
    .GIMP_SCREEN_MODE,
    .GIMP_OVERLAY_MODE,
    .GIMP_DIFFERENCE_MODE,
    .GIMP_ADDITION_MODE,
    .GIMP_SUBTRACT_MODE,
    .GIMP_DARKEN_ONLY_MODE,
    .GIMP_LIGHTEN_ONLY_MODE,
    .GIMP_HUE_MODE,
    .GIMP_SATURATION_MODE,
    .GIMP_COLOR_MODE,
    .GIMP_VALUE_MODE,
    .GIMP_DIVIDE_MODE,
    .GIMP_DODGE_MODE,
    .GIMP_BURN_MODE,
    .GIMP_HARDLIGHT_MODE,
    .GIMP_SOFTLIGHT_MODE,
    .GIMP_GRAIN_EXTRACT_MODE,
    .GIMP_GRAIN_MERGE_MODE,
    .GIMP_COLOR_ERASE_MODE,
    .GIMP_ERASE_MODE,
    .GIMP_REPLACE_MODE,
    .GIMP_ANTI_ERASE_MODE]

/-- The value of `operation` after the `switch (mode)` of
`gimp_gegl_mode_node_set_mode`.  The argument is `some m` for the enumerator
`m` and `none` for any other value of the C enumeration type, which takes the
`default:` branch and leaves `operation` at its initial value. -/
def mode_node_operation (mode : Option GimpLayerModeEffects) : String :=
  match mode with
  | some .GIMP_NORMAL_MODE => "gimp:normal-mode"
  | some .GIMP_DISSOLVE_MODE => "gimp:dissolve-mode"
  | some .GIMP_BEHIND_MODE => "gimp:behind-mode"
  | some .GIMP_MULTIPLY_MODE => "gimp:multiply-mode"
  | some .GIMP_SCREEN_MODE => "gimp:screen-mode"
  | some .GIMP_OVERLAY_MODE => "gimp:overlay-mode"
  | some .GIMP_DIFFERENCE_MODE => "gimp:difference-mode"
  | some .GIMP_ADDITION_MODE => "gimp:addition-mode"
  | some .GIMP_SUBTRACT_MODE => "gimp:subtract-mode"
  | some .GIMP_DARKEN_ONLY_MODE => "gimp:darken-only-mode"
  | some .GIMP_LIGHTEN_ONLY_MODE => "gimp:lighten-only-mode"
  | some .GIMP_HUE_MODE => "gimp:hue-mode"
  | some .GIMP_SATURATION_MODE => "gimp:saturation-mode"
  | some .GIMP_COLOR_MODE => "gimp:color-mode"
  | some .GIMP_VALUE_MODE => "gimp:value-mode"
  | some .GIMP_DIVIDE_MODE => "gimp:divide-mode"
  | some .GIMP_DODGE_MODE => "gimp:dodge-mode"
  | some .GIMP_BURN_MODE => "gimp:burn-mode"
  | some .GIMP_HARDLIGHT_MODE => "gimp:hardlight-mode"
  | some .GIMP_SOFTLIGHT_MODE => "gimp:softlight-mode"
  | some .GIMP_GRAIN_EXTRACT_MODE => "gimp:grain-extract-mode"
  | some .GIMP_GRAIN_MERGE_MODE => "gimp:grain-merge-mode"
  | some .GIMP_COLOR_ERASE_MODE => "gimp:color-erase-mode"
  | some .GIMP_ERASE_MODE => "gimp:erase-mode"
  | some .GIMP_REPLACE_MODE => "gimp:replace-mode"
  | some .GIMP_ANTI_ERASE_MODE => "gimp:anti-erase-mode"
  | none => "gimp:normal-mode"

/-- The struct `GimpRGB`: four `gdouble` components. -/
structure GimpRGB where
  r : ℚ
  g : ℚ
  b : ℚ
  a : ℚ
deriving DecidableEq, Repr

/-- The struct `GimpMatrix3`: the nine coefficients, row after row. -/
structure GimpMatrix3 where
  coeff : List ℚ
deriving DecidableEq, Repr

/-- A value handed to `gegl_node_new_child` or `gegl_node_set` for a property:
a string, a `gdouble`, a colour, or a `GeglBuffer` designated by its handle. -/
inductive GeglValue where
  | text (s : String)
  | number (q : ℚ)
  | color (c : GimpRGB)
  | buffer (handle : Nat)
deriving DecidableEq, Repr

/-- A node of the GEGL graph as gimp-gegl-nodes.c sees it: the properties
`operation`, `linear` and `opacity` that `gimp_gegl_mode_node_set_mode` reads
with `gegl_node_get` and writes with `gegl_node_set`, the parent the node was
created in, and the other properties given to it by name. -/
structure GeglNode where
  operation : String
  linear : Bool
  opacity : ℚ
  parent : Option Nat := none
  properties : List (String × GeglValue) := []
deriving DecidableEq, Repr

/-- The function `gimp_gegl_mode_node_set_mode`; `node` is `none` when
`GEGL_IS_NODE (node)` fails, and the result is the node after the call. -/
def gimp_gegl_mode_node_set_mode (node : Option GeglNode)
    (mode : Option GimpLayerModeEffects) (linear : Bool) : Option GeglNode :=
  match node with
  | none => none
  | some n =>
      let operation := mode_node_operation mode
      let opacity := n.opacity
      some { n with operation := operation, linear := linear, opacity := opacity }

/-- The `"name"` key set by `gimp_operation_normal_mode_class_init`. -/
def gimp_operation_normal_mode_name : String := "gimp:normal-mode"

/-- The `"name"` key set by `gimp_operation_dissolve_mode_class_init`. -/
def gimp_operation_dissolve_mode_name : String := "gimp:dissolve-mode"

/-- The `"name"` key set by `gimp_operation_erase_mode_class_init`. -/
def gimp_operation_erase_mode_name : String := "gimp:erase-mode"

/-- The `"name"` key set by `gimp_operation_replace_mode_class_init`. -/
def gimp_operation_replace_mode_name : String := "gimp:replace-mode"

/-! ## The node graph and the other functions of gimp-gegl-nodes.c

GEGL is an external library.  Its graph is modelled by the list of the nodes
created so far, a `GeglNode *` being the index of a node in that list, and by
the list of the connections made; `gegl_node_new`, `gegl_node_new_child`, the
proxy getters and `gegl_node_connect_to` append to these lists. -/

/-- A connection made by `gegl_node_connect_to (source, source_pad, sink,
sink_pad)`. -/
structure GeglConnection where
  source : Nat
  source_pad : String
  sink : Nat
  sink_pad : String
deriving DecidableEq, Repr

/-- The state of the node graph. -/
structure GeglGraph where
  nodes : List GeglNode
  connections : List GeglConnection
deriving DecidableEq, Repr

/-- The node that a `GeglNode *` designates: `none` when `GEGL_IS_NODE` fails
(a null pointer, or a pointer to no node of the graph). -/
def GeglGraph.node_at (g : GeglGraph) (node : Option Nat) : Option GeglNode :=
  match node with
  | some id => g.nodes[id]?
  | none => none

/-- Appending a node to the graph; its pointer is its index. -/
def GeglGraph.add_node (g : GeglGraph) (n : GeglNode) : Nat × GeglGraph :=
  (g.nodes.length, { g with nodes := g.nodes ++ [n] })

/-- The call `gegl_node_new ()`: a node with no operation and no parent. -/
def gegl_node_new (g : GeglGraph) : Nat × GeglGraph :=
  g.add_node { operation := "", linear := false, opacity := 0 }

/-- The call `gegl_node_new_child (parent, "operation", operation, ..., NULL)`
with the further properties `properties`. -/
def gegl_node_new_child (g : GeglGraph) (parent : Nat) (operation : String)
    (properties : List (String × GeglValue)) : Nat × GeglGraph :=
  g.add_node { operation := operation, linear := false, opacity := 0,
               parent := some parent, properties := properties }

/-- The call `gegl_node_get_input_proxy (node, name)`: the proxy is a child
node of `node`. -/
def gegl_node_get_input_proxy (g : GeglGraph) (node : Nat) (name : String) :
    Nat × GeglGraph :=
  gegl_node_new_child g node "gegl:nop" [("name", .text ("proxynop-" ++ name))]

/-- The call `gegl_node_get_output_proxy (node, name)`: as for the input. -/
def gegl_node_get_output_proxy (g : GeglGraph) (node : Nat) (name : String) :
    Nat × GeglGraph :=
  gegl_node_new_child g node "gegl:nop" [("name", .text ("proxynop-" ++ name))]

/-- The call `gegl_node_connect_to (source, source_pad, sink, sink_pad)`. -/
def gegl_node_connect_to (g : GeglGraph) (source : Nat) (source_pad : String)
    (sink : Nat) (sink_pad : String) : GeglGraph :=
  { g with connections := g.connections ++ [⟨source, source_pad, sink, sink_pad⟩] }

/-- Setting the property `name` in a list of properties: the value of an
existing entry is replaced, a new entry is appended otherwise. -/
def set_property (properties : List (String × GeglValue)) (name : String)
    (value : GeglValue) : List (String × GeglValue) :=
  match properties with
  | [] => [(name, value)]
  | (k, v) :: rest =>
      if k = name then (k, value) :: rest else (k, v) :: set_property rest name value

/-- The graph after a function of gimp-gegl-nodes.c that works on one node has
run on the node that `node` designates: `after` is that node after the call, or
`none` when the function returned without touching it. -/
def GeglGraph.store (g : GeglGraph) (node : Option Nat) (after : Option GeglNode) :
    GeglGraph :=
  match node, after with
  | some id, some n => { g with nodes := g.nodes.set id n }
  | _, _ => g

/-- The function `gimp_gegl_create_flatten_node`; `background` is `none` for a
null pointer.  Returns the new node, or `none` for `NULL`, and the graph after
the call. -/
def gimp_gegl_create_flatten_node (g : GeglGraph) (background : Option GimpRGB) :
    Option Nat × GeglGraph :=
  match background with
  | none => (none, g)
  | some c =>
      let node := gegl_node_new g
      let input := gegl_node_get_input_proxy node.2 node.1 "input"
      let output := gegl_node_get_output_proxy input.2 node.1 "output"
      let color := gegl_node_new_child output.2 node.1 "gegl:color" [("value", .color c)]
      let over := gegl_node_new_child color.2 node.1 "gegl:over" []
      let g1 := gegl_node_connect_to over.2 input.1 "output" over.1 "aux"
      let g2 := gegl_node_connect_to g1 color.1 "output" over.1 "input"
      let g3 := gegl_node_connect_to g2 over.1 "output" output.1 "input"
      (some node.1, g3)

/-- The function `gimp_gegl_add_buffer_source`; `buffer` is `none` when
`GEGL_IS_BUFFER (buffer)` fails, a buffer handle otherwise. -/
def gimp_gegl_add_buffer_source (g : GeglGraph) (parent : Option Nat) (buffer : Option Nat)
    (offset_x offset_y : Int) : Option Nat × GeglGraph :=
  match parent, g.node_at parent, buffer with
  | some p, some _, some b =>
      let buffer_source :=
        gegl_node_new_child g p "gegl:buffer-source" [("buffer", .buffer b)]
      if offset_x ≠ 0 ∨ offset_y ≠ 0 then
        let translate := gegl_node_new_child buffer_source.2 p "gegl:translate"
          [("x", .number offset_x), ("y", .number offset_y)]
        (some translate.1,
          gegl_node_connect_to translate.2 buffer_source.1 "output" translate.1 "input")
      else
        (some buffer_source.1, buffer_source.2)
  | _, _, _ => (none, g)

/-- The function `gimp_gegl_create_apply_opacity_node`; `mask` is `none` when
`GEGL_IS_BUFFER (mask)` fails. -/
def gimp_gegl_create_apply_opacity_node (g : GeglGraph) (mask : Option Nat)
    (mask_offset_x mask_offset_y : Int) (opacity : ℚ) : Option Nat × GeglGraph :=
  match mask with
  | none => (none, g)
  | some m =>
      let node := gegl_node_new g
      let input := gegl_node_get_input_proxy node.2 node.1 "input"
      let output := gegl_node_get_output_proxy input.2 node.1 "output"
      let opacity_node :=
        gegl_node_new_child output.2 node.1 "gegl:opacity" [("value", .number opacity)]
      let mask_source := gimp_gegl_add_buffer_source opacity_node.2 (some node.1) (some m)
        mask_offset_x mask_offset_y
      let g1 := gegl_node_connect_to mask_source.2 input.1 "output" opacity_node.1 "input"
      let g2 := match mask_source.1 with
        | some source => gegl_node_connect_to g1 source "output" opacity_node.1 "aux"
        | none => g1
      let g3 := gegl_node_connect_to g2 opacity_node.1 "output" output.1 "input"
      (some node.1, g3)

/-- The function `gimp_gegl_mode_node_set_opacity`; `node` is `none` when
`GEGL_IS_NODE (node)` fails, and the result is the node after the call. -/
def gimp_gegl_mode_node_set_opacity (node : Option GeglNode) (opacity : ℚ) :
    Option GeglNode :=
  match node with
  | none => none
  | some n => some { n with opacity := opacity }

/-- The function `gimp_gegl_node_set_matrix`; `matrix` is `none` for a null
pointer, and `matrix_to_string` stands for GEGL's `gegl_matrix3_to_string`. -/
def gimp_gegl_node_set_matrix (matrix_to_string : GimpMatrix3 → String)
    (node : Option GeglNode) (matrix : Option GimpMatrix3) : Option GeglNode :=
  match node, matrix with
  | some n, some m =>
      let matrix_string := matrix_to_string m
      some { n with properties := set_property n.properties "transform" (.text matrix_string) }
  | _, _ => none

/-- The value that a `switch` on a value `v` of the C enumeration type selects,
for a numbering `value` of the enumerators (core-enums.h, which gives them their
numbers, is not among the sources): the enumerator numbered `v`, or `none` when
no enumerator has that number. -/
def enumerator_of_value (value : GimpLayerModeEffects → Int) (v : Int) :
    Option GimpLayerModeEffects :=
  GimpLayerModeEffects.all.find? fun m => decide (value m = v)

/-! ## The smudge tool (gimpsmudge.c)

The contents of a `GeglBuffer` are modelled by the sample at every integer pixel
coordinate; extents and the abyss are not modelled.  A `gdouble` is an exact
rational, as a `gfloat` is. -/

/-- The contents of a buffer in the format "RGBA float". -/
abbrev PixelMap := Int → Int → Sample

/-- Whether the pixel `(px, py)` lies in the rectangle. -/
def GeglRectangle.contains (rect : GeglRectangle) (px py : Int) : Bool :=
  decide (rect.x ≤ px ∧ px < rect.x + rect.width ∧ rect.y ≤ py ∧ py < rect.y + rect.height)

/-- The call `gegl_buffer_set_color (buffer, NULL, color)`: every pixel of the
buffer gets the colour. -/
def gegl_buffer_set_color (color : Sample) : PixelMap :=
  fun _ _ => color

/-- The call `gegl_buffer_copy (src, src_rect, dst, dst_rect)`: the pixels of
`src_rect` are written to `dst` from the origin `(dst_x, dst_y)` of `dst_rect`
on; the width and height of `dst_rect` are not used. -/
def gegl_buffer_copy (src : PixelMap) (src_rect : GeglRectangle) (dst : PixelMap)
    (dst_x dst_y : Int) : PixelMap :=
  fun px py =>
    if GeglRectangle.contains ⟨dst_x, dst_y, src_rect.width, src_rect.height⟩ px py then
      src (px - dst_x + src_rect.x) (py - dst_y + src_rect.y)
    else
      dst px py

/-- The blend of one accumulator sample with one drawable sample:
`rate*accumulator + (1-rate)*drawable` in each of the four channels. -/
def smudge_blend_sample (rate : ℚ) (accum under : Sample) : Sample :=
  { r := rate * accum.r + (1 - rate) * under.r
    g := rate * accum.g + (1 - rate) * under.g
    b := rate * accum.b + (1 - rate) * under.b
    a := rate * accum.a + (1 - rate) * under.a }

/-- Modelled from the spec: the function `gimp_gegl_smudge_blend` of
gimp-gegl-loops.c, which is not among the sources.  The specification gives
`accumulator = rate*accumulator + (1-rate)*current_drawable_region` over the
footprint: the pixel at offset `(i, j)` of `dest_rect` is the blend of the
pixels at the same offset of `top_rect` in `top` (the accumulator) and of
`bottom_rect` in `bottom` (the drawable); the other pixels of `dest` are
kept. -/
def gimp_gegl_smudge_blend (top : PixelMap) (top_rect : GeglRectangle) (bottom : PixelMap)
    (bottom_rect : GeglRectangle) (dest : PixelMap) (dest_rect : GeglRectangle)
    (blend : ℚ) : PixelMap :=
  fun px py =>
    if dest_rect.contains px py then
      smudge_blend_sample blend
        (top (top_rect.x + (px - dest_rect.x)) (top_rect.y + (py - dest_rect.y)))
        (bottom (bottom_rect.x + (px - dest_rect.x)) (bottom_rect.y + (py - dest_rect.y)))
    else
      dest px py

/-- The least natural number whose square is at least `n`, computed with the
integer square root. -/
def ceil_sqrt (n : Nat) : Nat :=
  if Nat.sqrt n * Nat.sqrt n = n then Nat.sqrt n else Nat.sqrt n + 1

/-- The macro `SQR`. -/
def SQR (x : ℚ) : ℚ := x * x

/-- The function `gimp_smudge_accumulator_size`:
`ceil (sqrt (2 * SQR (paint_options->brush_size + 1)) + 2)`, computed exactly:
the ceiling of the square root of a rational `q ≥ 0` is `ceil_sqrt` of the
ceiling of `q`. -/
def gimp_smudge_accumulator_size (brush_size : ℚ) : Int :=
  (ceil_sqrt (Int.toNat ⌈2 * SQR (brush_size + 1)⌉) : Int) + 2

/-- The macro `CLAMP (x, low, high)`. -/
def CLAMP (x low high : Int) : Int :=
  if x > high then high else if x < low then low else x

/-- The constant `GIMP_OPACITY_OPAQUE`. -/
def GIMP_OPACITY_OPAQUE : ℚ := 1

/-- The accumulation buffer `smudge->accum_buffer`: a square of side `size`
at the origin, and its contents. -/
structure AccumBuffer where
  size : Int
  pixels : PixelMap

/-- The state the smudge tool works on: the fields `initialized` and
`accum_buffer` of `GimpSmudge`, the contents of the paint core's paint buffer
and the contents of the drawable's buffer. -/
structure SmudgeState where
  initialized : Bool
  accum_buffer : Option AccumBuffer
  paint_buffer : PixelMap
  drawable : PixelMap

/-- What one call of `gimp_smudge_paint` reads from its arguments and from the
paint core: `(gint) coords->x` and `(gint) coords->y`; the result of
`gimp_paint_core_get_paint_buffer` (`none` for `NULL`, otherwise the position
`paint_buffer_x`, `paint_buffer_y` and the width and height of the buffer); the
values of `gimp_dynamics_get_linear_value` for the opacity, rate and hardness
outputs; `options->rate`; `paint_options->brush_size`; and the width and height
of the drawable. -/
structure PaintEvent where
  coords_x : Int
  coords_y : Int
  paint_buffer : Option GeglRectangle
  opacity : ℚ
  dynamic_rate : ℚ
  hardness : ℚ
  rate : ℚ
  brush_size : ℚ
  drawable_width : Int
  drawable_height : Int

/-- The values of `GimpPaintState` that `gimp_smudge_paint` distinguishes: the
two `case` labels, and any other value. -/
inductive GimpPaintState where
  | GIMP_PAINT_STATE_MOTION
  | GIMP_PAINT_STATE_FINISH
  | other
deriving DecidableEq, Repr

/-- The type of `gimp_brush_core_replace_canvas`, which is not among the
sources: from the drawable, the paint buffer, the event, the opacity argument
and the hardness to the drawable after the call. -/
abbrev ReplaceCanvas := PixelMap → PixelMap → PaintEvent → ℚ → ℚ → PixelMap

/-- The function `gimp_smudge_accumulator_coords`, for an accumulator of side
`size`: `(gint) coords->x - width / 2` and the same for `y`. -/
def gimp_smudge_accumulator_coords (size : Int) (ev : PaintEvent) : Int × Int :=
  (ev.coords_x - Int.tdiv size 2, ev.coords_y - Int.tdiv size 2)

/-- The function `gimp_smudge_start`: the value returned and the state after
the call.  The buffer from `gegl_buffer_new` is transparent. -/
def gimp_smudge_start (s : SmudgeState) (ev : PaintEvent) : Bool × SmudgeState :=
  match ev.paint_buffer with
  | none => (false, s)
  | some pb =>
      let accum_size := gimp_smudge_accumulator_size ev.brush_size
      let fresh : PixelMap := fun _ _ => ⟨0, 0, 0, 0⟩
      let xy := gimp_smudge_accumulator_coords accum_size ev
      let filled : PixelMap :=
        if xy.1 ≠ pb.x ∨ xy.2 ≠ pb.y ∨ accum_size ≠ pb.width ∨ accum_size ≠ pb.height then
          gegl_buffer_set_color
            (s.drawable (CLAMP ev.coords_x 0 (ev.drawable_width - 1))
              (CLAMP ev.coords_y 0 (ev.drawable_height - 1)))
        else
          fresh
      let pixels := gegl_buffer_copy s.drawable ⟨pb.x, pb.y, pb.width, pb.height⟩ filled
        (pb.x - xy.1) (pb.y - xy.2)
      (true, { s with accum_buffer := some ⟨accum_size, pixels⟩ })

/-- The function `gimp_smudge_motion`.  The result is `none` when the function
uses `smudge->accum_buffer` while it is `NULL`. -/
def gimp_smudge_motion (replace_canvas : ReplaceCanvas) (s : SmudgeState)
    (ev : PaintEvent) : Option SmudgeState :=
  if ev.opacity = 0 then
    some s
  else
    match ev.paint_buffer with
    | none => some s
    | some pb =>
        match s.accum_buffer with
        | none => none
        | some accum =>
            let xy := gimp_smudge_accumulator_coords accum.size ev
            let rate := ev.rate / 100 * ev.dynamic_rate
            let rect : GeglRectangle := ⟨pb.x - xy.1, pb.y - xy.2, pb.width, pb.height⟩
            let pixels := gimp_gegl_smudge_blend accum.pixels rect s.drawable
              ⟨pb.x, pb.y, pb.width, pb.height⟩ accum.pixels rect rate
            let paint := gegl_buffer_copy pixels rect s.paint_buffer 0 0
            let drawable := replace_canvas s.drawable paint ev
              (min ev.opacity GIMP_OPACITY_OPAQUE) ev.hardness
            some { s with accum_buffer := some { accum with pixels := pixels },
                          paint_buffer := paint, drawable := drawable }

/-- The function `gimp_smudge_paint`. -/
def gimp_smudge_paint (replace_canvas : ReplaceCanvas) (s : SmudgeState) (ev : PaintEvent)
    (paint_state : GimpPaintState) : Option SmudgeState :=
  match paint_state with
  | .GIMP_PAINT_STATE_MOTION =>
      let s1 : SmudgeState :=
        if s.initialized = false then
          { (gimp_smudge_start s ev).2 with initialized := (gimp_smudge_start s ev).1 }
        else s
      if s1.initialized = true then gimp_smudge_motion replace_canvas s1 ev else some s1
  | .GIMP_PAINT_STATE_FINISH => some { s with accum_buffer := none, initialized := false }
  | .other => some s

/-- A sequence of calls of `gimp_smudge_paint`, one for each event of the
list. -/
def smudge_run (replace_canvas : ReplaceCanvas) (s : SmudgeState) :
    List (PaintEvent × GimpPaintState) → Option SmudgeState
  | [] => some s
  | (ev, paint_state) :: rest =>
      match gimp_smudge_paint replace_canvas s ev paint_state with
      | some s1 => smudge_run replace_canvas s1 rest
      | none => none

/-! ## IEEE 754 binary32 arithmetic

The C type `gfloat` is `float`: IEEE 754 binary32.  Each arithmetic operation
of the loops returns the exact result rounded to the nearest binary32 value,
ties going to the even significand, as on a target that evaluates `float`
expressions in `float` and does not fuse a product with a sum.  A finite
binary32 value is a rational number, so the rounded operations below work on
rationals; the two zeros are one value (the loops test `if (out[ALPHA])`, which
does not tell them apart), and the result `none` stands for a result that is
not finite (an overflow to infinity). -/

/-- The number of binary digits of `n`, found by halving at most `fuel`
times. -/
def bit_length : Nat → Nat → Nat
  | 0, _ => 0
  | fuel + 1, n => if n = 0 then 0 else bit_length fuel (n / 2) + 1

/-- The exponent of the leading binary digit of `n / d`, for positive `n` and
`d`: the integer `e` with `2 ^ e ≤ n / d < 2 ^ (e + 1)`. -/
def floor_log2 (n d : Nat) : Int :=
  let k : Int := (bit_length n n : Int) - (bit_length d d : Int)
  if 0 ≤ k then
    if d * 2 ^ k.toNat ≤ n then k else k - 1
  else
    if d ≤ n * 2 ^ (-k).toNat then k else k - 1

/-- The integer nearest to `n / d`, a tie going to the even one. -/
def round_half_even (n d : Nat) : Nat :=
  if 2 * (n % d) < d then n / d
  else if d < 2 * (n % d) then n / d + 1
  else if (n / d) % 2 = 0 then n / d else n / d + 1

/-- The rational `m * 2 ^ q`. -/
def scale2 (m : Nat) (q : Int) : ℚ :=
  if 0 ≤ q then ((m * 2 ^ q.toNat : Nat) : ℚ) else mkRat m (2 ^ (-q).toNat)

/-- Rounding of the exact result `x` to binary32, to nearest with ties to even:
a significand of 24 binary digits, the spacing of the subnormal values being
`2 ^ (-149)`; a result of magnitude `2 ^ 128` or more is not finite. -/
def f32_round (x : ℚ) : Option ℚ :=
  if x = 0 then some 0
  else
    let n := x.num.natAbs
    let d := x.den
    let q := max (floor_log2 n d - 23) (-149)
    let m := if 0 ≤ q then round_half_even n (d * 2 ^ q.toNat)
             else round_half_even (n * 2 ^ (-q).toNat) d
    if 2 ^ 128 ≤ scale2 m q then none
    else if x < 0 then some (-scale2 m q) else some (scale2 m q)

/-- The `float` sum `a + b`. -/
def f32_add (a b : ℚ) : Option ℚ := f32_round (a + b)

/-- The `float` difference `a - b`. -/
def f32_sub (a b : ℚ) : Option ℚ := f32_round (a - b)

/-- The `float` product `a * b`. -/
def f32_mul (a b : ℚ) : Option ℚ := f32_round (a * b)

/-- The `float` quotient `a / b`; a division by zero has no finite result. -/
def f32_div (a b : ℚ) : Option ℚ := if b = 0 then none else f32_round (a / b)

/-- A rational that is a finite binary32 value: rounding returns it
unchanged. -/
def is_binary32 (x : ℚ) : Prop := f32_round x = some x

instance is_binary32_decidable (x : ℚ) : Decidable (is_binary32 x) :=
  inferInstanceAs (Decidable (f32_round x = some x))

/-- A sample whose four floats are finite binary32 values. -/
def Sample.is_binary32 (s : Sample) : Prop :=
  Gimp.is_binary32 s.r ∧ Gimp.is_binary32 s.g ∧ Gimp.is_binary32 s.b ∧ Gimp.is_binary32 s.a

instance sample_is_binary32_decidable (s : Sample) : Decidable s.is_binary32 :=
  inferInstanceAs (Decidable (_ ∧ _ ∧ _ ∧ _))

/-- The statement `out[b] = (aux[b] * aux_alpha + in[b] * in_weight) *
recip_out_alpha` in binary32: two products, their sum, and the last
product, each rounded. -/
def normal_channel_f32 (inb auxb aux_alpha in_weight recip_out_alpha : ℚ) : Option ℚ := do
  let t1 ← f32_mul auxb aux_alpha
  let t2 ← f32_mul inb in_weight
  let t3 ← f32_add t1 t2
  f32_mul t3 recip_out_alpha

/-- The value of `aux_alpha` after lines 196-198 of gimpoperationnormalmode.c,
in binary32: `aux_alpha = aux[ALPHA] * opacity; if (has_mask) aux_alpha *=
*mask;`. -/
def normal_aux_alpha_f32 (aux : Sample) (mask : Option ℚ) (opacity : ℚ) : Option ℚ :=
  match mask with
  | some m => do
      let aux_alpha ← f32_mul aux.a opacity
      f32_mul aux_alpha m
  | none => f32_mul aux.a opacity

/-- One iteration of the `while (samples--)` loop of
`gimp_operation_normal_mode_process_pixels_core` in binary32, every operation
rounded in the order in which the C expressions evaluate them. -/
def normal_mode_pixel_f32 (inp aux : Sample) (mask : Option ℚ) (opacity : ℚ) :
    Option Sample := do
  let aux_alpha ← normal_aux_alpha_f32 aux mask opacity
  let sum ← f32_add aux_alpha inp.a
  let prod ← f32_mul aux_alpha inp.a
  let out_alpha ← f32_sub sum prod
  if out_alpha ≠ 0 then
    let one_minus ← f32_sub 1 aux_alpha
    let in_weight ← f32_mul inp.a one_minus
    let recip_out_alpha ← f32_div 1 out_alpha
    let r ← normal_channel_f32 inp.r aux.r aux_alpha in_weight recip_out_alpha
    let g ← normal_channel_f32 inp.g aux.g aux_alpha in_weight recip_out_alpha
    let b ← normal_channel_f32 inp.b aux.b aux_alpha in_weight recip_out_alpha
    some { r := r, g := g, b := b, a := out_alpha }
  else
    some { r := inp.r, g := inp.g, b := inp.b, a := out_alpha }

/-- The value of `new_alpha` in binary32 (lines 97-100 of
gimpoperationreplacemode.c). -/
def replace_new_alpha_f32 (inp layer : Sample) (mask : Option ℚ) (opacity : ℚ) :
    Option ℚ := do
  let diff ← f32_sub layer.a inp.a
  let scaled ← match mask with
    | some m => do
        let dm ← f32_mul diff m
        f32_mul dm opacity
    | none => f32_mul diff opacity
  f32_add scaled inp.a

/-- The value of `ratio` in binary32 (lines 106-109). -/
def replace_ratio_f32 (layer : Sample) (mask : Option ℚ) (opacity new_alpha : ℚ) :
    Option ℚ := do
  let num ← match mask with
    | some m => do
        let mo ← f32_mul m opacity
        f32_mul mo layer.a
    | none => f32_mul opacity layer.a
  f32_div num new_alpha

/-- The body of the channel loop (lines 113-124) in binary32. -/
def replace_channel_f32 (inb layerb ratio : ℚ) : Option ℚ :=
  if layerb > inb then do
    let d ← f32_sub layerb inb
    let t ← f32_mul d ratio
    f32_add inb t
  else do
    let d ← f32_sub inb layerb
    let t ← f32_mul d ratio
    f32_sub inb t

/-- One iteration of the `while (samples--)` loop of
`gimp_operation_replace_mode_process_pixels` in binary32. -/
def replace_mode_pixel_f32 (inp layer : Sample) (mask : Option ℚ) (opacity : ℚ) :
    Option Sample := do
  let new_alpha ← replace_new_alpha_f32 inp layer mask opacity
  if new_alpha ≠ 0 then
    let ratio ← replace_ratio_f32 layer mask opacity new_alpha
    let r ← replace_channel_f32 inp.r layer.r ratio
    let g ← replace_channel_f32 inp.g layer.g ratio
    let b ← replace_channel_f32 inp.b layer.b ratio
    some { r := r, g := g, b := b, a := new_alpha }
  else
    some { r := inp.r, g := inp.g, b := inp.b, a := new_alpha }

/-- One iteration of the `while (samples--)` loop of
`gimp_operation_erase_mode_process_pixels` in binary32: `value = opacity`,
multiplied by `*mask` when there is a mask, and
`out[ALPHA] = in[ALPHA] - in[ALPHA] * layer[ALPHA] * value`. -/
def erase_mode_pixel_f32 (inp layer : Sample) (mask : Option ℚ) (opacity : ℚ) :
    Option Sample := do
  let value ← match mask with
    | some m => f32_mul opacity m
    | none => some opacity
  let p ← f32_mul inp.a layer.a
  let q ← f32_mul p value
  let a ← f32_sub inp.a q
  some { r := inp.r, g := inp.g, b := inp.b, a := a }

/-- The value compared with the drawn integer by the inner loop of
`gimp_operation_dissolve_mode_process_pixels`, in binary32:
`value = aux[ALPHA] * opacity * 255; if (has_mask) value *= *mask;`. -/
def dissolve_value_f32 (aux : Sample) (mask : Option ℚ) (opacity : ℚ) : Option ℚ := do
  let ao ← f32_mul aux.a opacity
  let value ← f32_mul ao 255
  match mask with
  | some m => f32_mul value m
  | none => some value

/-- The body of the inner loop of `gimp_operation_dissolve_mode_process_pixels`
in binary32 for the drawn integer `draw`, which the comparison converts to
`float` (exactly, for the integers below 255 that are drawn). -/
def dissolve_pixel_f32 (draw : Int) (inp aux : Sample) (mask : Option ℚ) (opacity : ℚ) :
    Option Sample := do
  let value ← dissolve_value_f32 aux mask opacity
  if (draw : ℚ) ≥ value then
    some inp
  else
    some { r := aux.r, g := aux.g, b := aux.b, a := 1 }

/-! ## GLib's generator

`GRand` is GLib's Mersenne Twister MT19937: 624 words of state, seeded by
Knuth's linear recurrence.  GLib is a library the operator calls; the
definitions below follow glib/grand.c (random version 2.2, the default). -/

/-- The constant `N` of grand.c. -/
def g_rand_N : Nat := 624

/-- The constant `M` of grand.c. -/
def g_rand_M : Nat := 397

/-- The words `mt[i], mt[i + 1], ...` written by `g_rand_set_seed`:
`mt[i] = 1812433253 * (mt[i-1] ^ (mt[i-1] >> 30)) + i`, with `count` words left
to write and `prev = mt[i - 1]`. -/
def g_rand_seed_fill : Nat → Nat → Nat → List Nat
  | 0, _, _ => []
  | count + 1, prev, i =>
      ((1812433253 * (prev ^^^ (prev >>> 30)) + i) % 2 ^ 32) ::
        g_rand_seed_fill count ((1812433253 * (prev ^^^ (prev >>> 30)) + i) % 2 ^ 32) (i + 1)

/-- The state of a `GRand`: the array `mt` and the index `mti`. -/
structure GRandState where
  mt : List Nat
  mti : Nat

/-- The function `g_rand_new_with_seed`: `mt[0] = seed`, the other words by the
recurrence, `mti = N`. -/
def g_rand_new_with_seed (seed : Nat) : GRandState :=
  ⟨(seed % 2 ^ 32) :: g_rand_seed_fill (g_rand_N - 1) (seed % 2 ^ 32) 1, g_rand_N⟩

/-- One step of the regeneration loops of `g_rand_int`:
`y = (mt[kk] & UPPER_MASK) | (mt[next] & LOWER_MASK);
mt[kk] = mt[src] ^ (y >> 1) ^ mag01[y & 1]`. -/
def g_rand_twist (mt : List Nat) (kk next src : Nat) : List Nat :=
  let y := (mt.getD kk 0 &&& 0x80000000) ||| (mt.getD next 0 &&& 0x7fffffff)
  mt.set kk (mt.getD src 0 ^^^ (y >>> 1) ^^^ (if y &&& 1 = 1 then 0x9908b0df else 0))

/-- A regeneration loop of `g_rand_int` with `n` iterations left, reading
`mt[kk + add - sub]`. -/
def g_rand_twist_loop (add sub : Nat) : Nat → Nat → List Nat → List Nat
  | 0, _, mt => mt
  | n + 1, kk, mt =>
      g_rand_twist_loop add sub n (kk + 1) (g_rand_twist mt kk (kk + 1) (kk + add - sub))

/-- The regeneration of the `N` words done by `g_rand_int` when `mti >= N`: the
loop for `kk < N - M` reading `mt[kk + M]`, the loop for `kk < N - 1` reading
`mt[kk + (M - N)]`, and the last word. -/
def g_rand_generate (mt : List Nat) : List Nat :=
  g_rand_twist
    (g_rand_twist_loop g_rand_M g_rand_N (g_rand_M - 1) (g_rand_N - g_rand_M)
      (g_rand_twist_loop g_rand_M 0 (g_rand_N - g_rand_M) 0 mt))
    (g_rand_N - 1) 0 (g_rand_M - 1)

/-- The tempering of `g_rand_int`. -/
def g_rand_temper (y0 : Nat) : Nat :=
  let y1 := y0 ^^^ (y0 >>> 11)
  let y2 := y1 ^^^ (((y1 <<< 7) % 2 ^ 32) &&& 0x9d2c5680)
  let y3 := y2 ^^^ (((y2 <<< 15) % 2 ^ 32) &&& 0xefc60000)
  y3 ^^^ (y3 >>> 18)

/-- The function `g_rand_int`. -/
def g_rand_int (s : GRandState) : Nat × GRandState :=
  let s1 : GRandState := if s.mti ≥ g_rand_N then ⟨g_rand_generate s.mt, 0⟩ else s
  (g_rand_temper (s1.mt.getD s1.mti 0), ⟨s1.mt, s1.mti + 1⟩)

/-- The loop `do random = g_rand_int (rand); while (random > maxvalue);` of
`g_rand_int_range`, with at most `fuel + 1` draws: the last of them is returned
as it is. -/
def g_rand_int_below : Nat → Nat → GRandState → Nat × GRandState
  | 0, _, s => g_rand_int s
  | fuel + 1, maxvalue, s =>
      if (g_rand_int s).1 > maxvalue then g_rand_int_below fuel maxvalue (g_rand_int s).2
      else g_rand_int s

/-- The function `g_rand_int_range` for `begin < end` with
`end - begin <= 2 ^ 31`: `maxvalue = 0xffffffff - leftover` with
`leftover = (0x80000000 % dist) * 2`, less `dist` when that is not below
`dist`; draws are repeated while above `maxvalue` (at most 65 times here; for
`dist = 255` only the word `0xffffffff` is drawn again), and the result is
`begin + random % dist`. -/
def g_rand_int_range (s : GRandState) (lo hi : Int) : Int × GRandState :=
  let dist := (hi - lo).toNat
  let leftover0 := (0x80000000 % dist) * 2
  let leftover := if leftover0 ≥ dist then leftover0 - dist else leftover0
  let d := g_rand_int_below 64 (0xffffffff - leftover) s
  (lo + ((d.1 % dist : Nat) : Int), d.2)

/-- GLib's generator behind the `GRand` interface. -/
def g_rand : GRand where
  State := GRandState
  new_with_seed := g_rand_new_with_seed
  rand_int := g_rand_int
  rand_int_range := g_rand_int_range

end Gimp

namespace Gimp

/-! ## Binary32 arithmetic: rounding at special values -/

/-- Binding a value that is present, stated for the `do` blocks of the binary32
bodies. -/
theorem option_some_bind {α β : Type} (a : α) (f : α → Option β) :
    (some a >>= f) = f a := by
  rw [Option.bind_eq_bind, Option.some_bind]

theorem f32_round_zero : f32_round 0 = some 0 := by simp [f32_round]

theorem f32_round_one : f32_round 1 = some 1 := by decide!

theorem f32_round_two : f32_round 2 = some 2 := by decide!

theorem f32_round_neg (x : ℚ) : f32_round (-x) = (f32_round x).map (fun y => -y) := by
  by_cases hx : x = 0
  · simp [hx, f32_round_zero]
  · have hnx : -x ≠ 0 := neg_ne_zero.2 hx
    have hsign : (-x < 0) ↔ ¬ (x < 0) := by
      constructor
      · intro h
        exact not_lt.2 (le_of_lt (neg_lt_zero.1 h))
      · intro h
        exact neg_lt_zero.2 (lt_of_le_of_ne (not_lt.1 h) (Ne.symm hx))
    simp only [f32_round, hx, hnx, if_false, Rat.neg_num, Rat.neg_den, Int.natAbs_neg, hsign]
    split_ifs <;> simp

theorem f32_mul_zero_right (x : ℚ) : f32_mul x 0 = some 0 := by simp [f32_mul, f32_round_zero]

theorem f32_mul_zero_left (x : ℚ) : f32_mul 0 x = some 0 := by simp [f32_mul, f32_round_zero]

theorem f32_mul_one_right (x : ℚ) : f32_mul x 1 = f32_round x := by simp [f32_mul]

theorem f32_mul_one_left (x : ℚ) : f32_mul 1 x = f32_round x := by simp [f32_mul]

theorem f32_add_zero_left (x : ℚ) : f32_add 0 x = f32_round x := by simp [f32_add]

theorem f32_add_zero_right (x : ℚ) : f32_add x 0 = f32_round x := by simp [f32_add]

theorem f32_sub_zero_right (x : ℚ) : f32_sub x 0 = f32_round x := by simp [f32_sub]

theorem f32_sub_zero_left (x : ℚ) : f32_sub 0 x = (f32_round x).map (fun y => -y) := by
  simp [f32_sub, f32_round_neg]

theorem f32_sub_self (x : ℚ) : f32_sub x x = some 0 := by simp [f32_sub, f32_round_zero]

theorem f32_div_self (x : ℚ) (h : x ≠ 0) : f32_div x x = some 1 := by
  simp [f32_div, h, f32_round_one]

/-- In binary32, with weight 1 for the layer, weight 0 for the input and
reciprocal 1, the channel statement of the Normal loop returns the layer's
channel. -/
theorem normal_channel_f32_layer (inb auxb : ℚ) (h : f32_round auxb = some auxb) :
    normal_channel_f32 inb auxb 1 0 1 = some auxb := by
  simp [normal_channel_f32, f32_mul_one_right, f32_mul_zero_right, f32_add_zero_right, h]

/-- In binary32, with weight 0 for the layer, weight 1 for the input and
reciprocal 1, the channel statement of the Normal loop returns the input's
channel. -/
theorem normal_channel_f32_input (inb auxb : ℚ) (h : f32_round inb = some inb) :
    normal_channel_f32 inb auxb 0 1 1 = some inb := by
  simp [normal_channel_f32, f32_mul_one_right, f32_mul_zero_right, f32_add_zero_left, h]

theorem f32_div_one_one : f32_div 1 1 = some 1 := f32_div_self 1 one_ne_zero

theorem f32_sub_one_zero : f32_sub 1 0 = some 1 := by
  rw [f32_sub_zero_right, f32_round_one]

theorem f32_mul_one_one : f32_mul 1 1 = some 1 := by
  rw [f32_mul_one_right, f32_round_one]

theorem f32_add_one_one : f32_add 1 1 = some 2 := by
  have h : (1 : ℚ) + 1 = 2 := by norm_num
  rw [f32_add, h, f32_round_two]

theorem f32_sub_two_one : f32_sub 2 1 = some 1 := by
  have h : (2 : ℚ) - 1 = 1 := by norm_num
  rw [f32_sub, h, f32_round_one]

/-- In binary32 the layer's effective alpha is 0 when the layer's alpha or the
opacity is 0, whatever the mask. -/
theorem normal_aux_alpha_f32_zero (aux : Sample) (mask : Option ℚ) (opacity : ℚ)
    (h : aux.a = 0 ∨ opacity = 0) : normal_aux_alpha_f32 aux mask opacity = some 0 := by
  rcases h with h | h <;> cases mask <;>
    simp only [h, normal_aux_alpha_f32, f32_mul_zero_right, f32_mul_zero_left,
      option_some_bind]

/-- In binary32 the layer's effective alpha is 1 when the layer's alpha and the
opacity are 1 and there is no mask, or a mask of 1. -/
theorem normal_aux_alpha_f32_one (aux : Sample) (h : aux.a = 1) :
    normal_aux_alpha_f32 aux none 1 = some 1 ∧ normal_aux_alpha_f32 aux (some 1) 1 = some 1 := by
  constructor <;>
    simp only [h, normal_aux_alpha_f32, f32_mul_one_one, option_some_bind]

/-- In binary32, at opacity 1 without a mask, the layer's effective alpha is
the layer's alpha. -/
theorem normal_aux_alpha_f32_full (aux : Sample) (ha : f32_round aux.a = some aux.a) :
    normal_aux_alpha_f32 aux none 1 = some aux.a := by
  simp only [normal_aux_alpha_f32, f32_mul_one_right, ha]

/-- The binary32 Normal loop body for a layer of effective alpha 0, on a fully
transparent input sample. -/
theorem normal_f32_zero_layer_at_alpha_zero (r g b : ℚ) (aux : Sample) (mask : Option ℚ)
    (opacity : ℚ) (h : normal_aux_alpha_f32 aux mask opacity = some 0) :
    normal_mode_pixel_f32 ⟨r, g, b, 0⟩ aux mask opacity = some ⟨r, g, b, 0⟩ := by
  simp only [h, normal_mode_pixel_f32, f32_mul_zero_left,
    f32_add_zero_left, f32_sub_zero_right, f32_round_zero,
    option_some_bind, ne_eq, not_true_eq_false, if_false]

/-- The binary32 Normal loop body for a layer of effective alpha 0, on a fully
opaque input sample. -/
theorem normal_f32_zero_layer_at_alpha_one (r g b : ℚ) (aux : Sample) (mask : Option ℚ)
    (opacity : ℚ) (h : normal_aux_alpha_f32 aux mask opacity = some 0)
    (hr : f32_round r = some r) (hg : f32_round g = some g) (hb : f32_round b = some b) :
    normal_mode_pixel_f32 ⟨r, g, b, 1⟩ aux mask opacity = some ⟨r, g, b, 1⟩ := by
  simp only [h, normal_mode_pixel_f32, f32_mul_zero_left,
    f32_add_zero_left, f32_sub_zero_right, f32_round_one, f32_div_one_one,
    f32_mul_one_one, f32_sub_one_zero, normal_channel_f32_input, hr, hg, hb,
    option_some_bind, ne_eq, one_ne_zero, not_false_eq_true, if_true]

/-- The alpha written by the binary32 Normal loop body for a layer of effective
alpha 0: the input's alpha, whenever the body's result is finite. -/
theorem normal_f32_zero_layer_alpha (inp aux : Sample) (mask : Option ℚ) (opacity : ℚ)
    (h0 : normal_aux_alpha_f32 aux mask opacity = some 0)
    (ha : f32_round inp.a = some inp.a) (out : Sample)
    (h : normal_mode_pixel_f32 inp aux mask opacity = some out) : out.a = inp.a := by
  simp only [h0, normal_mode_pixel_f32, f32_mul_zero_left,
    f32_add_zero_left, f32_sub_zero_right, ha, option_some_bind] at h
  split at h
  · simp only [Option.bind_eq_bind, Option.bind_eq_some] at h
    obtain ⟨_, _, _, _, _, _, _, _, _, _, _, _, h⟩ := h
    simp only [Option.some.injEq] at h
    rw [← h]
  · simp only [Option.some.injEq] at h
    rw [← h]

/-- The binary32 Normal loop body for a layer of effective alpha 1, on a fully
transparent input sample. -/
theorem normal_f32_full_layer_at_alpha_zero (ir ig ib : ℚ) (aux : Sample) (mask : Option ℚ)
    (opacity : ℚ) (h : normal_aux_alpha_f32 aux mask opacity = some 1)
    (hr : f32_round aux.r = some aux.r) (hg : f32_round aux.g = some aux.g)
    (hb : f32_round aux.b = some aux.b) :
    normal_mode_pixel_f32 ⟨ir, ig, ib, 0⟩ aux mask opacity =
      some ⟨aux.r, aux.g, aux.b, 1⟩ := by
  simp only [h, normal_mode_pixel_f32, f32_mul_zero_right, f32_add_zero_right,
    f32_sub_zero_right, f32_sub_self, f32_round_one, f32_div_one_one,
    normal_channel_f32_layer, hr, hg, hb,
    option_some_bind, ne_eq, one_ne_zero, not_false_eq_true, if_true]

/-- The binary32 Normal loop body for a layer of effective alpha 1, on a fully
opaque input sample. -/
theorem normal_f32_full_layer_at_alpha_one (ir ig ib : ℚ) (aux : Sample) (mask : Option ℚ)
    (opacity : ℚ) (h : normal_aux_alpha_f32 aux mask opacity = some 1)
    (hr : f32_round aux.r = some aux.r) (hg : f32_round aux.g = some aux.g)
    (hb : f32_round aux.b = some aux.b) :
    normal_mode_pixel_f32 ⟨ir, ig, ib, 1⟩ aux mask opacity =
      some ⟨aux.r, aux.g, aux.b, 1⟩ := by
  simp only [h, normal_mode_pixel_f32, f32_mul_one_one, f32_sub_self, f32_mul_zero_right,
    f32_add_zero_right, f32_div_one_one, f32_add_one_one, f32_sub_two_one,
    normal_channel_f32_layer, hr, hg, hb,
    option_some_bind, ne_eq, one_ne_zero, not_false_eq_true, if_true]

/-- The alpha written by the binary32 Normal loop body on the fully transparent
input sample at opacity 1 without a mask: the layer's alpha, whenever the
body's result is finite. -/
theorem normal_f32_transparent_input_alpha (aux : Sample)
    (ha : f32_round aux.a = some aux.a) (out : Sample)
    (h : normal_mode_pixel_f32 ⟨0, 0, 0, 0⟩ aux none 1 = some out) : out.a = aux.a := by
  simp only [normal_aux_alpha_f32_full aux ha, normal_mode_pixel_f32, f32_mul_zero_right,
    f32_add_zero_right, f32_sub_zero_right, ha, option_some_bind] at h
  split at h
  · simp only [Option.bind_eq_bind, Option.bind_eq_some] at h
    obtain ⟨_, _, _, _, _, _, _, _, _, _, _, _, h⟩ := h
    simp only [Option.some.injEq] at h
    rw [← h]
  · simp only [Option.some.injEq] at h
    rw [← h]

/-- The binary32 Replace channel statement from the input channel 0 with ratio
1 returns the layer's channel. -/
theorem replace_channel_f32_ratio_one (layerb : ℚ) (h : f32_round layerb = some layerb) :
    replace_channel_f32 0 layerb 1 = some layerb := by
  by_cases hb : layerb > 0
  · simp only [replace_channel_f32, hb, if_true, f32_sub_zero_right, f32_mul_one_right,
      f32_add_zero_left, h, option_some_bind]
  · simp only [replace_channel_f32, hb, if_false, f32_sub_zero_left, f32_mul_one_right,
      f32_round_neg, h, option_some_bind, Option.map_some', neg_neg]

/-- The binary32 Replace loop body at opacity 1 on the fully transparent black
input sample, for a layer sample of binary32 values with non-zero alpha. -/
theorem replace_f32_full_on_transparent (r g b a : ℚ) (h0 : a ≠ 0)
    (hr : f32_round r = some r) (hg : f32_round g = some g) (hb : f32_round b = some b)
    (ha : f32_round a = some a) :
    replace_mode_pixel_f32 ⟨0, 0, 0, 0⟩ ⟨r, g, b, a⟩ none 1 = some ⟨r, g, b, a⟩ ∧
      replace_mode_pixel_f32 ⟨0, 0, 0, 0⟩ ⟨r, g, b, a⟩ (some 1) 1 =
        some ⟨r, g, b, a⟩ := by
  constructor <;>
    simp only [replace_mode_pixel_f32, replace_new_alpha_f32, replace_ratio_f32,
      f32_sub_zero_right, f32_mul_one_right, f32_mul_one_left, f32_add_zero_right, ha, h0,
      f32_div_self a h0, f32_round_one, replace_channel_f32_ratio_one, hr, hg, hb,
      option_some_bind, ne_eq, not_false_eq_true, if_true]

/-- The binary32 Replace loop body at opacity 1 on the fully transparent black
input sample, for a layer sample with alpha 0. -/
theorem replace_f32_full_on_transparent_zero (r g b : ℚ) :
    replace_mode_pixel_f32 ⟨0, 0, 0, 0⟩ ⟨r, g, b, 0⟩ none 1 = some ⟨0, 0, 0, 0⟩ ∧
      replace_mode_pixel_f32 ⟨0, 0, 0, 0⟩ ⟨r, g, b, 0⟩ (some 1) 1 =
        some ⟨0, 0, 0, 0⟩ := by
  constructor <;>
    simp only [replace_mode_pixel_f32, replace_new_alpha_f32, f32_sub_zero_right,
      f32_mul_one_right, f32_add_zero_right, f32_round_zero,
      option_some_bind, ne_eq, not_true_eq_false, if_false]

/-- In binary32 the Erase loop body depends on opacity and mask through the
rounded product `opacity * mask` only. -/
theorem erase_f32_opacity_and_mask (inp aux : Sample) (mask mask' : Option ℚ)
    (opacity opacity' : ℚ) (ho : is_binary32 opacity) (ho' : is_binary32 opacity')
    (h : opacity * mask.getD 1 = opacity' * mask'.getD 1) :
    erase_mode_pixel_f32 inp aux mask opacity = erase_mode_pixel_f32 inp aux mask' opacity' := by
  simp only [is_binary32] at ho ho'
  cases mask <;> cases mask' <;> simp only [Option.getD, mul_one] at h
  · rw [h]
  · simp only [erase_mode_pixel_f32, f32_mul, ← h, ho]
  · simp only [erase_mode_pixel_f32, f32_mul, h, ho']
  · simp only [erase_mode_pixel_f32, f32_mul, h]

/-! ## The Normal formula -/

theorem normal_aux_alpha_eq (aux : Sample) (mask : Option ℚ) (opacity : ℚ) :
    normal_aux_alpha aux mask opacity = aux.a * opacity * mask.getD 1 := by
  cases mask <;> simp [normal_aux_alpha]

theorem normal_mode_pixel_eq_spec (inp aux : Sample) (mask : Option ℚ) (opacity : ℚ) :
    normal_mode_pixel inp aux mask opacity = normal_spec inp aux mask opacity := by
  simp only [normal_mode_pixel, normal_spec, normal_aux_alpha_eq, normal_channel]
  split <;> simp [div_eq_mul_inv]

/-- C1: for every input sample, layer sample, opacity and optional mask value,
one iteration of the scalar Normal operator, and the operator itself run on a
buffer of one sample, compute the Normal formula of the specification:
`aux_a = aux.a * opacity * (mask, or 1 when there is no mask)`,
`out.a = aux_a + in.a - aux_a * in.a`, colour channels
`(aux.b * aux_a + in.b * in.a * (1 - aux_a)) / out.a` when `out.a ≠ 0` and
`in.b` when `out.a = 0`. -/
theorem normal_mode_computes_formula (inp aux : Sample) (mask : Option ℚ) (opacity : ℚ)
    (roi : GeglRectangle) :
    normal_mode_pixel inp aux mask opacity = normal_spec inp aux mask opacity ∧
    gimp_operation_normal_mode_process_pixels_core [inp] [aux] (mask.map fun m => [m])
        opacity 1 roi = [normal_spec inp aux mask opacity] := by
  refine ⟨normal_mode_pixel_eq_spec inp aux mask opacity, ?_⟩
  cases mask <;>
    simp [gimp_operation_normal_mode_process_pixels_core, mask_head, normal_mode_pixel_eq_spec]

/-! ## Dissolve and tiling -/

theorem random_table_read_class_init_zero (G : GRand) :
    random_table_read (gimp_operation_dissolve_mode_class_init G) 0 =
      some (to_gint32 (G.rand_int (G.new_with_seed 314159265)).1) := by
  rfl

/-- A region of height 1 is one pass of the inner loop, started from the row's
seed after the fast-forward. -/
theorem dissolve_one_row (G : GRand) (t : List Int) (inp aux : List Sample)
    (mask : Option (List ℚ)) (opacity : ℚ) (x y w : Int) (seed : Int)
    (h : random_table_read t (Int.tmod y RANDOM_TABLE_SIZE) = some seed) :
    gimp_operation_dissolve_mode_process_pixels G t inp aux mask opacity ⟨x, y, w, 1⟩ =
      some (dissolve_row G opacity w.toNat
        (fast_forward G x.toNat (G.new_with_seed (to_guint32 seed))) inp aux mask).1 := by
  simp [gimp_operation_dissolve_mode_process_pixels, dissolve_rows, h]

/-- Whatever the generator and the table: on a row whose seed is `seed`, a
region starting at `x = -1` of width 2 gives the pixel at absolute `x = 0` the
second integer drawn from the row's fresh generator, whereas the sub-rectangle
starting at `x = 0` gives the same pixel the first one. -/
theorem dissolve_draws_at_negative_x (G : GRand) (t : List Int) (i0 i1 a0 a1 : Sample)
    (opacity : ℚ) (y : Int) (seed : Int)
    (h : random_table_read t (Int.tmod y RANDOM_TABLE_SIZE) = some seed) :
    gimp_operation_dissolve_mode_process_pixels G t [i0, i1] [a0, a1] none opacity
        ⟨-1, y, 2, 1⟩ =
      some [dissolve_pixel (G.rand_int_range (G.new_with_seed (to_guint32 seed)) 0 255).1
              i0 a0 none opacity,
            dissolve_pixel (G.rand_int_range
                (G.rand_int_range (G.new_with_seed (to_guint32 seed)) 0 255).2 0 255).1
              i1 a1 none opacity] ∧
    gimp_operation_dissolve_mode_process_pixels G t [i1] [a1] none opacity ⟨0, y, 1, 1⟩ =
      some [dissolve_pixel (G.rand_int_range (G.new_with_seed (to_guint32 seed)) 0 255).1
              i1 a1 none opacity] := by
  constructor
  · rw [dissolve_one_row G t _ _ _ _ (-1) y 2 seed h]
    simp [dissolve_row, fast_forward, mask_head, mask_next]
  · rw [dissolve_one_row G t _ _ _ _ 0 y 1 seed h]
    simp [dissolve_row, fast_forward, mask_head]

/-- C2 (evaluation at the failing input): with GLib's generator `g_rand` and
the table generated by `class_init` (`random_table[0] = -573844565`, a seed
from which `g_rand_int_range (gr, 0, 255)` draws 87 and then 10), white input,
opaque black layer, no mask and opacity 1/4 (so `value` is 63.75), the region
`x = -1, y = 0, width = 2, height = 1` processed as one block puts the layer
colour at absolute pixel `x = 0` (second draw, 10), while the same region
processed as the two sub-rectangles `x = -1, width = 1` and
`x = 0, width = 1` keeps the input there (first draw, 87).  Every operation of
the body is exact at this input: the binary32 body computes the same `value`
and takes the same branches. -/
theorem dissolve_split_differs_at_negative_x :
    random_table_read (gimp_operation_dissolve_mode_class_init g_rand)
        (Int.tmod 0 RANDOM_TABLE_SIZE) = some (-573844565) ∧
    (g_rand.rand_int_range (g_rand.new_with_seed (to_guint32 (-573844565))) 0 255).1 = 87 ∧
    (g_rand.rand_int_range
      (g_rand.rand_int_range (g_rand.new_with_seed (to_guint32 (-573844565))) 0 255).2
        0 255).1 = 10 ∧
    gimp_operation_dissolve_mode_process_pixels g_rand
        (gimp_operation_dissolve_mode_class_init g_rand)
        [⟨1, 1, 1, 1⟩, ⟨1, 1, 1, 1⟩] [⟨0, 0, 0, 1⟩, ⟨0, 0, 0, 1⟩] none (1 / 4)
        ⟨-1, 0, 2, 1⟩ =
      some [⟨1, 1, 1, 1⟩, ⟨0, 0, 0, 1⟩] ∧
    gimp_operation_dissolve_mode_process_pixels g_rand
        (gimp_operation_dissolve_mode_class_init g_rand)
        [⟨1, 1, 1, 1⟩] [⟨0, 0, 0, 1⟩] none (1 / 4) ⟨-1, 0, 1, 1⟩ =
      some [⟨1, 1, 1, 1⟩] ∧
    gimp_operation_dissolve_mode_process_pixels g_rand
        (gimp_operation_dissolve_mode_class_init g_rand)
        [⟨1, 1, 1, 1⟩] [⟨0, 0, 0, 1⟩] none (1 / 4) ⟨0, 0, 1, 1⟩ =
      some [⟨1, 1, 1, 1⟩] ∧
    dissolve_value_f32 ⟨0, 0, 0, 1⟩ none (1 / 4) = some (255 / 4) ∧
    dissolve_pixel_f32 87 ⟨1, 1, 1, 1⟩ ⟨0, 0, 0, 1⟩ none (1 / 4) = some ⟨1, 1, 1, 1⟩ ∧
    dissolve_pixel_f32 10 ⟨1, 1, 1, 1⟩ ⟨0, 0, 0, 1⟩ none (1 / 4) =
      some ⟨0, 0, 0, 1⟩ := by
  decide!

/-! ## Replace at full opacity -/

/-- C3 (counterexample): with `in = (1,1,1,1)`, `aux = (1/2,1/2,1/2,0)`,
opacity 1 and no mask, or a mask of 1, the Replace operator returns
`(1,1,1,0)`, which is not `aux`; the binary32 body returns the same.  In
binary32 the body also returns `(1,1,1,0)` for the layer alphas `2^-25` and
`1e-10f`, which are not zero: `(aux.a - 1) + 1` rounds to 0.  For the input
`(1/2,1/2,1/2,0)` and the layer sample with four channels `0.1f`, the binary32
body returns colour channels one unit in the last place below `0.1f`. -/
theorem replace_full_opacity_not_aux :
    gimp_operation_replace_mode_process_pixels [⟨1, 1, 1, 1⟩] [⟨1 / 2, 1 / 2, 1 / 2, 0⟩]
        none 1 1 ⟨0, 0, 1, 1⟩ = [⟨1, 1, 1, 0⟩] ∧
    gimp_operation_replace_mode_process_pixels [⟨1, 1, 1, 1⟩] [⟨1 / 2, 1 / 2, 1 / 2, 0⟩]
        (some [1]) 1 1 ⟨0, 0, 1, 1⟩ = [⟨1, 1, 1, 0⟩] ∧
    (⟨1, 1, 1, 0⟩ : Sample) ≠ ⟨1 / 2, 1 / 2, 1 / 2, 0⟩ ∧
    replace_mode_pixel_f32 ⟨1, 1, 1, 1⟩ ⟨1 / 2, 1 / 2, 1 / 2, 0⟩ none 1 = some ⟨1, 1, 1, 0⟩ ∧
    Sample.is_binary32 ⟨1 / 2, 1 / 2, 1 / 2, 1 / 33554432⟩ ∧
    replace_mode_pixel_f32 ⟨1, 1, 1, 1⟩ ⟨1 / 2, 1 / 2, 1 / 2, 1 / 33554432⟩ none 1 =
      some ⟨1, 1, 1, 0⟩ ∧
    replace_mode_pixel_f32 ⟨1, 1, 1, 1⟩ ⟨1 / 2, 1 / 2, 1 / 2, 1 / 33554432⟩ (some 1) 1 =
      some ⟨1, 1, 1, 0⟩ ∧
    Sample.is_binary32 ⟨1 / 2, 1 / 2, 1 / 2, 14411519 / 144115188075855872⟩ ∧
    replace_mode_pixel_f32 ⟨1, 1, 1, 1⟩ ⟨1 / 2, 1 / 2, 1 / 2, 14411519 / 144115188075855872⟩
      none 1 = some ⟨1, 1, 1, 0⟩ ∧
    Sample.is_binary32 ⟨13421773 / 134217728, 13421773 / 134217728, 13421773 / 134217728,
      13421773 / 134217728⟩ ∧
    replace_mode_pixel_f32 ⟨1 / 2, 1 / 2, 1 / 2, 0⟩
      ⟨13421773 / 134217728, 13421773 / 134217728, 13421773 / 134217728,
        13421773 / 134217728⟩ none 1 =
      some ⟨3355443 / 33554432, 3355443 / 33554432, 3355443 / 33554432,
        13421773 / 134217728⟩ := by
  refine ⟨?_, ?_, ?_, ?_⟩
  · norm_num [gimp_operation_replace_mode_process_pixels, mask_head, replace_mode_pixel,
      replace_new_alpha]
  · norm_num [gimp_operation_replace_mode_process_pixels, mask_head, replace_mode_pixel,
      replace_new_alpha]
  · norm_num
  · decide!

theorem replace_channel_ratio_one (inb layerb : ℚ) : replace_channel inb layerb 1 = layerb := by
  unfold replace_channel
  split <;> ring

/-- C3 (amended): in exact arithmetic, with opacity 1 and no mask, or a mask of
1, the Replace operator returns `aux` in all four channels whenever
`aux.a ≠ 0`; when `aux.a = 0` it returns alpha 0, which is `aux.a`, and the
colour channels of the input.  In binary32 the same holds exactly on the fully
transparent black input `(0,0,0,0)`, for every layer sample of binary32
values. -/
theorem replace_full_opacity (inp aux : Sample) :
    (replace_mode_pixel inp aux none 1 =
        (if aux.a = 0 then { r := inp.r, g := inp.g, b := inp.b, a := 0 } else aux) ∧
      replace_mode_pixel inp aux (some 1) 1 =
        (if aux.a = 0 then { r := inp.r, g := inp.g, b := inp.b, a := 0 } else aux)) ∧
    (aux.is_binary32 →
      replace_mode_pixel_f32 ⟨0, 0, 0, 0⟩ aux none 1 =
          some (if aux.a = 0 then ⟨0, 0, 0, 0⟩ else aux) ∧
        replace_mode_pixel_f32 ⟨0, 0, 0, 0⟩ aux (some 1) 1 =
          some (if aux.a = 0 then ⟨0, 0, 0, 0⟩ else aux)) := by
  refine ⟨?_, ?_⟩
  · constructor <;>
    · by_cases h : aux.a = 0
      · simp [replace_mode_pixel, replace_new_alpha, h]
      · simp [replace_mode_pixel, replace_new_alpha, replace_ratio, h, replace_channel_ratio_one]
  · intro haux
    obtain ⟨r, g, b, a⟩ := aux
    obtain ⟨hr, hg, hb, ha⟩ := haux
    by_cases h : a = 0
    · subst h
      simpa using replace_f32_full_on_transparent_zero r g b
    · simpa [h] using replace_f32_full_on_transparent r g b a h hr hg hb ha

/-- C3 (amended) at a concrete input: a half-transparent layer sample over a
grey input in exact arithmetic, and over the transparent black input in
binary32. -/
theorem replace_full_opacity_witness :
    (replace_mode_pixel ⟨1 / 5, 2 / 5, 3 / 5, 1 / 3⟩ ⟨3 / 4, 1 / 4, 0, 1 / 2⟩ none 1 =
        (if (⟨3 / 4, 1 / 4, 0, 1 / 2⟩ : Sample).a = 0 then
          { r := 1 / 5, g := 2 / 5, b := 3 / 5, a := 0 } else ⟨3 / 4, 1 / 4, 0, 1 / 2⟩) ∧
      replace_mode_pixel ⟨1 / 5, 2 / 5, 3 / 5, 1 / 3⟩ ⟨3 / 4, 1 / 4, 0, 1 / 2⟩ (some 1) 1 =
        (if (⟨3 / 4, 1 / 4, 0, 1 / 2⟩ : Sample).a = 0 then
          { r := 1 / 5, g := 2 / 5, b := 3 / 5, a := 0 } else ⟨3 / 4, 1 / 4, 0, 1 / 2⟩)) ∧
    (replace_mode_pixel_f32 ⟨0, 0, 0, 0⟩ ⟨3 / 4, 1 / 4, 0, 1 / 2⟩ none 1 =
        some (if (⟨3 / 4, 1 / 4, 0, 1 / 2⟩ : Sample).a = 0 then ⟨0, 0, 0, 0⟩
          else ⟨3 / 4, 1 / 4, 0, 1 / 2⟩) ∧
      replace_mode_pixel_f32 ⟨0, 0, 0, 0⟩ ⟨3 / 4, 1 / 4, 0, 1 / 2⟩ (some 1) 1 =
        some (if (⟨3 / 4, 1 / 4, 0, 1 / 2⟩ : Sample).a = 0 then ⟨0, 0, 0, 0⟩
          else ⟨3 / 4, 1 / 4, 0, 1 / 2⟩)) :=
  ⟨(replace_full_opacity ⟨1 / 5, 2 / 5, 3 / 5, 1 / 3⟩ ⟨3 / 4, 1 / 4, 0, 1 / 2⟩).1,
    (replace_full_opacity ⟨1 / 5, 2 / 5, 3 / 5, 1 / 3⟩ ⟨3 / 4, 1 / 4, 0, 1 / 2⟩).2
      (by decide!)⟩

/-! ## Normal mode: overwrite, no-op, example -/

/-- C4 (counterexample): in binary32, with opacity 1 and no mask, or a mask of
1, the Normal loop body applied to the input `(0.2f, 0.4f, 0.6f, 0.3f)` and the
layer sample `(0.8f, 0.25, 0, 1)` returns
`(0.80000013, 0.25000003, 0, 0.99999994)`, which is not the layer sample; the
same output is returned for the input alpha `2^-24`, and the input
`(0, 0, 0, 2^-24)` under the layer `(1, 1, 1, 1)` gives
`(1 + 2^-23, 1 + 2^-23, 1 + 2^-23, 1 - 2^-24)`. -/
theorem normal_full_overwrite_rounds :
    Sample.is_binary32
      ⟨13421773 / 67108864, 13421773 / 33554432, 5033165 / 8388608, 5033165 / 16777216⟩ ∧
    Sample.is_binary32 ⟨13421773 / 16777216, 1 / 4, 0, 1⟩ ∧
    normal_mode_pixel_f32
        ⟨13421773 / 67108864, 13421773 / 33554432, 5033165 / 8388608, 5033165 / 16777216⟩
        ⟨13421773 / 16777216, 1 / 4, 0, 1⟩ none 1 =
      some ⟨13421775 / 16777216, 8388609 / 33554432, 0, 16777215 / 16777216⟩ ∧
    normal_mode_pixel_f32
        ⟨13421773 / 67108864, 13421773 / 33554432, 5033165 / 8388608, 5033165 / 16777216⟩
        ⟨13421773 / 16777216, 1 / 4, 0, 1⟩ (some 1) 1 =
      some ⟨13421775 / 16777216, 8388609 / 33554432, 0, 16777215 / 16777216⟩ ∧
    normal_mode_pixel_f32
        ⟨13421773 / 67108864, 13421773 / 33554432, 5033165 / 8388608, 1 / 16777216⟩
        ⟨13421773 / 16777216, 1 / 4, 0, 1⟩ none 1 =
      some ⟨13421775 / 16777216, 8388609 / 33554432, 0, 16777215 / 16777216⟩ ∧
    normal_mode_pixel_f32 ⟨0, 0, 0, 1 / 16777216⟩ ⟨1, 1, 1, 1⟩ none 1 =
      some ⟨8388609 / 8388608, 8388609 / 8388608, 8388609 / 8388608, 16777215 / 16777216⟩ := by
  decide!

/-- C4 (amended): in exact arithmetic, for every input sample and every layer
sample with `aux.a = 1`, the Normal operator with opacity 1 and no mask, or a
mask of 1, returns `aux` in all four channels.  In binary32 the same holds
exactly when the input sample is fully transparent or fully opaque
(`in.a` is 0 or 1), for every layer sample of binary32 values. -/
theorem normal_full_overwrite (inp aux : Sample) (h : aux.a = 1) :
    (normal_mode_pixel inp aux none 1 = aux ∧ normal_mode_pixel inp aux (some 1) 1 = aux) ∧
    (aux.is_binary32 → inp.a = 0 ∨ inp.a = 1 →
      normal_mode_pixel_f32 inp aux none 1 = some aux ∧
        normal_mode_pixel_f32 inp aux (some 1) 1 = some aux) := by
  obtain ⟨r, g, b, a⟩ := aux
  simp only at h
  subst h
  refine ⟨?_, ?_⟩
  · constructor <;> simp [normal_mode_pixel, normal_aux_alpha, normal_channel]
  · intro haux ha
    obtain ⟨ir, ig, ib, ia⟩ := inp
    obtain ⟨hr, hg, hb, -⟩ := haux
    simp only at ha
    have h1 := normal_aux_alpha_f32_one ⟨r, g, b, 1⟩ rfl
    rcases ha with rfl | rfl
    · exact ⟨normal_f32_full_layer_at_alpha_zero ir ig ib ⟨r, g, b, 1⟩ none 1 h1.1 hr hg hb,
        normal_f32_full_layer_at_alpha_zero ir ig ib ⟨r, g, b, 1⟩ (some 1) 1 h1.2 hr hg hb⟩
    · exact ⟨normal_f32_full_layer_at_alpha_one ir ig ib ⟨r, g, b, 1⟩ none 1 h1.1 hr hg hb,
        normal_f32_full_layer_at_alpha_one ir ig ib ⟨r, g, b, 1⟩ (some 1) 1 h1.2 hr hg hb⟩

/-- C4 (amended) at a concrete input: a fully opaque input under a fully opaque
layer. -/
theorem normal_full_overwrite_witness :
    (normal_mode_pixel ⟨1 / 4, 1 / 2, 3 / 4, 1⟩ ⟨3 / 4, 1 / 4, 0, 1⟩ none 1 =
        ⟨3 / 4, 1 / 4, 0, 1⟩ ∧
      normal_mode_pixel ⟨1 / 4, 1 / 2, 3 / 4, 1⟩ ⟨3 / 4, 1 / 4, 0, 1⟩ (some 1) 1 =
        ⟨3 / 4, 1 / 4, 0, 1⟩) ∧
    (normal_mode_pixel_f32 ⟨1 / 4, 1 / 2, 3 / 4, 1⟩ ⟨3 / 4, 1 / 4, 0, 1⟩ none 1 =
        some ⟨3 / 4, 1 / 4, 0, 1⟩ ∧
      normal_mode_pixel_f32 ⟨1 / 4, 1 / 2, 3 / 4, 1⟩ ⟨3 / 4, 1 / 4, 0, 1⟩ (some 1) 1 =
        some ⟨3 / 4, 1 / 4, 0, 1⟩) :=
  ⟨(normal_full_overwrite ⟨1 / 4, 1 / 2, 3 / 4, 1⟩ ⟨3 / 4, 1 / 4, 0, 1⟩ rfl).1,
    (normal_full_overwrite ⟨1 / 4, 1 / 2, 3 / 4, 1⟩ ⟨3 / 4, 1 / 4, 0, 1⟩ rfl).2
      (by decide!) (Or.inr rfl)⟩

/-- C5 (counterexample): in binary32, at opacity 0, the Normal loop body
applied to the input `(3/4, 3/4, 3/4, 7/16)` returns the colour channels
`3/4 + 2^-24`, without a mask and with one: `in.b * in.a * (1 / in.a)` rounds.
The input `(0.1f, 0.9f, 0.3f, 0.7f)` gets the green channel `0.90000004`, and
for the input alpha `2^-149` the reciprocal `1.0f / out[ALPHA]` is not
finite. -/
theorem normal_zero_opacity_rounds :
    normal_mode_pixel_f32 ⟨3 / 4, 3 / 4, 3 / 4, 7 / 16⟩ ⟨1 / 2, 1 / 2, 1 / 2, 1 / 2⟩ none 0 =
      some ⟨12582913 / 16777216, 12582913 / 16777216, 12582913 / 16777216, 7 / 16⟩ ∧
    normal_mode_pixel_f32 ⟨3 / 4, 3 / 4, 3 / 4, 7 / 16⟩ ⟨1 / 2, 1 / 2, 1 / 2, 1 / 2⟩
        (some (1 / 2)) 0 =
      some ⟨12582913 / 16777216, 12582913 / 16777216, 12582913 / 16777216, 7 / 16⟩ ∧
    Sample.is_binary32
      ⟨13421773 / 134217728, 7549747 / 8388608, 5033165 / 16777216, 11744051 / 16777216⟩ ∧
    normal_mode_pixel_f32
        ⟨13421773 / 134217728, 7549747 / 8388608, 5033165 / 16777216, 11744051 / 16777216⟩
        ⟨1 / 2, 1 / 2, 1 / 2, 1 / 2⟩ none 0 =
      some ⟨13421773 / 134217728, 15099495 / 16777216, 5033165 / 16777216,
        11744051 / 16777216⟩ ∧
    Sample.is_binary32 ⟨1, 1, 1, 1 / 2 ^ 149⟩ ∧
    normal_mode_pixel_f32 ⟨1, 1, 1, 1 / 2 ^ 149⟩ ⟨1 / 2, 1 / 2, 1 / 2, 1 / 2⟩ none 0 = none := by
  decide!

/-- C5 (amended): in exact arithmetic, for every input sample, layer sample and
optional mask value, the Normal operator with opacity 0 returns the input
sample in all four channels, also when `in.a = 0`.  In binary32 the alpha
returned is the input's alpha whenever the result is finite, and for an input
sample of binary32 values that is fully transparent or fully opaque (`in.a` is
0 or 1) the input sample is returned in all four channels. -/
theorem normal_zero_opacity_noop (inp aux : Sample) (mask : Option ℚ) :
    normal_mode_pixel inp aux mask 0 = inp ∧
    (is_binary32 inp.a → ∀ out, normal_mode_pixel_f32 inp aux mask 0 = some out →
      out.a = inp.a) ∧
    (inp.is_binary32 → inp.a = 0 ∨ inp.a = 1 →
      normal_mode_pixel_f32 inp aux mask 0 = some inp) := by
  refine ⟨?_, ?_, ?_⟩
  · obtain ⟨r, g, b, a⟩ := inp
    by_cases h : a = 0
    · simp [normal_mode_pixel, normal_aux_alpha_eq, h]
    · simp [normal_mode_pixel, normal_aux_alpha_eq, normal_channel, h]
  · intro ha out h
    exact normal_f32_zero_layer_alpha inp aux mask 0
      (normal_aux_alpha_f32_zero aux mask 0 (Or.inr rfl)) ha out h
  · intro hin ha
    obtain ⟨r, g, b, a⟩ := inp
    obtain ⟨hr, hg, hb, -⟩ := hin
    simp only at ha
    rcases ha with rfl | rfl
    · exact normal_f32_zero_layer_at_alpha_zero r g b aux mask 0
        (normal_aux_alpha_f32_zero aux mask 0 (Or.inr rfl))
    · exact normal_f32_zero_layer_at_alpha_one r g b aux mask 0
        (normal_aux_alpha_f32_zero aux mask 0 (Or.inr rfl)) hr hg hb

/-- C5 (amended) at a concrete input: a fully opaque input sample, a mask value
of 1/2; and the alpha returned for the input `(3/4, 3/4, 3/4, 7/16)`. -/
theorem normal_zero_opacity_noop_witness :
    normal_mode_pixel ⟨1 / 4, 1 / 2, 3 / 4, 1⟩ ⟨3 / 4, 1 / 4, 0, 1 / 2⟩ (some (1 / 2)) 0 =
      ⟨1 / 4, 1 / 2, 3 / 4, 1⟩ ∧
    normal_mode_pixel_f32 ⟨1 / 4, 1 / 2, 3 / 4, 1⟩ ⟨3 / 4, 1 / 4, 0, 1 / 2⟩ (some (1 / 2)) 0 =
      some ⟨1 / 4, 1 / 2, 3 / 4, 1⟩ ∧
    (∀ out, normal_mode_pixel_f32 ⟨3 / 4, 3 / 4, 3 / 4, 7 / 16⟩ ⟨1 / 2, 1 / 2, 1 / 2, 1 / 2⟩
        none 0 = some out → out.a = 7 / 16) :=
  ⟨(normal_zero_opacity_noop ⟨1 / 4, 1 / 2, 3 / 4, 1⟩ ⟨3 / 4, 1 / 4, 0, 1 / 2⟩
      (some (1 / 2))).1,
    (normal_zero_opacity_noop ⟨1 / 4, 1 / 2, 3 / 4, 1⟩ ⟨3 / 4, 1 / 4, 0, 1 / 2⟩
      (some (1 / 2))).2.2 (by decide!) (Or.inr rfl),
    (normal_zero_opacity_noop ⟨3 / 4, 3 / 4, 3 / 4, 7 / 16⟩ ⟨1 / 2, 1 / 2, 1 / 2, 1 / 2⟩
      none).2.1 (by decide!)⟩

/-- C6: the Normal operator applied to `in = (0.2, 0.2, 0.2, 1.0)`,
`aux = (0.8, 0.8, 0.8, 1.0)`, opacity 0.5 and no mask yields alpha 1 and colour
`(0.5, 0.5, 0.5)`, for one iteration and for the operator run on that buffer
of one sample. -/
theorem normal_end_to_end_example :
    normal_mode_pixel ⟨1 / 5, 1 / 5, 1 / 5, 1⟩ ⟨4 / 5, 4 / 5, 4 / 5, 1⟩ none (1 / 2) =
        ⟨1 / 2, 1 / 2, 1 / 2, 1⟩ ∧
      gimp_operation_normal_mode_process_pixels_core [⟨1 / 5, 1 / 5, 1 / 5, 1⟩]
        [⟨4 / 5, 4 / 5, 4 / 5, 1⟩] none (1 / 2) 1 ⟨0, 0, 1, 1⟩ = [⟨1 / 2, 1 / 2, 1 / 2, 1⟩] := by
  constructor <;>
    norm_num [gimp_operation_normal_mode_process_pixels_core, mask_head, normal_mode_pixel,
      normal_aux_alpha, normal_channel]

/-! ## Output alpha stays in range -/

theorem unit_mul_mem (a b : ℚ) (ha : 0 ≤ a ∧ a ≤ 1) (hb : 0 ≤ b ∧ b ≤ 1) :
    0 ≤ a * b ∧ a * b ≤ 1 :=
  ⟨mul_nonneg ha.1 hb.1, mul_le_one₀ ha.2 hb.1 hb.2⟩

/-- The "over" alpha `s + i - s * i` of two alphas in `[0,1]` is in `[0,1]`. -/
theorem over_alpha_mem (s i : ℚ) (hs : 0 ≤ s ∧ s ≤ 1) (hi : 0 ≤ i ∧ i ≤ 1) :
    0 ≤ s + i - s * i ∧ s + i - s * i ≤ 1 := by
  constructor
  · nlinarith [mul_nonneg hs.1 (sub_nonneg.2 hi.2)]
  · nlinarith [mul_nonneg (sub_nonneg.2 hs.2) (sub_nonneg.2 hi.2)]

/-- The interpolation `(l - i) * t + i` between two alphas in `[0,1]`, with
`t` in `[0,1]`, is in `[0,1]`. -/
theorem lerp_alpha_mem (l i t : ℚ) (hl : 0 ≤ l ∧ l ≤ 1) (hi : 0 ≤ i ∧ i ≤ 1)
    (ht : 0 ≤ t ∧ t ≤ 1) : 0 ≤ (l - i) * t + i ∧ (l - i) * t + i ≤ 1 := by
  constructor
  · nlinarith [mul_nonneg hl.1 ht.1, mul_nonneg hi.1 (sub_nonneg.2 ht.2)]
  · nlinarith [mul_nonneg (sub_nonneg.2 hl.2) ht.1,
      mul_nonneg (sub_nonneg.2 hi.2) (sub_nonneg.2 ht.2)]

/-- The mask factor `mask ?? 1` is in `[0,1]` when the mask value, if there is
one, is. -/
theorem mask_getD_mem (mask : Option ℚ) (hmask : ∀ m, mask = some m → 0 ≤ m ∧ m ≤ 1) :
    0 ≤ mask.getD 1 ∧ mask.getD 1 ≤ 1 := by
  cases mask with
  | none => simp
  | some m => simpa using hmask m rfl

theorem normal_alpha_eq (inp aux : Sample) (mask : Option ℚ) (opacity : ℚ) :
    (normal_mode_pixel inp aux mask opacity).a =
      aux.a * opacity * mask.getD 1 + inp.a - aux.a * opacity * mask.getD 1 * inp.a := by
  simp only [normal_mode_pixel, normal_aux_alpha_eq]
  split <;> rfl

theorem erase_alpha_eq (inp aux : Sample) (mask : Option ℚ) (opacity : ℚ) :
    (erase_mode_pixel inp aux mask opacity).a =
      inp.a - inp.a * aux.a * opacity * mask.getD 1 := by
  cases mask <;> simp [erase_mode_pixel, mul_assoc]

theorem replace_new_alpha_eq (inp aux : Sample) (mask : Option ℚ) (opacity : ℚ) :
    replace_new_alpha inp aux mask opacity = (aux.a - inp.a) * (mask.getD 1 * opacity) + inp.a := by
  cases mask <;> simp [replace_new_alpha, mul_assoc]

theorem replace_alpha_eq (inp aux : Sample) (mask : Option ℚ) (opacity : ℚ) :
    (replace_mode_pixel inp aux mask opacity).a =
      (aux.a - inp.a) * (mask.getD 1 * opacity) + inp.a := by
  simp only [replace_mode_pixel, replace_new_alpha_eq]
  split <;> rfl

theorem dissolve_alpha_cases (draw : Int) (inp aux : Sample) (mask : Option ℚ) (opacity : ℚ) :
    (dissolve_pixel draw inp aux mask opacity).a = inp.a ∨
      (dissolve_pixel draw inp aux mask opacity).a = 1 := by
  simp only [dissolve_pixel]
  split_ifs
  · exact Or.inl rfl
  · exact Or.inr rfl

/-- C7: for each of the Normal, Dissolve (whatever integer is drawn), Erase and
Replace operators, and for every sample with `in.a`, `aux.a`, opacity and the
mask value (when there is a mask) all in `[0,1]`, the output alpha is in
`[0,1]`. -/
theorem output_alpha_in_range (inp aux : Sample) (mask : Option ℚ) (opacity : ℚ) (draw : Int)
    (hin : 0 ≤ inp.a ∧ inp.a ≤ 1) (haux : 0 ≤ aux.a ∧ aux.a ≤ 1)
    (hop : 0 ≤ opacity ∧ opacity ≤ 1) (hmask : ∀ m, mask = some m → 0 ≤ m ∧ m ≤ 1) :
    (0 ≤ (normal_mode_pixel inp aux mask opacity).a ∧
      (normal_mode_pixel inp aux mask opacity).a ≤ 1) ∧
    (0 ≤ (dissolve_pixel draw inp aux mask opacity).a ∧
      (dissolve_pixel draw inp aux mask opacity).a ≤ 1) ∧
    (0 ≤ (erase_mode_pixel inp aux mask opacity).a ∧
      (erase_mode_pixel inp aux mask opacity).a ≤ 1) ∧
    (0 ≤ (replace_mode_pixel inp aux mask opacity).a ∧
      (replace_mode_pixel inp aux mask opacity).a ≤ 1) := by
  have hm := mask_getD_mem mask hmask
  have hom := unit_mul_mem _ _ hop hm
  have hmo := unit_mul_mem _ _ hm hop
  have hs := unit_mul_mem _ _ haux hom
  refine ⟨?_, ?_, ?_, ?_⟩
  · rw [normal_alpha_eq]
    simpa [mul_assoc] using over_alpha_mem _ _ hs hin
  · rcases dissolve_alpha_cases draw inp aux mask opacity with h | h <;> rw [h]
    · exact hin
    · norm_num
  · rw [erase_alpha_eq]
    have h := over_alpha_mem _ _ hs (show (0 : ℚ) ≤ 0 ∧ (0 : ℚ) ≤ 1 by norm_num)
    have h1 : 0 ≤ 1 - aux.a * (opacity * mask.getD 1) := by linarith [hs.2]
    constructor
    · nlinarith [mul_nonneg hin.1 h1]
    · nlinarith [mul_nonneg hin.1 hs.1]
  · rw [replace_alpha_eq]
    exact lerp_alpha_mem _ _ _ haux hin hmo

/-- C7 at a concrete input, with a mask value of 1/2. -/
theorem output_alpha_in_range_witness :
    (0 ≤ (normal_mode_pixel ⟨1, 0, 0, 1 / 2⟩ ⟨0, 1, 0, 3 / 4⟩ (some (1 / 2)) (1 / 3)).a ∧
      (normal_mode_pixel ⟨1, 0, 0, 1 / 2⟩ ⟨0, 1, 0, 3 / 4⟩ (some (1 / 2)) (1 / 3)).a ≤ 1) ∧
    (0 ≤ (dissolve_pixel 7 ⟨1, 0, 0, 1 / 2⟩ ⟨0, 1, 0, 3 / 4⟩ (some (1 / 2)) (1 / 3)).a ∧
      (dissolve_pixel 7 ⟨1, 0, 0, 1 / 2⟩ ⟨0, 1, 0, 3 / 4⟩ (some (1 / 2)) (1 / 3)).a ≤ 1) ∧
    (0 ≤ (erase_mode_pixel ⟨1, 0, 0, 1 / 2⟩ ⟨0, 1, 0, 3 / 4⟩ (some (1 / 2)) (1 / 3)).a ∧
      (erase_mode_pixel ⟨1, 0, 0, 1 / 2⟩ ⟨0, 1, 0, 3 / 4⟩ (some (1 / 2)) (1 / 3)).a ≤ 1) ∧
    (0 ≤ (replace_mode_pixel ⟨1, 0, 0, 1 / 2⟩ ⟨0, 1, 0, 3 / 4⟩ (some (1 / 2)) (1 / 3)).a ∧
      (replace_mode_pixel ⟨1, 0, 0, 1 / 2⟩ ⟨0, 1, 0, 3 / 4⟩ (some (1 / 2)) (1 / 3)).a ≤ 1) :=
  output_alpha_in_range ⟨1, 0, 0, 1 / 2⟩ ⟨0, 1, 0, 3 / 4⟩ (some (1 / 2)) (1 / 3) 7
    (by norm_num) (by norm_num) (by norm_num)
    (by intro m h; cases h; norm_num)

/-! ## Pass-through and the general formula -/

/-- C8 (counterexample): for the layer sample `aux = (1, 0, 0, 0)`, the Normal
operator applied to the fully transparent input `(0, 0, 0, 0)` with opacity 1
and no mask gives `(0, 0, 0, 0)`, which is not `aux`; the binary32 body
returns the same.  In binary32 the layer sample `(3/4, 3/4, 3/4, 7/16)` comes
back with the colour channels `3/4 + 2^-24`, and `(0.1f, 0.9f, 0.3f, 0.7f)`
with the green channel `0.90000004`: `aux.b * aux.a * (1 / aux.a)` rounds. -/
theorem normal_transparent_input_not_aux :
    gimp_operation_normal_mode_process_pixels_core [⟨0, 0, 0, 0⟩] [⟨1, 0, 0, 0⟩] none 1 1
        ⟨0, 0, 1, 1⟩ = [⟨0, 0, 0, 0⟩] ∧
    (⟨0, 0, 0, 0⟩ : Sample) ≠ ⟨1, 0, 0, 0⟩ ∧
    normal_mode_pixel_f32 ⟨0, 0, 0, 0⟩ ⟨1, 0, 0, 0⟩ none 1 = some ⟨0, 0, 0, 0⟩ ∧
    normal_mode_pixel_f32 ⟨0, 0, 0, 0⟩ ⟨3 / 4, 3 / 4, 3 / 4, 7 / 16⟩ none 1 =
      some ⟨12582913 / 16777216, 12582913 / 16777216, 12582913 / 16777216, 7 / 16⟩ ∧
    Sample.is_binary32
      ⟨13421773 / 134217728, 7549747 / 8388608, 5033165 / 16777216, 11744051 / 16777216⟩ ∧
    normal_mode_pixel_f32 ⟨0, 0, 0, 0⟩
        ⟨13421773 / 134217728, 7549747 / 8388608, 5033165 / 16777216, 11744051 / 16777216⟩
        none 1 =
      some ⟨13421773 / 134217728, 15099495 / 16777216, 5033165 / 16777216,
        11744051 / 16777216⟩ := by
  refine ⟨?_, ?_, ?_⟩
  · norm_num [gimp_operation_normal_mode_process_pixels_core, mask_head, normal_mode_pixel,
      normal_aux_alpha]
  · norm_num
  · decide!

/-- C8 (amended): in exact arithmetic, for every layer sample, the Normal
operator applied to the fully transparent input `(0, 0, 0, 0)` with opacity 1
and no mask returns `aux` in all four channels when `aux.a ≠ 0`, and returns
`(0, 0, 0, 0)` when `aux.a = 0`: the forwarded `aux` then agrees with the
general formula in alpha, and in the colour channels exactly when they are
zero.  In binary32 the alpha returned is the layer's alpha whenever the result
is finite, and for a layer sample of binary32 values with `aux.a = 1` the layer
sample is returned in all four channels; with `aux.a = 0` the result is
`(0, 0, 0, 0)`. -/
theorem normal_transparent_input (aux : Sample) :
    normal_mode_pixel ⟨0, 0, 0, 0⟩ aux none 1 =
      (if aux.a = 0 then ⟨0, 0, 0, 0⟩ else aux) ∧
    (is_binary32 aux.a → ∀ out, normal_mode_pixel_f32 ⟨0, 0, 0, 0⟩ aux none 1 = some out →
      out.a = aux.a) ∧
    (aux.is_binary32 → aux.a = 0 ∨ aux.a = 1 →
      normal_mode_pixel_f32 ⟨0, 0, 0, 0⟩ aux none 1 =
        some (if aux.a = 0 then ⟨0, 0, 0, 0⟩ else aux)) := by
  refine ⟨?_, ?_, ?_⟩
  · obtain ⟨r, g, b, a⟩ := aux
    by_cases h : a = 0
    · simp [normal_mode_pixel, normal_aux_alpha, h]
    · simp [normal_mode_pixel, normal_aux_alpha, normal_channel, h]
  · intro ha out h
    exact normal_f32_transparent_input_alpha aux ha out h
  · intro haux ha
    obtain ⟨r, g, b, a⟩ := aux
    obtain ⟨hr, hg, hb, -⟩ := haux
    simp only at ha
    rcases ha with rfl | rfl
    · simpa using normal_f32_zero_layer_at_alpha_zero 0 0 0 ⟨r, g, b, 0⟩ none 1
        (normal_aux_alpha_f32_zero ⟨r, g, b, 0⟩ none 1 (Or.inl rfl))
    · simpa using normal_f32_full_layer_at_alpha_zero 0 0 0 ⟨r, g, b, 1⟩ none 1
        (normal_aux_alpha_f32_one ⟨r, g, b, 1⟩ rfl).1 hr hg hb

/-- C8 (amended) at a concrete input: a half-transparent layer sample in exact
arithmetic, its alpha in binary32, and a fully opaque layer sample in
binary32. -/
theorem normal_transparent_input_witness :
    normal_mode_pixel ⟨0, 0, 0, 0⟩ ⟨3 / 4, 1 / 4, 0, 1 / 2⟩ none 1 =
      (if (⟨3 / 4, 1 / 4, 0, 1 / 2⟩ : Sample).a = 0 then ⟨0, 0, 0, 0⟩
        else ⟨3 / 4, 1 / 4, 0, 1 / 2⟩) ∧
    (∀ out, normal_mode_pixel_f32 ⟨0, 0, 0, 0⟩ ⟨3 / 4, 1 / 4, 0, 1 / 2⟩ none 1 = some out →
      out.a = 1 / 2) ∧
    normal_mode_pixel_f32 ⟨0, 0, 0, 0⟩ ⟨3 / 4, 1 / 4, 0, 1⟩ none 1 =
      some (if (⟨3 / 4, 1 / 4, 0, 1⟩ : Sample).a = 0 then ⟨0, 0, 0, 0⟩
        else ⟨3 / 4, 1 / 4, 0, 1⟩) :=
  ⟨(normal_transparent_input ⟨3 / 4, 1 / 4, 0, 1 / 2⟩).1,
    (normal_transparent_input ⟨3 / 4, 1 / 4, 0, 1 / 2⟩).2.1 (by decide!),
    (normal_transparent_input ⟨3 / 4, 1 / 4, 0, 1⟩).2.2 (by decide!) (Or.inr rfl)⟩

/-- C9 (counterexample): in binary32, with the fully transparent layer sample
`(0, 0, 0, 0)`, opacity 1 and no mask, the Normal loop body applied to the
input `(3/4, 3/4, 3/4, 7/16)` returns the colour channels `3/4 + 2^-24`, and
the input `(0.1f, 0.9f, 0.3f, 0.7f)` gets the green channel `0.90000004`:
`in.b * in.a * (1 / in.a)` rounds, so the general path differs from the
forwarded input. -/
theorem normal_transparent_aux_rounds :
    normal_mode_pixel_f32 ⟨3 / 4, 3 / 4, 3 / 4, 7 / 16⟩ ⟨0, 0, 0, 0⟩ none 1 =
      some ⟨12582913 / 16777216, 12582913 / 16777216, 12582913 / 16777216, 7 / 16⟩ ∧
    Sample.is_binary32
      ⟨13421773 / 134217728, 7549747 / 8388608, 5033165 / 16777216, 11744051 / 16777216⟩ ∧
    normal_mode_pixel_f32
        ⟨13421773 / 134217728, 7549747 / 8388608, 5033165 / 16777216, 11744051 / 16777216⟩
        ⟨0, 0, 0, 0⟩ none 1 =
      some ⟨13421773 / 134217728, 15099495 / 16777216, 5033165 / 16777216,
        11744051 / 16777216⟩ := by
  decide!

/-- C9 (amended): in exact arithmetic, for every input sample, the Normal
operator applied with the fully transparent layer sample `(0, 0, 0, 0)`,
opacity 1 and no mask returns the input in all four channels, which is what
forwarding the input buffer produces.  In binary32 the alpha returned is the
input's alpha whenever the result is finite, and for an input sample of
binary32 values that is fully transparent or fully opaque (`in.a` is 0 or 1)
the input sample is returned in all four channels. -/
theorem normal_transparent_aux (inp : Sample) :
    normal_mode_pixel inp ⟨0, 0, 0, 0⟩ none 1 = inp ∧
    (is_binary32 inp.a → ∀ out, normal_mode_pixel_f32 inp ⟨0, 0, 0, 0⟩ none 1 = some out →
      out.a = inp.a) ∧
    (inp.is_binary32 → inp.a = 0 ∨ inp.a = 1 →
      normal_mode_pixel_f32 inp ⟨0, 0, 0, 0⟩ none 1 = some inp) := by
  refine ⟨?_, ?_, ?_⟩
  · obtain ⟨r, g, b, a⟩ := inp
    by_cases h : a = 0
    · simp [normal_mode_pixel, normal_aux_alpha, h]
    · simp [normal_mode_pixel, normal_aux_alpha, normal_channel, h]
  · intro ha out h
    exact normal_f32_zero_layer_alpha inp ⟨0, 0, 0, 0⟩ none 1
      (normal_aux_alpha_f32_zero ⟨0, 0, 0, 0⟩ none 1 (Or.inl rfl)) ha out h
  · intro hin ha
    obtain ⟨r, g, b, a⟩ := inp
    obtain ⟨hr, hg, hb, -⟩ := hin
    simp only at ha
    rcases ha with rfl | rfl
    · exact normal_f32_zero_layer_at_alpha_zero r g b ⟨0, 0, 0, 0⟩ none 1
        (normal_aux_alpha_f32_zero ⟨0, 0, 0, 0⟩ none 1 (Or.inl rfl))
    · exact normal_f32_zero_layer_at_alpha_one r g b ⟨0, 0, 0, 0⟩ none 1
        (normal_aux_alpha_f32_zero ⟨0, 0, 0, 0⟩ none 1 (Or.inl rfl)) hr hg hb

/-- C9 (amended) at a concrete input: a half-transparent input sample in exact
arithmetic, its alpha in binary32, and a fully opaque input sample in
binary32. -/
theorem normal_transparent_aux_witness :
    normal_mode_pixel ⟨3 / 4, 1 / 4, 0, 1 / 2⟩ ⟨0, 0, 0, 0⟩ none 1 = ⟨3 / 4, 1 / 4, 0, 1 / 2⟩ ∧
    (∀ out, normal_mode_pixel_f32 ⟨3 / 4, 1 / 4, 0, 1 / 2⟩ ⟨0, 0, 0, 0⟩ none 1 = some out →
      out.a = 1 / 2) ∧
    normal_mode_pixel_f32 ⟨3 / 4, 1 / 4, 0, 1⟩ ⟨0, 0, 0, 0⟩ none 1 =
      some ⟨3 / 4, 1 / 4, 0, 1⟩ :=
  ⟨(normal_transparent_aux ⟨3 / 4, 1 / 4, 0, 1 / 2⟩).1,
    (normal_transparent_aux ⟨3 / 4, 1 / 4, 0, 1 / 2⟩).2.1 (by decide!),
    (normal_transparent_aux ⟨3 / 4, 1 / 4, 0, 1⟩).2.2 (by decide!) (Or.inr rfl)⟩

/-! ## The Erase formula -/

/-- C10: for every input sample, layer sample, opacity and optional mask value,
the Erase operator copies the three colour channels of the input, sets
`out.a = in.a - in.a * aux.a * opacity * (mask, or 1 when there is no mask)`,
and returns the same sample whatever the colour channels `r`, `g`, `b` of the
layer are; the operator run on a buffer of one sample returns that sample. -/
theorem erase_mode_formula (inp aux : Sample) (mask : Option ℚ) (opacity : ℚ) (r g b : ℚ)
    (roi : GeglRectangle) :
    (erase_mode_pixel inp aux mask opacity).r = inp.r ∧
    (erase_mode_pixel inp aux mask opacity).g = inp.g ∧
    (erase_mode_pixel inp aux mask opacity).b = inp.b ∧
    (erase_mode_pixel inp aux mask opacity).a =
      inp.a - inp.a * aux.a * opacity * mask.getD 1 ∧
    erase_mode_pixel inp ⟨r, g, b, aux.a⟩ mask opacity = erase_mode_pixel inp aux mask opacity ∧
    gimp_operation_erase_mode_process_pixels [inp] [aux] (mask.map fun m => [m]) opacity 1 roi =
      [erase_mode_pixel inp aux mask opacity] := by
  refine ⟨rfl, rfl, rfl, erase_alpha_eq inp aux mask opacity, rfl, ?_⟩
  cases mask <;> simp [gimp_operation_erase_mode_process_pixels, mask_head]

/-! ## Erase: monotonicity, full erase, no-op -/

/-- C11: for every sample with `in.a ≥ 0` and `aux.a`, opacity and mask value in
`[0,1]` (the mask possibly absent), the Erase operator gives `out.a ≤ in.a`, and
`out.a` does not increase when `aux.a` grows to `aux'.a`, when the opacity grows
to `opacity'`, or when the mask value grows from `m` to `m'`, the other
arguments being held fixed. -/
theorem erase_reduces_alpha_monotonically (inp aux aux' : Sample) (mask : Option ℚ)
    (opacity opacity' m m' : ℚ) (hin : 0 ≤ inp.a)
    (haux : 0 ≤ aux.a ∧ aux.a ≤ 1) (hop : 0 ≤ opacity ∧ opacity ≤ 1)
    (hmask : ∀ v, mask = some v → 0 ≤ v ∧ v ≤ 1) :
    (erase_mode_pixel inp aux mask opacity).a ≤ inp.a ∧
    (aux.a ≤ aux'.a →
      (erase_mode_pixel inp aux' mask opacity).a ≤ (erase_mode_pixel inp aux mask opacity).a) ∧
    (opacity ≤ opacity' →
      (erase_mode_pixel inp aux mask opacity').a ≤ (erase_mode_pixel inp aux mask opacity).a) ∧
    (m ≤ m' →
      (erase_mode_pixel inp aux (some m') opacity).a ≤
        (erase_mode_pixel inp aux (some m) opacity).a) := by
  have hk := (mask_getD_mem mask hmask).1
  simp only [erase_alpha_eq, Option.getD_some]
  have h1 : 0 ≤ inp.a * aux.a := mul_nonneg hin haux.1
  refine ⟨?_, fun h => ?_, fun h => ?_, fun h => ?_⟩
  · nlinarith [mul_nonneg (mul_nonneg h1 hop.1) hk]
  · nlinarith [mul_nonneg (mul_nonneg (mul_nonneg hin (sub_nonneg.2 h)) hop.1) hk]
  · nlinarith [mul_nonneg (mul_nonneg h1 (sub_nonneg.2 h)) hk]
  · nlinarith [mul_nonneg (mul_nonneg h1 hop.1) (sub_nonneg.2 h)]

/-- C11 at a concrete input: alpha 1/2 erased by a layer of alpha 1/4 or 3/4,
opacity 1/3 or 2/3, mask value 1/5 or 4/5. -/
theorem erase_reduces_alpha_monotonically_witness :
    (erase_mode_pixel ⟨1, 0, 0, 1 / 2⟩ ⟨0, 1, 0, 1 / 4⟩ (some (1 / 5)) (1 / 3)).a ≤ 1 / 2 ∧
    ((1 / 4 : ℚ) ≤ 3 / 4 →
      (erase_mode_pixel ⟨1, 0, 0, 1 / 2⟩ ⟨0, 0, 1, 3 / 4⟩ (some (1 / 5)) (1 / 3)).a ≤
        (erase_mode_pixel ⟨1, 0, 0, 1 / 2⟩ ⟨0, 1, 0, 1 / 4⟩ (some (1 / 5)) (1 / 3)).a) ∧
    ((1 / 3 : ℚ) ≤ 2 / 3 →
      (erase_mode_pixel ⟨1, 0, 0, 1 / 2⟩ ⟨0, 1, 0, 1 / 4⟩ (some (1 / 5)) (2 / 3)).a ≤
        (erase_mode_pixel ⟨1, 0, 0, 1 / 2⟩ ⟨0, 1, 0, 1 / 4⟩ (some (1 / 5)) (1 / 3)).a) ∧
    ((1 / 5 : ℚ) ≤ 4 / 5 →
      (erase_mode_pixel ⟨1, 0, 0, 1 / 2⟩ ⟨0, 1, 0, 1 / 4⟩ (some (4 / 5)) (1 / 3)).a ≤
        (erase_mode_pixel ⟨1, 0, 0, 1 / 2⟩ ⟨0, 1, 0, 1 / 4⟩ (some (1 / 5)) (1 / 3)).a) :=
  erase_reduces_alpha_monotonically ⟨1, 0, 0, 1 / 2⟩ ⟨0, 1, 0, 1 / 4⟩ ⟨0, 0, 1, 3 / 4⟩
    (some (1 / 5)) (1 / 3) (2 / 3) (1 / 5) (4 / 5)
    (by norm_num) (by norm_num) (by norm_num)
    (by intro v h; cases h; norm_num)

/-- C12: for every input sample and every layer sample with `aux.a = 1`, the
Erase operator with opacity 1 and no mask, or a mask of 1, yields
`out.a = 0`. -/
theorem erase_full (inp aux : Sample) (h : aux.a = 1) :
    (erase_mode_pixel inp aux none 1).a = 0 ∧ (erase_mode_pixel inp aux (some 1) 1).a = 0 := by
  simp [erase_mode_pixel, h]

/-- C12 at a concrete input. -/
theorem erase_full_witness :
    (erase_mode_pixel ⟨1 / 5, 2 / 5, 3 / 5, 1 / 2⟩ ⟨4 / 5, 1 / 4, 0, 1⟩ none 1).a = 0 ∧
      (erase_mode_pixel ⟨1 / 5, 2 / 5, 3 / 5, 1 / 2⟩ ⟨4 / 5, 1 / 4, 0, 1⟩ (some 1) 1).a = 0 :=
  erase_full ⟨1 / 5, 2 / 5, 3 / 5, 1 / 2⟩ ⟨4 / 5, 1 / 4, 0, 1⟩ rfl

/-- C13: for every input sample, layer sample and optional mask value, the
Erase operator with opacity 0 returns the input sample in all four
channels. -/
theorem erase_zero_opacity_noop (inp aux : Sample) (mask : Option ℚ) :
    erase_mode_pixel inp aux mask 0 = inp := by
  cases mask <;> simp [erase_mode_pixel]

/-! ## The Replace formula and its bounds -/

theorem replace_ratio_eq (aux : Sample) (mask : Option ℚ) (opacity new_alpha : ℚ) :
    replace_ratio aux mask opacity new_alpha = mask.getD 1 * opacity * aux.a / new_alpha := by
  cases mask <;> simp [replace_ratio]

theorem replace_channel_eq_move_toward (inb layerb ratio : ℚ) :
    replace_channel inb layerb ratio = move_toward inb layerb ratio := by
  unfold replace_channel move_toward
  by_cases h : layerb > inb
  · have h' : layerb - inb > 0 := sub_pos.2 h
    rw [if_pos h, if_pos h', abs_of_pos h']
  · have h' : ¬ layerb - inb > 0 := fun hc => h (sub_pos.1 hc)
    have h'' : layerb - inb ≤ 0 := not_lt.1 h'
    rw [if_neg h, if_neg h', abs_of_nonpos h'']
    ring

theorem replace_mode_pixel_eq_spec (inp aux : Sample) (mask : Option ℚ) (opacity : ℚ) :
    replace_mode_pixel inp aux mask opacity = replace_spec inp aux mask opacity := by
  have hna : replace_new_alpha inp aux mask opacity =
      (aux.a - inp.a) * mask.getD 1 * opacity + inp.a := by
    cases mask <;> simp [replace_new_alpha]
  simp only [replace_mode_pixel, replace_spec, hna, replace_ratio_eq,
    replace_channel_eq_move_toward]

/-- C14: for every input sample, layer sample, opacity and optional mask value
`m` (1 when absent), one iteration of the Replace operator, and the operator
run on a buffer of one sample, compute the Replace formula of the
specification: `out.a = new_a` with `new_a = (aux.a - in.a) * m * opacity +
in.a`; when `new_a ≠ 0` the colour channels are computed with
`ratio = m * opacity * aux.a / new_a`, and when `new_a = 0` they are those of
the input. -/
theorem replace_mode_computes_formula (inp aux : Sample) (mask : Option ℚ) (opacity : ℚ)
    (roi : GeglRectangle) :
    replace_mode_pixel inp aux mask opacity = replace_spec inp aux mask opacity ∧
    gimp_operation_replace_mode_process_pixels [inp] [aux] (mask.map fun m => [m])
        opacity 1 roi = [replace_spec inp aux mask opacity] := by
  refine ⟨replace_mode_pixel_eq_spec inp aux mask opacity, ?_⟩
  cases mask <;>
    simp [gimp_operation_replace_mode_process_pixels, mask_head, replace_mode_pixel_eq_spec]

theorem replace_channel_between (inb layerb ratio : ℚ) (hr : 0 ≤ ratio ∧ ratio ≤ 1) :
    min inb layerb ≤ replace_channel inb layerb ratio ∧
      replace_channel inb layerb ratio ≤ max inb layerb := by
  unfold replace_channel
  by_cases h : layerb > inb
  · have hd : 0 ≤ layerb - inb := le_of_lt (sub_pos.2 h)
    rw [if_pos h, min_eq_left (le_of_lt h), max_eq_right (le_of_lt h)]
    constructor
    · nlinarith [mul_nonneg hd hr.1]
    · nlinarith [mul_nonneg hd (sub_nonneg.2 hr.2)]
  · have hle : layerb ≤ inb := not_lt.1 h
    have hd : 0 ≤ inb - layerb := sub_nonneg.2 hle
    rw [if_neg h, min_eq_right hle, max_eq_left hle]
    constructor
    · nlinarith [mul_nonneg hd (sub_nonneg.2 hr.2)]
    · nlinarith [mul_nonneg hd hr.1]

/-- The ratio of the Replace operator is in `[0,1]` when alphas, opacity and
mask are and `new_alpha` is not zero. -/
theorem replace_ratio_mem (inp aux : Sample) (mask : Option ℚ) (opacity : ℚ)
    (hin : 0 ≤ inp.a ∧ inp.a ≤ 1) (haux : 0 ≤ aux.a ∧ aux.a ≤ 1)
    (hop : 0 ≤ opacity ∧ opacity ≤ 1) (hmask : ∀ m, mask = some m → 0 ≤ m ∧ m ≤ 1)
    (hne : replace_new_alpha inp aux mask opacity ≠ 0) :
    0 ≤ replace_ratio aux mask opacity (replace_new_alpha inp aux mask opacity) ∧
      replace_ratio aux mask opacity (replace_new_alpha inp aux mask opacity) ≤ 1 := by
  have hm := mask_getD_mem mask hmask
  have ht := unit_mul_mem _ _ hm hop
  have hna := lerp_alpha_mem _ _ _ haux hin ht
  rw [replace_ratio_eq]
  rw [replace_new_alpha_eq] at hne ⊢
  have hpos : 0 < (aux.a - inp.a) * (mask.getD 1 * opacity) + inp.a :=
    lt_of_le_of_ne hna.1 (Ne.symm hne)
  constructor
  · exact div_nonneg (mul_nonneg ht.1 haux.1) hna.1
  · rw [div_le_one hpos]
    nlinarith [mul_nonneg hin.1 (sub_nonneg.2 ht.2)]

/-- C15 (counterexample): in binary32, with `in = (0, 1, 1/2, 1)`, the layer
sample `(1, 0, 1/2, 5 * 2^-26)`, opacity 1 and no mask, or a mask of 1,
`new_alpha` is `2^-24`, the ratio is 5/4 and the Replace loop body returns the
colour channels `5/4` and `-1/4`, outside the range `[0, 1]` spanned by the two
colours.  With `in.a = 0`, `aux.a = 0.9299280f`, mask `0.6950396f` and opacity
`0.8893006f` the ratio is `1 + 2^-23` and the colour channels are `1 + 2^-23`
and `-2^-23`.  With `in = (1, 1, 1, 0)`, the layer sample
`(2^-25, 2^-25, 2^-25, 1)`, opacity 1 and no mask the ratio is exactly 1 and
the colour channels returned are 0, below both colours: `1 - 2^-25` rounds
to 1. -/
theorem replace_overshoots_in_binary32 :
    Sample.is_binary32 ⟨1, 0, 1 / 2, 5 / 67108864⟩ ∧
    replace_new_alpha_f32 ⟨0, 1, 1 / 2, 1⟩ ⟨1, 0, 1 / 2, 5 / 67108864⟩ none 1 =
      some (1 / 16777216) ∧
    replace_ratio_f32 ⟨1, 0, 1 / 2, 5 / 67108864⟩ none 1 (1 / 16777216) = some (5 / 4) ∧
    replace_mode_pixel_f32 ⟨0, 1, 1 / 2, 1⟩ ⟨1, 0, 1 / 2, 5 / 67108864⟩ none 1 =
      some ⟨5 / 4, -1 / 4, 1 / 2, 1 / 16777216⟩ ∧
    replace_mode_pixel_f32 ⟨0, 1, 1 / 2, 1⟩ ⟨1, 0, 1 / 2, 5 / 67108864⟩ (some 1) 1 =
      some ⟨5 / 4, -1 / 4, 1 / 2, 1 / 16777216⟩ ∧
    max (0 : ℚ) 1 < 5 / 4 ∧ (-1 / 4 : ℚ) < min 1 0 ∧
    Sample.is_binary32 ⟨1, 0, 1 / 2, 15601603 / 16777216⟩ ∧
    is_binary32 (11660829 / 16777216) ∧ is_binary32 (3729997 / 4194304) ∧
    replace_new_alpha_f32 ⟨0, 1, 1 / 2, 0⟩ ⟨1, 0, 1 / 2, 15601603 / 16777216⟩
        (some (11660829 / 16777216)) (3729997 / 4194304) = some (1205417 / 2097152) ∧
    replace_ratio_f32 ⟨1, 0, 1 / 2, 15601603 / 16777216⟩ (some (11660829 / 16777216))
        (3729997 / 4194304) (1205417 / 2097152) = some (8388609 / 8388608) ∧
    replace_mode_pixel_f32 ⟨0, 1, 1 / 2, 0⟩ ⟨1, 0, 1 / 2, 15601603 / 16777216⟩
        (some (11660829 / 16777216)) (3729997 / 4194304) =
      some ⟨8388609 / 8388608, -1 / 8388608, 1 / 2, 1205417 / 2097152⟩ ∧
    max (0 : ℚ) 1 < 8388609 / 8388608 ∧ (-1 / 8388608 : ℚ) < min 1 0 ∧
    replace_ratio_f32 ⟨1 / 33554432, 1 / 33554432, 1 / 33554432, 1⟩ none 1 1 = some 1 ∧
    replace_mode_pixel_f32 ⟨1, 1, 1, 0⟩ ⟨1 / 33554432, 1 / 33554432, 1 / 33554432, 1⟩ none 1 =
      some ⟨0, 0, 0, 1⟩ ∧
    (0 : ℚ) < min 1 (1 / 33554432) := by
  decide!

/-- C15 (amended): in exact arithmetic, for every sample with `in.a`, `aux.a`,
opacity and the mask value (when there is a mask) in `[0,1]`, every output
colour channel of the Replace operator lies between `in.b` and `aux.b`
inclusive, and the ratio is in `[0,1]` whenever `new_a ≠ 0`. -/
theorem replace_never_overshoots (inp aux : Sample) (mask : Option ℚ) (opacity : ℚ)
    (hin : 0 ≤ inp.a ∧ inp.a ≤ 1) (haux : 0 ≤ aux.a ∧ aux.a ≤ 1)
    (hop : 0 ≤ opacity ∧ opacity ≤ 1) (hmask : ∀ m, mask = some m → 0 ≤ m ∧ m ≤ 1) :
    (min inp.r aux.r ≤ (replace_mode_pixel inp aux mask opacity).r ∧
      (replace_mode_pixel inp aux mask opacity).r ≤ max inp.r aux.r) ∧
    (min inp.g aux.g ≤ (replace_mode_pixel inp aux mask opacity).g ∧
      (replace_mode_pixel inp aux mask opacity).g ≤ max inp.g aux.g) ∧
    (min inp.b aux.b ≤ (replace_mode_pixel inp aux mask opacity).b ∧
      (replace_mode_pixel inp aux mask opacity).b ≤ max inp.b aux.b) ∧
    (replace_new_alpha inp aux mask opacity ≠ 0 →
      0 ≤ replace_ratio aux mask opacity (replace_new_alpha inp aux mask opacity) ∧
        replace_ratio aux mask opacity (replace_new_alpha inp aux mask opacity) ≤ 1) := by
  have hr := replace_ratio_mem inp aux mask opacity hin haux hop hmask
  refine ⟨?_, ?_, ?_, hr⟩ <;>
  · by_cases hne : replace_new_alpha inp aux mask opacity = 0
    · simp [replace_mode_pixel, hne]
    · simp only [replace_mode_pixel, ne_eq, hne, not_false_eq_true, if_true]
      exact replace_channel_between _ _ _ (hr hne)

/-- C15 (amended) at a concrete input, with a mask value of 1/2. -/
theorem replace_never_overshoots_witness :
    (min (1 : ℚ) 0 ≤ (replace_mode_pixel ⟨1, 0, 1 / 3, 1 / 2⟩ ⟨0, 1, 1 / 3, 3 / 4⟩
        (some (1 / 2)) (1 / 3)).r ∧
      (replace_mode_pixel ⟨1, 0, 1 / 3, 1 / 2⟩ ⟨0, 1, 1 / 3, 3 / 4⟩
        (some (1 / 2)) (1 / 3)).r ≤ max (1 : ℚ) 0) ∧
    (min (0 : ℚ) 1 ≤ (replace_mode_pixel ⟨1, 0, 1 / 3, 1 / 2⟩ ⟨0, 1, 1 / 3, 3 / 4⟩
        (some (1 / 2)) (1 / 3)).g ∧
      (replace_mode_pixel ⟨1, 0, 1 / 3, 1 / 2⟩ ⟨0, 1, 1 / 3, 3 / 4⟩
        (some (1 / 2)) (1 / 3)).g ≤ max (0 : ℚ) 1) ∧
    (min (1 / 3 : ℚ) (1 / 3) ≤ (replace_mode_pixel ⟨1, 0, 1 / 3, 1 / 2⟩ ⟨0, 1, 1 / 3, 3 / 4⟩
        (some (1 / 2)) (1 / 3)).b ∧
      (replace_mode_pixel ⟨1, 0, 1 / 3, 1 / 2⟩ ⟨0, 1, 1 / 3, 3 / 4⟩
        (some (1 / 2)) (1 / 3)).b ≤ max (1 / 3 : ℚ) (1 / 3)) ∧
    (replace_new_alpha ⟨1, 0, 1 / 3, 1 / 2⟩ ⟨0, 1, 1 / 3, 3 / 4⟩ (some (1 / 2)) (1 / 3) ≠ 0 →
      0 ≤ replace_ratio ⟨0, 1, 1 / 3, 3 / 4⟩ (some (1 / 2)) (1 / 3)
          (replace_new_alpha ⟨1, 0, 1 / 3, 1 / 2⟩ ⟨0, 1, 1 / 3, 3 / 4⟩ (some (1 / 2)) (1 / 3)) ∧
        replace_ratio ⟨0, 1, 1 / 3, 3 / 4⟩ (some (1 / 2)) (1 / 3)
          (replace_new_alpha ⟨1, 0, 1 / 3, 1 / 2⟩ ⟨0, 1, 1 / 3, 3 / 4⟩ (some (1 / 2)) (1 / 3))
          ≤ 1) :=
  replace_never_overshoots ⟨1, 0, 1 / 3, 1 / 2⟩ ⟨0, 1, 1 / 3, 3 / 4⟩ (some (1 / 2)) (1 / 3)
    (by norm_num) (by norm_num) (by norm_num)
    (by intro m h; cases h; norm_num)

/-! ## The Dissolve rule for one pixel -/

theorem dissolve_pixel_eq (d : Int) (inp aux : Sample) (mask : Option ℚ) (opacity : ℚ) :
    dissolve_pixel d inp aux mask opacity =
      (if (d : ℚ) ≥ aux.a * opacity * 255 * mask.getD 1 then inp
        else { r := aux.r, g := aux.g, b := aux.b, a := 1 }) := by
  cases mask <;> simp [dissolve_pixel]

/-- C16: for every pixel, with `v = aux.a * opacity * 255 * (mask, or 1 when
there is no mask)` and `d` the integer drawn for the pixel, the Dissolve
operator outputs the input sample unchanged when `d ≥ v` and
`(aux.r, aux.g, aux.b, 1)` otherwise, so that the output alpha is `in.a` or 1;
in the inner loop `d` is the result of `g_rand_int_range (gr, 0, 255)`. -/
theorem dissolve_pixel_rule (G : GRand) (gr : G.State) (d : Int) (inp aux : Sample)
    (mask : Option ℚ) (opacity : ℚ) :
    dissolve_pixel d inp aux mask opacity =
      (if (d : ℚ) ≥ aux.a * opacity * 255 * mask.getD 1 then inp
        else { r := aux.r, g := aux.g, b := aux.b, a := 1 }) ∧
    ((dissolve_pixel d inp aux mask opacity).a = inp.a ∨
      (dissolve_pixel d inp aux mask opacity).a = 1) ∧
    (dissolve_row G opacity 1 gr [inp] [aux] (mask.map fun m => [m])).1 =
      [dissolve_pixel (G.rand_int_range gr 0 255).1 inp aux mask opacity] := by
  refine ⟨dissolve_pixel_eq d inp aux mask opacity,
    dissolve_alpha_cases d inp aux mask opacity, ?_⟩
  cases mask <;> simp [dissolve_row, mask_head, mask_next]

/-! ## The point loops as per-pixel maps -/

theorem normal_core_eq_point_loop (opacity : ℚ) (roi : GeglRectangle) (samples : Nat) :
    ∀ (inp aux : List Sample) (mask : Option (List ℚ)),
      gimp_operation_normal_mode_process_pixels_core inp aux mask opacity samples roi =
        point_loop normal_mode_pixel inp aux mask opacity samples := by
  induction samples with
  | zero => intro inp aux mask; simp [gimp_operation_normal_mode_process_pixels_core, point_loop]
  | succ n ih =>
    intro inp aux mask
    rcases inp with _ | ⟨x, inp⟩ <;> rcases aux with _ | ⟨a, aux⟩ <;>
      simp [gimp_operation_normal_mode_process_pixels_core, point_loop, ih]

theorem erase_eq_point_loop (opacity : ℚ) (roi : GeglRectangle) (samples : Nat) :
    ∀ (inp aux : List Sample) (mask : Option (List ℚ)),
      gimp_operation_erase_mode_process_pixels inp aux mask opacity samples roi =
        point_loop erase_mode_pixel inp aux mask opacity samples := by
  induction samples with
  | zero => intro inp aux mask; simp [gimp_operation_erase_mode_process_pixels, point_loop]
  | succ n ih =>
    intro inp aux mask
    rcases inp with _ | ⟨x, inp⟩ <;> rcases aux with _ | ⟨a, aux⟩ <;>
      simp [gimp_operation_erase_mode_process_pixels, point_loop, ih]

theorem replace_eq_point_loop (opacity : ℚ) (roi : GeglRectangle) (samples : Nat) :
    ∀ (inp aux : List Sample) (mask : Option (List ℚ)),
      gimp_operation_replace_mode_process_pixels inp aux mask opacity samples roi =
        point_loop replace_mode_pixel inp aux mask opacity samples := by
  induction samples with
  | zero => intro inp aux mask; simp [gimp_operation_replace_mode_process_pixels, point_loop]
  | succ n ih =>
    intro inp aux mask
    rcases inp with _ | ⟨x, inp⟩ <;> rcases aux with _ | ⟨a, aux⟩ <;>
      simp [gimp_operation_replace_mode_process_pixels, point_loop, ih]

theorem point_loop_zero (f : Sample → Sample → Option ℚ → ℚ → Sample)
    (inp aux : List Sample) (mask : Option (List ℚ)) (opacity : ℚ) :
    point_loop f inp aux mask opacity 0 = [] := by
  simp [point_loop]

theorem point_loop_mask_ones (f : Sample → Sample → Option ℚ → ℚ → Sample) (opacity : ℚ)
    (hf : ∀ x a, f x a (some 1) opacity = f x a none opacity) (n : Nat) :
    ∀ (k : Nat) (inp aux : List Sample), n ≤ k →
      point_loop f inp aux (some (List.replicate k 1)) opacity n =
        point_loop f inp aux none opacity n := by
  induction n with
  | zero => intro k inp aux _; simp [point_loop]
  | succ n ih =>
    intro k inp aux hk
    obtain ⟨k, rfl⟩ : ∃ k', k = k' + 1 := ⟨k - 1, by omega⟩
    rcases inp with _ | ⟨x, inp⟩ <;> rcases aux with _ | ⟨a, aux⟩ <;>
      simp [point_loop, mask_head, mask_next, List.replicate_succ, hf]
    exact ih k inp aux (by omega)

theorem point_loop_getElem? (f : Sample → Sample → Option ℚ → ℚ → Sample) (opacity : ℚ)
    (n : Nat) :
    ∀ (inp aux : List Sample) (mask : Option (List ℚ)) (i : Nat),
      (point_loop f inp aux mask opacity n)[i]? =
        if i < n then sample_at f inp aux mask opacity i else none := by
  induction n with
  | zero => intro inp aux mask i; simp [point_loop]
  | succ n ih =>
    intro inp aux mask i
    rcases inp with _ | ⟨x, inp⟩
    · simp [point_loop, sample_at]
    rcases aux with _ | ⟨a, aux⟩
    · simp [point_loop, sample_at]
    rcases mask with _ | ⟨_ | ⟨m, ms⟩⟩
    · cases i with
      | zero => simp [point_loop, mask_head, sample_at, mask_at]
      | succ i => simp [point_loop, mask_head, mask_next, ih, sample_at, mask_at]
    · simp [point_loop, mask_head, sample_at, mask_at]
    · cases i with
      | zero => simp [point_loop, mask_head, sample_at, mask_at]
      | succ i => simp [point_loop, mask_head, mask_next, ih, sample_at, mask_at]

theorem point_loop_append_none (f : Sample → Sample → Option ℚ → ℚ → Sample) (opacity : ℚ)
    (inp2 aux2 : List Sample) (n2 : Nat) :
    ∀ (inp1 aux1 : List Sample), aux1.length = inp1.length →
      point_loop f (inp1 ++ inp2) (aux1 ++ aux2) none opacity (inp1.length + n2) =
        point_loop f inp1 aux1 none opacity inp1.length ++
          point_loop f inp2 aux2 none opacity n2 := by
  intro inp1
  induction inp1 with
  | nil =>
    intro aux1 h
    have : aux1 = [] := List.length_eq_zero.1 (by simpa using h)
    subst this
    simp [point_loop_zero]
  | cons x inp1 ih =>
    intro aux1 h
    rcases aux1 with _ | ⟨a, aux1⟩
    · simp at h
    have h' : aux1.length = inp1.length := by simpa using h
    have e : (x :: inp1).length + n2 = (inp1.length + n2) + 1 := by simp; omega
    rw [e]
    simp [point_loop, mask_head, mask_next, ih aux1 h']

theorem point_loop_append_some (f : Sample → Sample → Option ℚ → ℚ → Sample) (opacity : ℚ)
    (inp2 aux2 : List Sample) (m2 : List ℚ) (n2 : Nat) :
    ∀ (inp1 aux1 : List Sample) (m1 : List ℚ),
      aux1.length = inp1.length → m1.length = inp1.length →
      point_loop f (inp1 ++ inp2) (aux1 ++ aux2) (some (m1 ++ m2)) opacity
          (inp1.length + n2) =
        point_loop f inp1 aux1 (some m1) opacity inp1.length ++
          point_loop f inp2 aux2 (some m2) opacity n2 := by
  intro inp1
  induction inp1 with
  | nil =>
    intro aux1 m1 h hm
    have : aux1 = [] := List.length_eq_zero.1 (by simpa using h)
    subst this
    have : m1 = [] := List.length_eq_zero.1 (by simpa using hm)
    subst this
    simp [point_loop_zero]
  | cons x inp1 ih =>
    intro aux1 m1 h hm
    rcases aux1 with _ | ⟨a, aux1⟩
    · simp at h
    rcases m1 with _ | ⟨m, m1⟩
    · simp at hm
    have h' : aux1.length = inp1.length := by simpa using h
    have hm' : m1.length = inp1.length := by simpa using hm
    have e : (x :: inp1).length + n2 = (inp1.length + n2) + 1 := by simp; omega
    rw [e]
    simp [point_loop, mask_head, mask_next, ih aux1 m1 h' hm']

/-! ## An absent mask and a mask of ones -/

theorem dissolve_row_length_le (G : GRand) (opacity : ℚ) (n : Nat) :
    ∀ (gr : G.State) (inp aux : List Sample) (mask : Option (List ℚ)),
      (dissolve_row G opacity n gr inp aux mask).1.length ≤ n := by
  induction n with
  | zero => intro gr inp aux mask; simp [dissolve_row]
  | succ n ih =>
    intro gr inp aux mask
    rcases inp with _ | ⟨x, inp⟩
    · simp [dissolve_row]
    rcases aux with _ | ⟨a, aux⟩
    · simp [dissolve_row]
    cases h : mask_head mask with
    | none => simp [dissolve_row, h]
    | some m =>
      simp only [dissolve_row, h, List.length_cons]
      exact Nat.succ_le_succ (ih _ _ _ _)

theorem dissolve_row_no_mask (G : GRand) (opacity : ℚ) (n : Nat) :
    ∀ (gr : G.State) (inp aux : List Sample),
      (dissolve_row G opacity n gr inp aux none).2.2.2 = none := by
  induction n with
  | zero => intro gr inp aux; simp [dissolve_row]
  | succ n ih =>
    intro gr inp aux
    rcases inp with _ | ⟨x, inp⟩
    · simp [dissolve_row]
    rcases aux with _ | ⟨a, aux⟩
    · simp [dissolve_row]
    simp [dissolve_row, mask_head, mask_next, ih]

theorem dissolve_pixel_mask_one (d : Int) (inp aux : Sample) (opacity : ℚ) :
    dissolve_pixel d inp aux (some 1) opacity = dissolve_pixel d inp aux none opacity := by
  simp [dissolve_pixel]

/-- One pass of the inner loop with a mask of `k` ones: the samples written and
the advanced `in` and `aux` pointers are those of the pass without a mask, and
the mask pointer has advanced by the number of samples written. -/
theorem dissolve_row_mask_ones (G : GRand) (opacity : ℚ) (n : Nat) :
    ∀ (k : Nat) (gr : G.State) (inp aux : List Sample), n ≤ k →
      dissolve_row G opacity n gr inp aux (some (List.replicate k 1)) =
        ((dissolve_row G opacity n gr inp aux none).1,
          (dissolve_row G opacity n gr inp aux none).2.1,
          (dissolve_row G opacity n gr inp aux none).2.2.1,
          some (List.replicate (k - (dissolve_row G opacity n gr inp aux none).1.length) 1)) := by
  induction n with
  | zero => intro k gr inp aux _; simp [dissolve_row]
  | succ n ih =>
    intro k gr inp aux hk
    obtain ⟨k, rfl⟩ : ∃ k', k = k' + 1 := ⟨k - 1, by omega⟩
    rcases inp with _ | ⟨x, inp⟩
    · simp [dissolve_row]
    rcases aux with _ | ⟨a, aux⟩
    · simp [dissolve_row]
    simp [dissolve_row, mask_head, mask_next, List.replicate_succ, dissolve_pixel_mask_one,
      ih k _ inp aux (by omega)]

theorem dissolve_rows_mask_ones (G : GRand) (random_table : List Int) (opacity : ℚ)
    (result : GeglRectangle) (rows : Nat) :
    ∀ (k : Nat) (y : Int) (inp aux : List Sample), rows * result.width.toNat ≤ k →
      dissolve_rows G random_table opacity result rows y inp aux
          (some (List.replicate k 1)) =
        dissolve_rows G random_table opacity result rows y inp aux none := by
  induction rows with
  | zero => intro k y inp aux _; simp [dissolve_rows]
  | succ rows ih =>
    intro k y inp aux hk
    have hw : result.width.toNat ≤ k := by
      have : result.width.toNat ≤ (rows + 1) * result.width.toNat := by
        rw [Nat.succ_mul]; omega
      omega
    cases hseed : random_table_read random_table (Int.tmod y RANDOM_TABLE_SIZE) with
    | none => simp [dissolve_rows, hseed]
    | some seed =>
      have hlen := dissolve_row_length_le G opacity result.width.toNat
        (fast_forward G result.x.toNat (G.new_with_seed (to_guint32 seed))) inp aux none
      simp only [dissolve_rows, hseed]
      rw [dissolve_row_mask_ones G opacity _ k _ inp aux hw]
      simp only [dissolve_row_no_mask]
      rw [ih _ (y + 1) _ _ (by rw [Nat.succ_mul] at hk; omega)]

theorem normal_mode_pixel_mask_one (x a : Sample) (opacity : ℚ) :
    normal_mode_pixel x a (some 1) opacity = normal_mode_pixel x a none opacity := by
  simp [normal_mode_pixel, normal_aux_alpha]

theorem erase_mode_pixel_mask_one (x a : Sample) (opacity : ℚ) :
    erase_mode_pixel x a (some 1) opacity = erase_mode_pixel x a none opacity := by
  simp [erase_mode_pixel]

theorem replace_mode_pixel_mask_one (x a : Sample) (opacity : ℚ) :
    replace_mode_pixel x a (some 1) opacity = replace_mode_pixel x a none opacity := by
  simp [replace_mode_pixel, replace_new_alpha, replace_ratio]

/-- C17: for each of the Normal, Dissolve, Erase and Replace operators and for
every `in`, `aux`, opacity and region, running the operator with a mask of `k`
entries all equal to 1, `k` being at least the number of samples processed,
gives exactly the output array of the run with no mask. -/
theorem absent_mask_is_mask_of_ones (G : GRand) (random_table : List Int)
    (inp aux : List Sample) (opacity : ℚ) (samples k : Nat) (roi result : GeglRectangle)
    (hk : samples ≤ k) (hr : result.height.toNat * result.width.toNat ≤ k) :
    gimp_operation_normal_mode_process_pixels_core inp aux (some (List.replicate k 1))
        opacity samples roi =
      gimp_operation_normal_mode_process_pixels_core inp aux none opacity samples roi ∧
    gimp_operation_dissolve_mode_process_pixels G random_table inp aux
        (some (List.replicate k 1)) opacity result =
      gimp_operation_dissolve_mode_process_pixels G random_table inp aux none opacity result ∧
    gimp_operation_erase_mode_process_pixels inp aux (some (List.replicate k 1))
        opacity samples roi =
      gimp_operation_erase_mode_process_pixels inp aux none opacity samples roi ∧
    gimp_operation_replace_mode_process_pixels inp aux (some (List.replicate k 1))
        opacity samples roi =
      gimp_operation_replace_mode_process_pixels inp aux none opacity samples roi := by
  refine ⟨?_, ?_, ?_, ?_⟩
  · simp only [normal_core_eq_point_loop]
    exact point_loop_mask_ones _ _ (fun x a => normal_mode_pixel_mask_one x a opacity) _ _ _ _ hk
  · exact dissolve_rows_mask_ones G random_table opacity result _ k _ inp aux hr
  · simp only [erase_eq_point_loop]
    exact point_loop_mask_ones _ _ (fun x a => erase_mode_pixel_mask_one x a opacity) _ _ _ _ hk
  · simp only [replace_eq_point_loop]
    exact point_loop_mask_ones _ _ (fun x a => replace_mode_pixel_mask_one x a opacity) _ _ _ _ hk

/-- C17 at a concrete input: two samples, a region of width 2 and height 1, and
a mask of two ones. -/
theorem absent_mask_is_mask_of_ones_witness :
    gimp_operation_normal_mode_process_pixels_core [⟨1, 0, 0, 1⟩, ⟨0, 1, 0, 1 / 2⟩]
        [⟨1, 1, 0, 1 / 2⟩, ⟨0, 1, 1, 1⟩] (some (List.replicate 2 1)) (1 / 3) 2 ⟨0, 0, 2, 1⟩ =
      gimp_operation_normal_mode_process_pixels_core [⟨1, 0, 0, 1⟩, ⟨0, 1, 0, 1 / 2⟩]
        [⟨1, 1, 0, 1 / 2⟩, ⟨0, 1, 1, 1⟩] none (1 / 3) 2 ⟨0, 0, 2, 1⟩ ∧
    gimp_operation_dissolve_mode_process_pixels lcg [7] [⟨1, 0, 0, 1⟩, ⟨0, 1, 0, 1 / 2⟩]
        [⟨1, 1, 0, 1 / 2⟩, ⟨0, 1, 1, 1⟩] (some (List.replicate 2 1)) (1 / 3) ⟨0, 0, 2, 1⟩ =
      gimp_operation_dissolve_mode_process_pixels lcg [7] [⟨1, 0, 0, 1⟩, ⟨0, 1, 0, 1 / 2⟩]
        [⟨1, 1, 0, 1 / 2⟩, ⟨0, 1, 1, 1⟩] none (1 / 3) ⟨0, 0, 2, 1⟩ ∧
    gimp_operation_erase_mode_process_pixels [⟨1, 0, 0, 1⟩, ⟨0, 1, 0, 1 / 2⟩]
        [⟨1, 1, 0, 1 / 2⟩, ⟨0, 1, 1, 1⟩] (some (List.replicate 2 1)) (1 / 3) 2 ⟨0, 0, 2, 1⟩ =
      gimp_operation_erase_mode_process_pixels [⟨1, 0, 0, 1⟩, ⟨0, 1, 0, 1 / 2⟩]
        [⟨1, 1, 0, 1 / 2⟩, ⟨0, 1, 1, 1⟩] none (1 / 3) 2 ⟨0, 0, 2, 1⟩ ∧
    gimp_operation_replace_mode_process_pixels [⟨1, 0, 0, 1⟩, ⟨0, 1, 0, 1 / 2⟩]
        [⟨1, 1, 0, 1 / 2⟩, ⟨0, 1, 1, 1⟩] (some (List.replicate 2 1)) (1 / 3) 2 ⟨0, 0, 2, 1⟩ =
      gimp_operation_replace_mode_process_pixels [⟨1, 0, 0, 1⟩, ⟨0, 1, 0, 1 / 2⟩]
        [⟨1, 1, 0, 1 / 2⟩, ⟨0, 1, 1, 1⟩] none (1 / 3) 2 ⟨0, 0, 2, 1⟩ :=
  absent_mask_is_mask_of_ones lcg [7] [⟨1, 0, 0, 1⟩, ⟨0, 1, 0, 1 / 2⟩]
    [⟨1, 1, 0, 1 / 2⟩, ⟨0, 1, 1, 1⟩] (1 / 3) 2 2 ⟨0, 0, 2, 1⟩ ⟨0, 0, 2, 1⟩
    (by decide) (by decide)

/-! ## Opacity and mask as one factor -/

theorem erase_mode_pixel_eq (inp aux : Sample) (mask : Option ℚ) (opacity : ℚ) :
    erase_mode_pixel inp aux mask opacity =
      { r := inp.r, g := inp.g, b := inp.b,
        a := inp.a - inp.a * aux.a * (opacity * mask.getD 1) } := by
  cases mask <;> simp [erase_mode_pixel]

/-- C18 (counterexample): in binary32, with the layer alpha 1, the pairs
(opacity `0.79277855f`, mask `0.55896729f`) and (opacity `0.55896729f`, mask
`0.79277855f`), which have the same product, give the Dissolve loop body the
values `113` and `113.000015`: for the drawn integer 113 the first keeps the
input and the second writes the layer colour.  With the layer alpha
`1 - 2^-24`, the pairs (opacity `1 - 2^-24`, mask `5/16`) and (opacity `5/16`,
mask `1 - 2^-24`) give different output samples in the Normal and in the
Replace loop body. -/
theorem opacity_and_mask_order_matters :
    is_binary32 (13300617 / 16777216) ∧ is_binary32 (9377915 / 16777216) ∧
    (13300617 / 16777216 : ℚ) * (9377915 / 16777216) =
      (9377915 / 16777216) * (13300617 / 16777216) ∧
    dissolve_value_f32 ⟨0, 0, 0, 1⟩ (some (9377915 / 16777216)) (13300617 / 16777216) =
      some 113 ∧
    dissolve_value_f32 ⟨0, 0, 0, 1⟩ (some (13300617 / 16777216)) (9377915 / 16777216) =
      some (7405569 / 65536) ∧
    dissolve_pixel_f32 113 ⟨1, 1, 1, 1⟩ ⟨0, 0, 0, 1⟩ (some (9377915 / 16777216))
        (13300617 / 16777216) = some ⟨1, 1, 1, 1⟩ ∧
    dissolve_pixel_f32 113 ⟨1, 1, 1, 1⟩ ⟨0, 0, 0, 1⟩ (some (13300617 / 16777216))
        (9377915 / 16777216) = some ⟨0, 0, 0, 1⟩ ∧
    is_binary32 (16777215 / 16777216) ∧
    normal_mode_pixel_f32 ⟨0, 0, 0, 0⟩ ⟨1, 1, 1, 16777215 / 16777216⟩ (some (5 / 16))
        (16777215 / 16777216) = some ⟨1, 1, 1, 10485759 / 33554432⟩ ∧
    normal_mode_pixel_f32 ⟨0, 0, 0, 0⟩ ⟨1, 1, 1, 16777215 / 16777216⟩
        (some (16777215 / 16777216)) (5 / 16) = some ⟨1, 1, 1, 5242879 / 16777216⟩ ∧
    replace_mode_pixel_f32 ⟨0, 1, 1 / 2, 0⟩ ⟨1, 0, 1 / 2, 16777215 / 16777216⟩ (some (5 / 16))
        (16777215 / 16777216) = some ⟨1, 0, 1 / 2, 5242879 / 16777216⟩ ∧
    replace_mode_pixel_f32 ⟨0, 1, 1 / 2, 0⟩ ⟨1, 0, 1 / 2, 16777215 / 16777216⟩
        (some (16777215 / 16777216)) (5 / 16) =
      some ⟨8388607 / 8388608, 1 / 8388608, 1 / 2, 10485759 / 33554432⟩ := by
  decide!

/-- C18 (amended): in exact arithmetic, for each of the Normal, Dissolve (for
every drawn integer `d`), Erase and Replace operators and for every `in` and
`aux` sample, two pairs of opacity and mask value (1 when there is no mask)
with the same product `opacity * mask` produce the same output sample.  In
binary32 the same holds for the Erase loop body, for opacities that are
binary32 values. -/
theorem opacity_and_mask_act_as_product (d : Int) (inp aux : Sample) (mask mask' : Option ℚ)
    (opacity opacity' : ℚ) (h : opacity * mask.getD 1 = opacity' * mask'.getD 1) :
    normal_mode_pixel inp aux mask opacity = normal_mode_pixel inp aux mask' opacity' ∧
    dissolve_pixel d inp aux mask opacity = dissolve_pixel d inp aux mask' opacity' ∧
    erase_mode_pixel inp aux mask opacity = erase_mode_pixel inp aux mask' opacity' ∧
    replace_mode_pixel inp aux mask opacity = replace_mode_pixel inp aux mask' opacity' ∧
    (is_binary32 opacity → is_binary32 opacity' →
      erase_mode_pixel_f32 inp aux mask opacity =
        erase_mode_pixel_f32 inp aux mask' opacity') := by
  have hn : aux.a * opacity * mask.getD 1 = aux.a * opacity' * mask'.getD 1 := by
    rw [mul_assoc, h, ← mul_assoc]
  have hd : aux.a * opacity * 255 * mask.getD 1 = aux.a * opacity' * 255 * mask'.getD 1 := by
    have e : ∀ o m : ℚ, aux.a * o * 255 * m = aux.a * 255 * (o * m) := fun o m => by ring
    rw [e, e, h]
  have hr1 : (aux.a - inp.a) * mask.getD 1 * opacity =
      (aux.a - inp.a) * mask'.getD 1 * opacity' := by
    have e : ∀ o m : ℚ, (aux.a - inp.a) * m * o = (aux.a - inp.a) * (o * m) := fun o m => by ring
    rw [e, e, h]
  have hr2 : mask.getD 1 * opacity * aux.a = mask'.getD 1 * opacity' * aux.a := by
    rw [mul_comm (mask.getD 1), mul_comm (mask'.getD 1), h]
  refine ⟨?_, ?_, ?_, ?_, ?_⟩
  · simp only [normal_mode_pixel_eq_spec, normal_spec, hn]
  · simp only [dissolve_pixel_eq, hd]
  · simp only [erase_mode_pixel_eq, h]
  · simp only [replace_mode_pixel_eq_spec, replace_spec, hr1, hr2]
  · intro ho ho'
    exact erase_f32_opacity_and_mask inp aux mask mask' opacity opacity' ho ho' h

/-- C18 (amended) at a concrete input: opacity 1/2 with mask 1/4 against
opacity 1/8 with no mask. -/
theorem opacity_and_mask_act_as_product_witness :
    normal_mode_pixel ⟨1, 0, 0, 1 / 2⟩ ⟨0, 1, 0, 3 / 4⟩ (some (1 / 4)) (1 / 2) =
      normal_mode_pixel ⟨1, 0, 0, 1 / 2⟩ ⟨0, 1, 0, 3 / 4⟩ none (1 / 8) ∧
    dissolve_pixel 20 ⟨1, 0, 0, 1 / 2⟩ ⟨0, 1, 0, 3 / 4⟩ (some (1 / 4)) (1 / 2) =
      dissolve_pixel 20 ⟨1, 0, 0, 1 / 2⟩ ⟨0, 1, 0, 3 / 4⟩ none (1 / 8) ∧
    erase_mode_pixel ⟨1, 0, 0, 1 / 2⟩ ⟨0, 1, 0, 3 / 4⟩ (some (1 / 4)) (1 / 2) =
      erase_mode_pixel ⟨1, 0, 0, 1 / 2⟩ ⟨0, 1, 0, 3 / 4⟩ none (1 / 8) ∧
    replace_mode_pixel ⟨1, 0, 0, 1 / 2⟩ ⟨0, 1, 0, 3 / 4⟩ (some (1 / 4)) (1 / 2) =
      replace_mode_pixel ⟨1, 0, 0, 1 / 2⟩ ⟨0, 1, 0, 3 / 4⟩ none (1 / 8) ∧
    erase_mode_pixel_f32 ⟨1, 0, 0, 1 / 2⟩ ⟨0, 1, 0, 3 / 4⟩ (some (1 / 4)) (1 / 2) =
      erase_mode_pixel_f32 ⟨1, 0, 0, 1 / 2⟩ ⟨0, 1, 0, 3 / 4⟩ none (1 / 8) :=
  ⟨(opacity_and_mask_act_as_product 20 ⟨1, 0, 0, 1 / 2⟩ ⟨0, 1, 0, 3 / 4⟩ (some (1 / 4)) none
      (1 / 2) (1 / 8) (by norm_num)).1,
    (opacity_and_mask_act_as_product 20 ⟨1, 0, 0, 1 / 2⟩ ⟨0, 1, 0, 3 / 4⟩ (some (1 / 4)) none
      (1 / 2) (1 / 8) (by norm_num)).2.1,
    (opacity_and_mask_act_as_product 20 ⟨1, 0, 0, 1 / 2⟩ ⟨0, 1, 0, 3 / 4⟩ (some (1 / 4)) none
      (1 / 2) (1 / 8) (by norm_num)).2.2.1,
    (opacity_and_mask_act_as_product 20 ⟨1, 0, 0, 1 / 2⟩ ⟨0, 1, 0, 3 / 4⟩ (some (1 / 4)) none
      (1 / 2) (1 / 8) (by norm_num)).2.2.2.1,
    (opacity_and_mask_act_as_product 20 ⟨1, 0, 0, 1 / 2⟩ ⟨0, 1, 0, 3 / 4⟩ (some (1 / 4)) none
      (1 / 2) (1 / 8) (by norm_num)).2.2.2.2 (by decide!) (by decide!)⟩

/-! ## Normal, Erase and Replace are per-pixel maps -/

/-- C19: for each of the Normal, Erase and Replace operators, output sample `i`
is the loop body applied to `in[i]`, `aux[i]`, `mask[i]` (when there is a mask)
and the opacity, for every `i` below `samples` at which the buffers have an
entry; the region argument does not change the output; and processing two
buffers one after the other, split after the samples of the first, gives the
output of the first followed by the output of the second, without a mask and
with one. -/
theorem point_operators_are_pixel_maps (inp aux : List Sample) (mask : Option (List ℚ))
    (samples i : Nat) (roi roi' : GeglRectangle) (inp1 inp2 aux1 aux2 : List Sample)
    (m1 m2 : List ℚ) (n2 : Nat) (opacity : ℚ)
    (haux : aux1.length = inp1.length) (hmask : m1.length = inp1.length) :
    ((gimp_operation_normal_mode_process_pixels_core inp aux mask opacity samples roi)[i]? =
        (if i < samples then sample_at normal_mode_pixel inp aux mask opacity i else none) ∧
      gimp_operation_normal_mode_process_pixels_core inp aux mask opacity samples roi =
        gimp_operation_normal_mode_process_pixels_core inp aux mask opacity samples roi' ∧
      gimp_operation_normal_mode_process_pixels_core (inp1 ++ inp2) (aux1 ++ aux2) none opacity
          (inp1.length + n2) roi =
        gimp_operation_normal_mode_process_pixels_core inp1 aux1 none opacity inp1.length roi ++
          gimp_operation_normal_mode_process_pixels_core inp2 aux2 none opacity n2 roi ∧
      gimp_operation_normal_mode_process_pixels_core (inp1 ++ inp2) (aux1 ++ aux2) (some (m1 ++ m2)) opacity
          (inp1.length + n2) roi =
        gimp_operation_normal_mode_process_pixels_core inp1 aux1 (some m1) opacity inp1.length roi ++
          gimp_operation_normal_mode_process_pixels_core inp2 aux2 (some m2) opacity n2 roi) ∧
    ((gimp_operation_erase_mode_process_pixels inp aux mask opacity samples roi)[i]? =
        (if i < samples then sample_at erase_mode_pixel inp aux mask opacity i else none) ∧
      gimp_operation_erase_mode_process_pixels inp aux mask opacity samples roi =
        gimp_operation_erase_mode_process_pixels inp aux mask opacity samples roi' ∧
      gimp_operation_erase_mode_process_pixels (inp1 ++ inp2) (aux1 ++ aux2) none opacity
          (inp1.length + n2) roi =
        gimp_operation_erase_mode_process_pixels inp1 aux1 none opacity inp1.length roi ++
          gimp_operation_erase_mode_process_pixels inp2 aux2 none opacity n2 roi ∧
      gimp_operation_erase_mode_process_pixels (inp1 ++ inp2) (aux1 ++ aux2) (some (m1 ++ m2)) opacity
          (inp1.length + n2) roi =
        gimp_operation_erase_mode_process_pixels inp1 aux1 (some m1) opacity inp1.length roi ++
          gimp_operation_erase_mode_process_pixels inp2 aux2 (some m2) opacity n2 roi) ∧
    ((gimp_operation_replace_mode_process_pixels inp aux mask opacity samples roi)[i]? =
        (if i < samples then sample_at replace_mode_pixel inp aux mask opacity i else none) ∧
      gimp_operation_replace_mode_process_pixels inp aux mask opacity samples roi =
        gimp_operation_replace_mode_process_pixels inp aux mask opacity samples roi' ∧
      gimp_operation_replace_mode_process_pixels (inp1 ++ inp2) (aux1 ++ aux2) none opacity
          (inp1.length + n2) roi =
        gimp_operation_replace_mode_process_pixels inp1 aux1 none opacity inp1.length roi ++
          gimp_operation_replace_mode_process_pixels inp2 aux2 none opacity n2 roi ∧
      gimp_operation_replace_mode_process_pixels (inp1 ++ inp2) (aux1 ++ aux2) (some (m1 ++ m2)) opacity
          (inp1.length + n2) roi =
        gimp_operation_replace_mode_process_pixels inp1 aux1 (some m1) opacity inp1.length roi ++
          gimp_operation_replace_mode_process_pixels inp2 aux2 (some m2) opacity n2 roi) := by
  simp only [normal_core_eq_point_loop, erase_eq_point_loop, replace_eq_point_loop]
  exact ⟨⟨point_loop_getElem? _ _ _ _ _ _ _, trivial,
      point_loop_append_none _ _ _ _ _ _ _ haux,
      point_loop_append_some _ _ _ _ _ _ _ _ _ haux hmask⟩,
    ⟨point_loop_getElem? _ _ _ _ _ _ _, trivial,
      point_loop_append_none _ _ _ _ _ _ _ haux,
      point_loop_append_some _ _ _ _ _ _ _ _ _ haux hmask⟩,
    ⟨point_loop_getElem? _ _ _ _ _ _ _, trivial,
      point_loop_append_none _ _ _ _ _ _ _ haux,
      point_loop_append_some _ _ _ _ _ _ _ _ _ haux hmask⟩⟩

/-- C19 at a concrete input: a masked buffer of one sample followed by a masked
buffer of two samples, for the three operators. -/
theorem point_operators_are_pixel_maps_witness :
    gimp_operation_normal_mode_process_pixels_core
        (([⟨1, 0, 0, 1⟩] : List Sample) ++ [⟨0, 1, 0, 1 / 2⟩, ⟨0, 0, 1, 0⟩])
        (([⟨1, 1, 0, 1 / 2⟩] : List Sample) ++ [⟨0, 1, 1, 1⟩, ⟨1, 0, 1, 1 / 4⟩])
        (some (([1 / 2] : List ℚ) ++ [1, 1 / 3])) (1 / 3)
        (([⟨1, 0, 0, 1⟩] : List Sample).length + 2) ⟨0, 0, 3, 1⟩ =
      gimp_operation_normal_mode_process_pixels_core [⟨1, 0, 0, 1⟩] [⟨1, 1, 0, 1 / 2⟩]
          (some [1 / 2]) (1 / 3) ([⟨1, 0, 0, 1⟩] : List Sample).length ⟨0, 0, 3, 1⟩ ++
        gimp_operation_normal_mode_process_pixels_core [⟨0, 1, 0, 1 / 2⟩, ⟨0, 0, 1, 0⟩]
          [⟨0, 1, 1, 1⟩, ⟨1, 0, 1, 1 / 4⟩] (some [1, 1 / 3]) (1 / 3) 2 ⟨0, 0, 3, 1⟩ ∧
    gimp_operation_erase_mode_process_pixels
        (([⟨1, 0, 0, 1⟩] : List Sample) ++ [⟨0, 1, 0, 1 / 2⟩, ⟨0, 0, 1, 0⟩])
        (([⟨1, 1, 0, 1 / 2⟩] : List Sample) ++ [⟨0, 1, 1, 1⟩, ⟨1, 0, 1, 1 / 4⟩])
        (some (([1 / 2] : List ℚ) ++ [1, 1 / 3])) (1 / 3)
        (([⟨1, 0, 0, 1⟩] : List Sample).length + 2) ⟨0, 0, 3, 1⟩ =
      gimp_operation_erase_mode_process_pixels [⟨1, 0, 0, 1⟩] [⟨1, 1, 0, 1 / 2⟩]
          (some [1 / 2]) (1 / 3) ([⟨1, 0, 0, 1⟩] : List Sample).length ⟨0, 0, 3, 1⟩ ++
        gimp_operation_erase_mode_process_pixels [⟨0, 1, 0, 1 / 2⟩, ⟨0, 0, 1, 0⟩]
          [⟨0, 1, 1, 1⟩, ⟨1, 0, 1, 1 / 4⟩] (some [1, 1 / 3]) (1 / 3) 2 ⟨0, 0, 3, 1⟩ ∧
    gimp_operation_replace_mode_process_pixels
        (([⟨1, 0, 0, 1⟩] : List Sample) ++ [⟨0, 1, 0, 1 / 2⟩, ⟨0, 0, 1, 0⟩])
        (([⟨1, 1, 0, 1 / 2⟩] : List Sample) ++ [⟨0, 1, 1, 1⟩, ⟨1, 0, 1, 1 / 4⟩])
        (some (([1 / 2] : List ℚ) ++ [1, 1 / 3])) (1 / 3)
        (([⟨1, 0, 0, 1⟩] : List Sample).length + 2) ⟨0, 0, 3, 1⟩ =
      gimp_operation_replace_mode_process_pixels [⟨1, 0, 0, 1⟩] [⟨1, 1, 0, 1 / 2⟩]
          (some [1 / 2]) (1 / 3) ([⟨1, 0, 0, 1⟩] : List Sample).length ⟨0, 0, 3, 1⟩ ++
        gimp_operation_replace_mode_process_pixels [⟨0, 1, 0, 1 / 2⟩, ⟨0, 0, 1, 0⟩]
          [⟨0, 1, 1, 1⟩, ⟨1, 0, 1, 1 / 4⟩] (some [1, 1 / 3]) (1 / 3) 2 ⟨0, 0, 3, 1⟩ :=
  have h := point_operators_are_pixel_maps [⟨1, 0, 0, 1⟩, ⟨0, 1, 0, 1 / 2⟩]
    [⟨1, 1, 0, 1 / 2⟩, ⟨0, 1, 1, 1⟩] (some [1 / 2, 1]) 2 1 ⟨0, 0, 3, 1⟩ ⟨5, 7, 3, 1⟩
    [⟨1, 0, 0, 1⟩] [⟨0, 1, 0, 1 / 2⟩, ⟨0, 0, 1, 0⟩] [⟨1, 1, 0, 1 / 2⟩]
    [⟨0, 1, 1, 1⟩, ⟨1, 0, 1, 1 / 4⟩] [1 / 2] [1, 1 / 3] 2 (1 / 3) rfl rfl
  ⟨h.1.2.2.2, h.2.1.2.2.2, h.2.2.2.2.2⟩

/-! ## The mode-to-operation mapping -/

/-- C20: the 26 enumerators of the blend-mode enumeration are mapped by the
`switch` of `gimp_gegl_mode_node_set_mode` to 26 pairwise distinct operation
names, which the function stores in the node, and the names chosen for Normal,
Dissolve, Erase and Replace are the names under which those operators register
themselves. -/
theorem mode_operation_one_to_one :
    (∀ m : GimpLayerModeEffects, m ∈ GimpLayerModeEffects.all) ∧
    GimpLayerModeEffects.all.length = 26 ∧
    (GimpLayerModeEffects.all.map fun m => mode_node_operation (some m)).Nodup ∧
    (∀ m m' : GimpLayerModeEffects,
      mode_node_operation (some m) = mode_node_operation (some m') → m = m') ∧
    (∀ (n : GeglNode) (m : GimpLayerModeEffects) (linear : Bool),
      (gimp_gegl_mode_node_set_mode (some n) (some m) linear).map GeglNode.operation =
        some (mode_node_operation (some m))) ∧
    mode_node_operation (some .GIMP_NORMAL_MODE) = gimp_operation_normal_mode_name ∧
    mode_node_operation (some .GIMP_DISSOLVE_MODE) = gimp_operation_dissolve_mode_name ∧
    mode_node_operation (some .GIMP_ERASE_MODE) = gimp_operation_erase_mode_name ∧
    mode_node_operation (some .GIMP_REPLACE_MODE) = gimp_operation_replace_mode_name := by
  refine ⟨?_, rfl, ?_, ?_, ?_, rfl, rfl, rfl, rfl⟩
  · intro m; cases m <;> simp [GimpLayerModeEffects.all]
  · simp [GimpLayerModeEffects.all, mode_node_operation]
  · intro m m'; cases m <;> cases m' <;> simp [mode_node_operation]
  · intro n m linear; simp [gimp_gegl_mode_node_set_mode]

/-! ## Mode nodes: fall-back, frame, validation -/

theorem enumerator_of_value_eq_none (value : GimpLayerModeEffects → Int) (v : Int)
    (h : ∀ m, value m ≠ v) : enumerator_of_value value v = none := by
  simp [enumerator_of_value, List.find?_eq_none, h]

/-- C21: for every mode value `v` that is the number of none of the 26
enumerators, whatever their numbering, the `switch` of
`gimp_gegl_mode_node_set_mode` selects no `case`, the operation name stays
`"gimp:normal-mode"`, the name of the Normal operator, and the call returns with
the node bound to that operation. -/
theorem unknown_mode_falls_back_to_normal (value : GimpLayerModeEffects → Int) (v : Int)
    (n : GeglNode) (linear : Bool) (h : ∀ m, value m ≠ v) :
    enumerator_of_value value v = none ∧
    mode_node_operation (enumerator_of_value value v) = gimp_operation_normal_mode_name ∧
    gimp_gegl_mode_node_set_mode (some n) (enumerator_of_value value v) linear =
      some { n with operation := "gimp:normal-mode", linear := linear } := by
  rw [enumerator_of_value_eq_none value v h]
  exact ⟨rfl, rfl, rfl⟩

/-- C21 at a concrete input: the enumerators numbered 0 to 25 in the order of
the `switch`, and the mode value 26. -/
theorem unknown_mode_falls_back_to_normal_witness :
    enumerator_of_value (fun m => (m.toCtorIdx : Int)) 26 = none ∧
    mode_node_operation (enumerator_of_value (fun m => (m.toCtorIdx : Int)) 26) =
      gimp_operation_normal_mode_name ∧
    gimp_gegl_mode_node_set_mode (some ⟨"gimp:erase-mode", false, 1 / 2, none, []⟩)
        (enumerator_of_value (fun m => (m.toCtorIdx : Int)) 26) true =
      some ⟨"gimp:normal-mode", true, 1 / 2, none, []⟩ :=
  unknown_mode_falls_back_to_normal (fun m => (m.toCtorIdx : Int)) 26
    ⟨"gimp:erase-mode", false, 1 / 2, none, []⟩ true
    (by intro m; cases m <;> decide)

/-- The constructors do build something when their arguments are valid: the
flatten node adds five nodes and three connections. -/
theorem create_flatten_node_builds (g : GeglGraph) (c : GimpRGB) :
    (gimp_gegl_create_flatten_node g (some c)).1 = some g.nodes.length ∧
    (gimp_gegl_create_flatten_node g (some c)).2.nodes.length = g.nodes.length + 5 ∧
    (gimp_gegl_create_flatten_node g (some c)).2.connections.length =
      g.connections.length + 3 := by
  simp [gimp_gegl_create_flatten_node, gegl_node_new, gegl_node_new_child,
    gegl_node_get_input_proxy, gegl_node_get_output_proxy, gegl_node_connect_to,
    GeglGraph.add_node]

/-- C23: with an absent background `gimp_gegl_create_flatten_node` returns
`NULL`, with an invalid mask buffer `gimp_gegl_create_apply_opacity_node` does,
and with an invalid parent or an invalid buffer `gimp_gegl_add_buffer_source`
does; with an invalid node `gimp_gegl_mode_node_set_mode`,
`gimp_gegl_mode_node_set_opacity` and `gimp_gegl_node_set_matrix` do nothing,
as does `gimp_gegl_node_set_matrix` with an absent matrix; in each case the
graph after the call is the graph before it: no node is created, no connection
is made and no property of a node is changed. -/
theorem validation_fails_whole (g : GeglGraph) (node parent buffer : Option Nat)
    (matrix : Option GimpMatrix3) (mode : Option GimpLayerModeEffects) (linear : Bool)
    (opacity : ℚ) (offset_x offset_y : Int) (matrix_to_string : GimpMatrix3 → String)
    (hnode : g.node_at node = none) :
    gimp_gegl_create_flatten_node g none = (none, g) ∧
    gimp_gegl_create_apply_opacity_node g none offset_x offset_y opacity = (none, g) ∧
    gimp_gegl_add_buffer_source g node buffer offset_x offset_y = (none, g) ∧
    gimp_gegl_add_buffer_source g parent none offset_x offset_y = (none, g) ∧
    g.store node (gimp_gegl_mode_node_set_mode (g.node_at node) mode linear) = g ∧
    g.store node (gimp_gegl_mode_node_set_opacity (g.node_at node) opacity) = g ∧
    g.store node (gimp_gegl_node_set_matrix matrix_to_string (g.node_at node) matrix) = g ∧
    g.store parent (gimp_gegl_node_set_matrix matrix_to_string (g.node_at parent) none) = g := by
  refine ⟨rfl, rfl, ?_, ?_, ?_, ?_, ?_, ?_⟩
  · cases node <;> cases buffer <;> simp [gimp_gegl_add_buffer_source, hnode]
  · cases parent with
    | none => simp [gimp_gegl_add_buffer_source]
    | some p => cases h : g.node_at (some p) <;> simp [gimp_gegl_add_buffer_source, h]
  · rw [hnode]; cases node <;> simp [gimp_gegl_mode_node_set_mode, GeglGraph.store]
  · rw [hnode]; cases node <;> simp [gimp_gegl_mode_node_set_opacity, GeglGraph.store]
  · rw [hnode]; cases node <;> cases matrix <;> simp [gimp_gegl_node_set_matrix, GeglGraph.store]
  · cases parent <;> cases h : g.node_at _ <;>
      simp [gimp_gegl_node_set_matrix, GeglGraph.store]

/-- C23 at a concrete input: a graph of one node and a pointer to no node of
it. -/
theorem validation_fails_whole_witness :
    gimp_gegl_create_flatten_node
        ⟨[⟨"gimp:normal-mode", false, 1, none, []⟩], []⟩ none =
      (none, ⟨[⟨"gimp:normal-mode", false, 1, none, []⟩], []⟩) ∧
    gimp_gegl_add_buffer_source
        ⟨[⟨"gimp:normal-mode", false, 1, none, []⟩], []⟩
        (some 3) (some 0) 2 0 =
      (none, ⟨[⟨"gimp:normal-mode", false, 1, none, []⟩], []⟩) ∧
    GeglGraph.store ⟨[⟨"gimp:normal-mode", false, 1, none, []⟩], []⟩
        (some 3) (gimp_gegl_mode_node_set_opacity
          (GeglGraph.node_at
            ⟨[⟨"gimp:normal-mode", false, 1, none, []⟩], []⟩ (some 3))
          (1 / 2)) =
      ⟨[⟨"gimp:normal-mode", false, 1, none, []⟩], []⟩ :=
  have h := validation_fails_whole
    ⟨[⟨"gimp:normal-mode", false, 1, none, []⟩], []⟩
    (some 3) (some 0) (some 0) none (some .GIMP_ERASE_MODE) true (1 / 2) 2 0
    (fun _ => "matrix") rfl
  ⟨h.1, h.2.2.1, h.2.2.2.2.2.1⟩

/-! ## The random table -/

theorem random_table_fill_length (G : GRand) (n : Nat) :
    ∀ gr : G.State, (random_table_fill G n gr).length = n := by
  induction n with
  | zero => intro gr; simp [random_table_fill]
  | succ n ih => intro gr; simp [random_table_fill, ih]

theorem random_table_fill_getElem? (G : GRand) (n : Nat) :
    ∀ (gr : G.State) (i : Nat),
      (random_table_fill G n gr)[i]? =
        if i < n then some (to_gint32 (G.rand_int (fast_forward G i gr)).1) else none := by
  induction n with
  | zero => intro gr i; simp [random_table_fill]
  | succ n ih =>
    intro gr i
    cases i with
    | zero => simp [random_table_fill, fast_forward]
    | succ i => simp [random_table_fill, fast_forward, ih]

/-- C24: the random table has exactly 4096 entries, and entry `i`, for every
`i` below 4096, is the draw of `g_rand_int` number `i + 1` from the generator
seeded with 314159265, that is the draw made after `i` earlier ones, stored as
a `gint32`; the table is a function of the generator alone. -/
theorem random_table_is_seeded_draws (G : GRand) (i : Nat) :
    (gimp_operation_dissolve_mode_class_init G).length = 4096 ∧
    (gimp_operation_dissolve_mode_class_init G)[i]? =
      (if i < 4096 then
        some (to_gint32 (G.rand_int (fast_forward G i (G.new_with_seed 314159265))).1)
      else none) := by
  constructor
  · simp [gimp_operation_dissolve_mode_class_init, random_table_fill_length, RANDOM_TABLE_SIZE]
  · simp [gimp_operation_dissolve_mode_class_init, random_table_fill_getElem?,
      RANDOM_TABLE_SIZE]

/-! ## The smudge stroke: start, no-op, finish -/

theorem smudge_start_fails (s : SmudgeState) (ev : PaintEvent) (h : ev.paint_buffer = none) :
    gimp_smudge_start s ev = (false, s) := by
  simp [gimp_smudge_start, h]

theorem smudge_paint_idle_fail (rc : ReplaceCanvas) (s : SmudgeState) (ev : PaintEvent)
    (hidle : s.initialized = false) (h : ev.paint_buffer = none) :
    gimp_smudge_paint rc s ev .GIMP_PAINT_STATE_MOTION = some s := by
  obtain ⟨i, a, p, d⟩ := s
  simp only at hidle
  subst hidle
  simp [gimp_smudge_paint, smudge_start_fails _ _ h]

theorem smudge_run_idle_fails (rc : ReplaceCanvas) (s : SmudgeState)
    (hidle : s.initialized = false) (fails : List PaintEvent) :
    (∀ e ∈ fails, e.paint_buffer = none) →
      smudge_run rc s (fails.map fun e => (e, GimpPaintState.GIMP_PAINT_STATE_MOTION)) =
        some s := by
  induction fails with
  | nil => intro _; simp [smudge_run]
  | cons e rest ih =>
    intro h
    have he : e.paint_buffer = none := h e (List.mem_cons_self _ _)
    have hrest : ∀ e' ∈ rest, e'.paint_buffer = none :=
      fun e' he' => h e' (List.mem_cons_of_mem _ he')
    simp [smudge_run, smudge_paint_idle_fail rc s e hidle he, ih hrest]

theorem smudge_run_append (rc : ReplaceCanvas) (evs : List (PaintEvent × GimpPaintState)) :
    ∀ (s s1 : SmudgeState) (rest : List (PaintEvent × GimpPaintState)),
      smudge_run rc s evs = some s1 →
      smudge_run rc s (evs ++ rest) = smudge_run rc s1 rest := by
  induction evs with
  | nil => intro s s1 rest h; simp [smudge_run] at h; subst h; rfl
  | cons e evs ih =>
    intro s s1 rest h
    obtain ⟨ev, st⟩ := e
    cases hp : gimp_smudge_paint rc s ev st with
    | none => simp [smudge_run, hp] at h
    | some s2 =>
      simp only [smudge_run, hp, List.cons_append] at h ⊢
      exact ih s2 s1 rest h

/-- A motion event in the Idle state for which a paint buffer is obtainable
starts the stroke: the call returns a state that is initialized and has an
accumulator. -/
theorem smudge_paint_idle_start (rc : ReplaceCanvas) (s : SmudgeState) (ev : PaintEvent)
    (pb : GeglRectangle) (hidle : s.initialized = false) (h : ev.paint_buffer = some pb) :
    ∃ s1, gimp_smudge_paint rc s ev .GIMP_PAINT_STATE_MOTION = some s1 ∧
      s1.initialized = true ∧ s1.accum_buffer.isSome = true := by
  obtain ⟨i, a, p, d⟩ := s
  simp only at hidle
  subst hidle
  by_cases hop : ev.opacity = 0
  · simp [gimp_smudge_paint, gimp_smudge_start, gimp_smudge_motion, h, hop]
  · simp [gimp_smudge_paint, gimp_smudge_start, gimp_smudge_motion, h, hop]

/-- C25: in the Idle state a motion event for which no paint buffer is
obtainable leaves the whole state as it was, so the stroke stays uninitialized,
no accumulator is allocated and nothing is blended; this holds for any run of
such events, after which the start is attempted again, and the first motion
event for which a paint buffer is obtainable makes the stroke Active, with an
accumulator. -/
theorem stroke_start_failure_stays_idle (rc : ReplaceCanvas) (s : SmudgeState)
    (fails : List PaintEvent) (ev : PaintEvent) (pb : GeglRectangle)
    (hidle : s.initialized = false) (hfail : ∀ e ∈ fails, e.paint_buffer = none)
    (hok : ev.paint_buffer = some pb) :
    (∀ e ∈ fails, gimp_smudge_paint rc s e .GIMP_PAINT_STATE_MOTION = some s) ∧
    smudge_run rc s (fails.map fun e => (e, GimpPaintState.GIMP_PAINT_STATE_MOTION)) =
      some s ∧
    ∃ s1, smudge_run rc s
        ((fails.map fun e => (e, GimpPaintState.GIMP_PAINT_STATE_MOTION)) ++
          [(ev, GimpPaintState.GIMP_PAINT_STATE_MOTION)]) = some s1 ∧
      s1.initialized = true ∧ s1.accum_buffer.isSome = true := by
  refine ⟨fun e he => smudge_paint_idle_fail rc s e hidle (hfail e he),
    smudge_run_idle_fails rc s hidle fails hfail, ?_⟩
  obtain ⟨s1, h1, h2, h3⟩ := smudge_paint_idle_start rc s ev pb hidle hok
  refine ⟨s1, ?_, h2, h3⟩
  rw [smudge_run_append rc _ s s _ (smudge_run_idle_fails rc s hidle fails hfail)]
  simp [smudge_run, h1]

/-- C25 at a concrete input: one motion event outside the drawable, then one
inside it, from the Idle state. -/
theorem stroke_start_failure_stays_idle_witness :
    ∃ s1, smudge_run (fun d _ _ _ _ => d)
        ⟨false, none, fun _ _ => ⟨0, 0, 0, 0⟩, fun _ _ => ⟨1, 1, 1, 1⟩⟩
        (([⟨-5, -5, none, 1, 1, 1, 50, 3, 10, 10⟩] : List PaintEvent).map
            (fun e => (e, GimpPaintState.GIMP_PAINT_STATE_MOTION)) ++
          [(⟨5, 5, some ⟨1, 1, 8, 8⟩, 1, 1, 1, 50, 3, 10, 10⟩,
            GimpPaintState.GIMP_PAINT_STATE_MOTION)]) = some s1 ∧
      s1.initialized = true ∧ s1.accum_buffer.isSome = true :=
  (stroke_start_failure_stays_idle (fun d _ _ _ _ => d)
    ⟨false, none, fun _ _ => ⟨0, 0, 0, 0⟩, fun _ _ => ⟨1, 1, 1, 1⟩⟩
    [⟨-5, -5, none, 1, 1, 1, 50, 3, 10, 10⟩]
    ⟨5, 5, some ⟨1, 1, 8, 8⟩, 1, 1, 1, 50, 3, 10, 10⟩ ⟨1, 1, 8, 8⟩ rfl
    (by intro e he; simp at he; subst he; rfl) rfl).2.2

/-- C26: a motion event whose dynamic opacity is exactly zero leaves the whole
state as it was: `gimp_smudge_motion` returns at once, so the accumulator, the
paint buffer and the drawable are unchanged, and in the Active state
`gimp_smudge_paint` leaves the stroke Active with the same accumulator. -/
theorem zero_opacity_motion_is_noop (rc : ReplaceCanvas) (s : SmudgeState) (ev : PaintEvent)
    (hact : s.initialized = true) (hop : ev.opacity = 0) :
    gimp_smudge_motion rc s ev = some s ∧
    gimp_smudge_paint rc s ev .GIMP_PAINT_STATE_MOTION = some s := by
  constructor
  · simp [gimp_smudge_motion, hop]
  · simp [gimp_smudge_paint, gimp_smudge_motion, hact, hop]

/-- C26 at a concrete input: an Active stroke with an accumulator of side 8
and an event of opacity 0. -/
theorem zero_opacity_motion_is_noop_witness :
    gimp_smudge_motion (fun d _ _ _ _ => d)
        ⟨true, some ⟨8, fun _ _ => ⟨1, 0, 0, 1⟩⟩, fun _ _ => ⟨0, 0, 0, 0⟩,
          fun _ _ => ⟨1, 1, 1, 1⟩⟩
        ⟨5, 5, some ⟨1, 1, 8, 8⟩, 0, 1, 1, 50, 3, 10, 10⟩ =
      some ⟨true, some ⟨8, fun _ _ => ⟨1, 0, 0, 1⟩⟩, fun _ _ => ⟨0, 0, 0, 0⟩,
        fun _ _ => ⟨1, 1, 1, 1⟩⟩ ∧
    gimp_smudge_paint (fun d _ _ _ _ => d)
        ⟨true, some ⟨8, fun _ _ => ⟨1, 0, 0, 1⟩⟩, fun _ _ => ⟨0, 0, 0, 0⟩,
          fun _ _ => ⟨1, 1, 1, 1⟩⟩
        ⟨5, 5, some ⟨1, 1, 8, 8⟩, 0, 1, 1, 50, 3, 10, 10⟩
        .GIMP_PAINT_STATE_MOTION =
      some ⟨true, some ⟨8, fun _ _ => ⟨1, 0, 0, 1⟩⟩, fun _ _ => ⟨0, 0, 0, 0⟩,
        fun _ _ => ⟨1, 1, 1, 1⟩⟩ :=
  zero_opacity_motion_is_noop (fun d _ _ _ _ => d)
    ⟨true, some ⟨8, fun _ _ => ⟨1, 0, 0, 1⟩⟩, fun _ _ => ⟨0, 0, 0, 0⟩, fun _ _ => ⟨1, 1, 1, 1⟩⟩
    ⟨5, 5, some ⟨1, 1, 8, 8⟩, 0, 1, 1, 50, 3, 10, 10⟩ rfl rfl

/-- C27: from every state a FINISH event leads to the state with no
accumulator and `initialized` false, the paint buffer and the drawable being
kept, and a paint state other than MOTION and FINISH leaves the state
unchanged. -/
theorem finish_releases_accumulator (rc : ReplaceCanvas) (s : SmudgeState) (ev : PaintEvent) :
    gimp_smudge_paint rc s ev .GIMP_PAINT_STATE_FINISH =
      some { initialized := false, accum_buffer := none, paint_buffer := s.paint_buffer,
             drawable := s.drawable } ∧
    gimp_smudge_paint rc s ev .other = some s := by
  exact ⟨rfl, rfl⟩

/-! ## The size of the accumulator -/

theorem ceil_sqrt_le_iff (m j : Nat) : ceil_sqrt m ≤ j ↔ m ≤ j * j := by
  unfold ceil_sqrt
  have h1 : Nat.sqrt m * Nat.sqrt m ≤ m := Nat.sqrt_le m
  have h2 : m < (Nat.sqrt m + 1) * (Nat.sqrt m + 1) := Nat.lt_succ_sqrt m
  by_cases h : Nat.sqrt m * Nat.sqrt m = m
  · rw [if_pos h]
    constructor
    · intro hj
      calc m = Nat.sqrt m * Nat.sqrt m := h.symm
        _ ≤ j * j := Nat.mul_le_mul hj hj
    · intro hm
      by_contra hc
      have hlt : j < Nat.sqrt m := Nat.lt_of_not_le hc
      have : j * j < Nat.sqrt m * Nat.sqrt m := Nat.mul_self_lt_mul_self hlt
      omega
  · rw [if_neg h]
    constructor
    · intro hj
      have : (Nat.sqrt m + 1) * (Nat.sqrt m + 1) ≤ j * j := Nat.mul_le_mul hj hj
      omega
    · intro hm
      by_contra hc
      have hle : j ≤ Nat.sqrt m := by omega
      have : j * j ≤ Nat.sqrt m * Nat.sqrt m := Nat.mul_le_mul hle hle
      omega

/-- For brush size 3 the side is 8. -/
theorem accumulator_size_three : gimp_smudge_accumulator_size 3 = 8 := by
  have h : ceil_sqrt 32 = 6 := by
    apply le_antisymm
    · exact (ceil_sqrt_le_iff 32 6).2 (by norm_num)
    · by_contra hc
      have : ceil_sqrt 32 ≤ 5 := by omega
      have := (ceil_sqrt_le_iff 32 5).1 this
      omega
  have hq : ⌈(2 : ℚ) * SQR (3 + 1)⌉ = 32 := by
    unfold SQR; norm_num
  unfold gimp_smudge_accumulator_size
  rw [hq]
  simp [h]

/-! ## No smearing at rate 0 -/

theorem smudge_blend_sample_zero (accum under : Sample) :
    smudge_blend_sample 0 accum under = under := by
  simp [smudge_blend_sample]

/-- C29: for a motion event in a state with an accumulator, with non-zero
dynamic opacity, an obtainable paint buffer and a rate
`(options->rate / 100) * dynamic_rate` equal to 0, `gimp_smudge_motion` leaves an
accumulator whose pixel at offset `(i, j)` of the footprint is the pixel of the
drawable, as it was before the call, at offset `(i, j)` of the paint buffer's
position, for every offset inside the footprint. -/
theorem no_smearing_at_rate_zero (rc : ReplaceCanvas) (s : SmudgeState) (ev : PaintEvent)
    (accum : AccumBuffer) (pb : GeglRectangle) (hacc : s.accum_buffer = some accum)
    (hop : ev.opacity ≠ 0) (hpb : ev.paint_buffer = some pb)
    (hrate : ev.rate / 100 * ev.dynamic_rate = 0) :
    ∃ s1 accum1, gimp_smudge_motion rc s ev = some s1 ∧ s1.accum_buffer = some accum1 ∧
      accum1.size = accum.size ∧
      ∀ i j : Int, 0 ≤ i → i < pb.width → 0 ≤ j → j < pb.height →
        accum1.pixels (pb.x - (gimp_smudge_accumulator_coords accum.size ev).1 + i)
            (pb.y - (gimp_smudge_accumulator_coords accum.size ev).2 + j) =
          s.drawable (pb.x + i) (pb.y + j) := by
  have hm : ∃ s1 P, gimp_smudge_motion rc s ev = some s1 ∧
      s1.accum_buffer = some ⟨accum.size, P⟩ ∧
      P = gimp_gegl_smudge_blend accum.pixels
        ⟨pb.x - (gimp_smudge_accumulator_coords accum.size ev).1,
          pb.y - (gimp_smudge_accumulator_coords accum.size ev).2, pb.width, pb.height⟩
        s.drawable ⟨pb.x, pb.y, pb.width, pb.height⟩ accum.pixels
        ⟨pb.x - (gimp_smudge_accumulator_coords accum.size ev).1,
          pb.y - (gimp_smudge_accumulator_coords accum.size ev).2, pb.width, pb.height⟩
        (ev.rate / 100 * ev.dynamic_rate) := by
    simp only [gimp_smudge_motion, hop, hpb, hacc, if_false]
    exact ⟨_, _, rfl, rfl, rfl⟩
  obtain ⟨s1, P, h1, h2, h3⟩ := hm
  refine ⟨s1, ⟨accum.size, P⟩, h1, h2, rfl, ?_⟩
  · intro i j hi hi' hj hj'
    subst h3
    simp only [gimp_gegl_smudge_blend, hrate, smudge_blend_sample_zero]
    have hc : GeglRectangle.contains
        ⟨pb.x - (gimp_smudge_accumulator_coords accum.size ev).1,
          pb.y - (gimp_smudge_accumulator_coords accum.size ev).2, pb.width, pb.height⟩
        (pb.x - (gimp_smudge_accumulator_coords accum.size ev).1 + i)
        (pb.y - (gimp_smudge_accumulator_coords accum.size ev).2 + j) = true := by
      simp only [GeglRectangle.contains, decide_eq_true_eq]
      omega
    rw [if_pos hc]
    congr 1 <;> ring

/-- C29 at a concrete input: rate option 0, an accumulator of side 8 and a
paint buffer of 8 by 8 pixels at `(1, 1)`. -/
theorem no_smearing_at_rate_zero_witness :
    ∃ s1 accum1, gimp_smudge_motion (fun d _ _ _ _ => d)
        ⟨true, some ⟨8, fun _ _ => ⟨1, 0, 0, 1⟩⟩, fun _ _ => ⟨0, 0, 0, 0⟩,
          fun x y => ⟨x, y, 0, 1⟩⟩
        ⟨5, 5, some ⟨1, 1, 8, 8⟩, 1, 1, 1, 0, 3, 10, 10⟩ = some s1 ∧
      s1.accum_buffer = some accum1 ∧ accum1.size = 8 ∧
      ∀ i j : Int, 0 ≤ i → i < 8 → 0 ≤ j → j < 8 →
        accum1.pixels
            (1 - (gimp_smudge_accumulator_coords 8
              ⟨5, 5, some ⟨1, 1, 8, 8⟩, 1, 1, 1, 0, 3, 10, 10⟩).1 + i)
            (1 - (gimp_smudge_accumulator_coords 8
              ⟨5, 5, some ⟨1, 1, 8, 8⟩, 1, 1, 1, 0, 3, 10, 10⟩).2 + j) =
          (⟨((1 + i : Int) : ℚ), ((1 + j : Int) : ℚ), 0, 1⟩ : Sample) :=
  no_smearing_at_rate_zero (fun d _ _ _ _ => d)
    ⟨true, some ⟨8, fun _ _ => ⟨1, 0, 0, 1⟩⟩, fun _ _ => ⟨0, 0, 0, 0⟩,
      fun x y => ⟨x, y, 0, 1⟩⟩
    ⟨5, 5, some ⟨1, 1, 8, 8⟩, 1, 1, 1, 0, 3, 10, 10⟩ ⟨8, fun _ _ => ⟨1, 0, 0, 1⟩⟩
    ⟨1, 1, 8, 8⟩ rfl (by norm_num) rfl (by norm_num)

/-! ## The seed lookup of Dissolve -/

/-- For a row index `y ≥ 0` and a table of 4096 entries the seed lookup reads
an entry of the table. -/
theorem random_table_read_nonneg (t : List Int) (y : Int) (hy : 0 ≤ y)
    (ht : t.length = RANDOM_TABLE_SIZE) :
    (random_table_read t (Int.tmod y RANDOM_TABLE_SIZE)).isSome = true := by
  have h0 : 0 ≤ Int.tmod y RANDOM_TABLE_SIZE := Int.tmod_nonneg _ hy
  have h1 : Int.tmod y RANDOM_TABLE_SIZE < RANDOM_TABLE_SIZE :=
    Int.tmod_lt_of_pos _ (by decide)
  have h2 : (Int.tmod y RANDOM_TABLE_SIZE).toNat < t.length := by
    rw [ht]; omega
  simp [random_table_read, not_lt.2 h0, List.getElem?_eq_getElem h2]

/-- C32 (evaluation at the failing input): for the row index `y = -1` the index
`y % RANDOM_TABLE_SIZE` computed by the Dissolve operator is `-1`, which is no
index of the table, so that the seed is read outside `random_table`, whatever
the generator, the table, the buffers and the rest of the region. -/
theorem dissolve_negative_row_reads_outside_table (G : GRand) (t : List Int)
    (inp aux : List Sample) (mask : Option (List ℚ)) (opacity : ℚ) (x width : Int)
    (rows : Nat) :
    Int.tmod (-1) RANDOM_TABLE_SIZE = -1 ∧
    random_table_read t (Int.tmod (-1) RANDOM_TABLE_SIZE) = none ∧
    gimp_operation_dissolve_mode_process_pixels G t inp aux mask opacity
      ⟨x, -1, width, (rows : Int) + 1⟩ = none := by
  have h : Int.tmod (-1) RANDOM_TABLE_SIZE = -1 := by decide
  have hr : random_table_read t (Int.tmod (-1) RANDOM_TABLE_SIZE) = none := by
    rw [h]; simp [random_table_read]
  refine ⟨h, hr, ?_⟩
  have hrows : ((rows : Int) + 1).toNat = rows + 1 := by omega
  simp only [gimp_operation_dissolve_mode_process_pixels, hrows, dissolve_rows, hr]

/-! ## Normal blending stays between its two colours -/

theorem normal_channel_between (inb auxb s w : ℚ) (hs : 0 ≤ s) (hw : 0 ≤ w)
    (hpos : 0 < s + w) :
    min inb auxb ≤ normal_channel inb auxb s w (1 / (s + w)) ∧
      normal_channel inb auxb s w (1 / (s + w)) ≤ max inb auxb := by
  unfold normal_channel
  rw [mul_one_div, le_div_iff₀ hpos, div_le_iff₀ hpos]
  have h1 : min inb auxb ≤ inb := min_le_left _ _
  have h2 : min inb auxb ≤ auxb := min_le_right _ _
  have h3 : inb ≤ max inb auxb := le_max_left _ _
  have h4 : auxb ≤ max inb auxb := le_max_right _ _
  constructor
  · nlinarith [mul_nonneg hs (sub_nonneg.2 h2), mul_nonneg hw (sub_nonneg.2 h1)]
  · nlinarith [mul_nonneg hs (sub_nonneg.2 h4), mul_nonneg hw (sub_nonneg.2 h3)]

/-- C33 (counterexample): in binary32, with opacity 1 and no mask, the Normal
loop body applied to `in = (1, 0, 0, 2^-24)` and `aux = (1, 0, 0, 1)` returns
the red channel `1 + 2^-23`, above both colours.  With both colours equal to
3/4, `in.a = 0`, `aux.a = 1/16` and opacity 7/16 the channels returned are
`3/4 + 2^-24`; with both colours equal to 1/2, `in.a = 0`, `aux.a = 5/16` and
opacity 11/16 they are `1/2 - 2^-25`, below both colours. -/
theorem normal_blend_leaves_range :
    normal_mode_pixel_f32 ⟨1, 0, 0, 1 / 16777216⟩ ⟨1, 0, 0, 1⟩ none 1 =
      some ⟨8388609 / 8388608, 0, 0, 16777215 / 16777216⟩ ∧
    normal_mode_pixel_f32 ⟨3 / 4, 3 / 4, 3 / 4, 0⟩ ⟨3 / 4, 3 / 4, 3 / 4, 1 / 16⟩ none (7 / 16) =
      some ⟨12582913 / 16777216, 12582913 / 16777216, 12582913 / 16777216, 7 / 256⟩ ∧
    normal_mode_pixel_f32 ⟨1 / 2, 1 / 2, 1 / 2, 0⟩ ⟨1 / 2, 1 / 2, 1 / 2, 5 / 16⟩ none (11 / 16) =
      some ⟨16777215 / 33554432, 16777215 / 33554432, 16777215 / 33554432, 55 / 256⟩ ∧
    max (1 : ℚ) 1 < 8388609 / 8388608 ∧
    max (3 / 4 : ℚ) (3 / 4) < 12582913 / 16777216 ∧
    (16777215 / 33554432 : ℚ) < min (1 / 2) (1 / 2) := by
  decide!

/-- C33 (amended): in exact arithmetic, for every sample with `in.a`, `aux.a`,
opacity and the mask value (when there is a mask) in `[0,1]`, every output
colour channel of the Normal operator lies between `in.b` and `aux.b`
inclusive; the weights `aux_a` and `in.a * (1 - aux_a)` are non-negative and
sum to `out.a`. -/
theorem normal_blend_between (inp aux : Sample) (mask : Option ℚ) (opacity : ℚ)
    (hin : 0 ≤ inp.a ∧ inp.a ≤ 1) (haux : 0 ≤ aux.a ∧ aux.a ≤ 1)
    (hop : 0 ≤ opacity ∧ opacity ≤ 1) (hmask : ∀ m, mask = some m → 0 ≤ m ∧ m ≤ 1) :
    (min inp.r aux.r ≤ (normal_mode_pixel inp aux mask opacity).r ∧
      (normal_mode_pixel inp aux mask opacity).r ≤ max inp.r aux.r) ∧
    (min inp.g aux.g ≤ (normal_mode_pixel inp aux mask opacity).g ∧
      (normal_mode_pixel inp aux mask opacity).g ≤ max inp.g aux.g) ∧
    (min inp.b aux.b ≤ (normal_mode_pixel inp aux mask opacity).b ∧
      (normal_mode_pixel inp aux mask opacity).b ≤ max inp.b aux.b) ∧
    0 ≤ normal_aux_alpha aux mask opacity ∧
    0 ≤ inp.a * (1 - normal_aux_alpha aux mask opacity) ∧
    normal_aux_alpha aux mask opacity + inp.a * (1 - normal_aux_alpha aux mask opacity) =
      (normal_mode_pixel inp aux mask opacity).a := by
  have hm := mask_getD_mem mask hmask
  have hs' := unit_mul_mem _ _ (unit_mul_mem _ _ haux hop) hm
  have hs : 0 ≤ normal_aux_alpha aux mask opacity ∧ normal_aux_alpha aux mask opacity ≤ 1 := by
    rw [normal_aux_alpha_eq]; exact hs'
  have hw : 0 ≤ inp.a * (1 - normal_aux_alpha aux mask opacity) :=
    mul_nonneg hin.1 (sub_nonneg.2 hs.2)
  have hsum : normal_aux_alpha aux mask opacity + inp.a -
      normal_aux_alpha aux mask opacity * inp.a =
      normal_aux_alpha aux mask opacity + inp.a * (1 - normal_aux_alpha aux mask opacity) := by
    ring
  have ha : (normal_mode_pixel inp aux mask opacity).a =
      normal_aux_alpha aux mask opacity + inp.a * (1 - normal_aux_alpha aux mask opacity) := by
    rw [← hsum]; simp only [normal_mode_pixel]; split <;> rfl
  refine ⟨?_, ?_, ?_, hs.1, hw, ha.symm⟩ <;>
  · simp only [normal_mode_pixel, hsum]
    by_cases h0 : normal_aux_alpha aux mask opacity +
        inp.a * (1 - normal_aux_alpha aux mask opacity) = 0
    · simp [h0]
    · have hpos : 0 < normal_aux_alpha aux mask opacity +
          inp.a * (1 - normal_aux_alpha aux mask opacity) :=
        lt_of_le_of_ne (add_nonneg hs.1 hw) (Ne.symm h0)
      simp only [ne_eq, h0, not_false_eq_true, if_true]
      exact normal_channel_between _ _ _ _ hs.1 hw hpos

/-- C33 (amended) at a concrete input, with a mask value of 1/2. -/
theorem normal_blend_between_witness :
    min (1 : ℚ) 0 ≤ (normal_mode_pixel ⟨1, 0, 1 / 3, 1 / 2⟩ ⟨0, 1, 1 / 3, 3 / 4⟩
        (some (1 / 2)) (1 / 3)).r ∧
      (normal_mode_pixel ⟨1, 0, 1 / 3, 1 / 2⟩ ⟨0, 1, 1 / 3, 3 / 4⟩
        (some (1 / 2)) (1 / 3)).r ≤ max (1 : ℚ) 0 :=
  (normal_blend_between ⟨1, 0, 1 / 3, 1 / 2⟩ ⟨0, 1, 1 / 3, 3 / 4⟩ (some (1 / 2)) (1 / 3)
    (by norm_num) (by norm_num) (by norm_num)
    (by intro m h; cases h; norm_num)).1

/-! ## Replace as one linear interpolation -/

theorem replace_channel_eq_lerp (inb layerb ratio : ℚ) :
    replace_channel inb layerb ratio = inb + (layerb - inb) * ratio := by
  unfold replace_channel
  split
  · rfl
  · ring

/-- C34: for every `in`, `aux`, opacity and optional mask value with
`new_alpha ≠ 0`, each output colour channel of the Replace operator equals
`in.b + (aux.b - in.b) * ratio`, in both branches on `layer.b > in.b`, where
`ratio = (mask, or 1) * opacity * aux.a / new_alpha`. -/
theorem replace_is_linear_interpolation (inp aux : Sample) (mask : Option ℚ) (opacity : ℚ)
    (hne : replace_new_alpha inp aux mask opacity ≠ 0) :
    (∀ inb layerb ratio : ℚ,
      replace_channel inb layerb ratio = inb + (layerb - inb) * ratio) ∧
    (replace_mode_pixel inp aux mask opacity).r =
      inp.r + (aux.r - inp.r) *
        (mask.getD 1 * opacity * aux.a / replace_new_alpha inp aux mask opacity) ∧
    (replace_mode_pixel inp aux mask opacity).g =
      inp.g + (aux.g - inp.g) *
        (mask.getD 1 * opacity * aux.a / replace_new_alpha inp aux mask opacity) ∧
    (replace_mode_pixel inp aux mask opacity).b =
      inp.b + (aux.b - inp.b) *
        (mask.getD 1 * opacity * aux.a / replace_new_alpha inp aux mask opacity) := by
  refine ⟨replace_channel_eq_lerp, ?_, ?_, ?_⟩ <;>
    simp only [replace_mode_pixel, ne_eq, hne, not_false_eq_true, if_true,
      replace_channel_eq_lerp, replace_ratio_eq]

/-- C34 at a concrete input: one channel with `layer.b > in.b`, one with
`layer.b < in.b`, one with both equal. -/
theorem replace_is_linear_interpolation_witness :
    (replace_mode_pixel ⟨1, 0, 1 / 3, 1 / 2⟩ ⟨0, 1, 1 / 3, 3 / 4⟩ (some (1 / 2)) (1 / 3)).r =
      1 + (0 - 1) * ((some (1 / 2) : Option ℚ).getD 1 * (1 / 3) * (3 / 4) /
        replace_new_alpha ⟨1, 0, 1 / 3, 1 / 2⟩ ⟨0, 1, 1 / 3, 3 / 4⟩ (some (1 / 2)) (1 / 3)) :=
  (replace_is_linear_interpolation ⟨1, 0, 1 / 3, 1 / 2⟩ ⟨0, 1, 1 / 3, 3 / 4⟩ (some (1 / 2))
    (1 / 3) (by norm_num [replace_new_alpha])).2.1

/-! ## Dissolve at zero and at full coverage -/

/-- C35: for every pixel whose `aux.a * opacity * mask` is 0 (the mask counting
as 1 when absent), in particular whenever the opacity is 0, the Dissolve
operator outputs the input sample in all four channels, whatever integer
`d ≥ 0` is drawn. -/
theorem dissolve_zero_coverage_noop (d : Int) (inp aux : Sample) (mask : Option ℚ)
    (opacity : ℚ) (hd : 0 ≤ d) (h : aux.a * opacity * mask.getD 1 = 0) :
    dissolve_pixel d inp aux mask opacity = inp ∧ dissolve_pixel d inp aux mask 0 = inp := by
  have hd' : (0 : ℚ) ≤ (d : ℚ) := by exact_mod_cast hd
  have hv : aux.a * opacity * 255 * mask.getD 1 = 0 := by
    have e : aux.a * opacity * 255 * mask.getD 1 = aux.a * opacity * mask.getD 1 * 255 := by
      ring
    rw [e, h, zero_mul]
  constructor
  · rw [dissolve_pixel_eq, hv, if_pos hd']
  · rw [dissolve_pixel_eq]
    simp [hd']

/-- C35 at a concrete input: opacity 0 and the drawn integer 0. -/
theorem dissolve_zero_coverage_noop_witness :
    dissolve_pixel 0 ⟨1, 0, 0, 1 / 2⟩ ⟨0, 1, 0, 1⟩ (some (1 / 2)) 0 = ⟨1, 0, 0, 1 / 2⟩ ∧
      dissolve_pixel 0 ⟨1, 0, 0, 1 / 2⟩ ⟨0, 1, 0, 1⟩ (some (1 / 2)) 0 = ⟨1, 0, 0, 1 / 2⟩ :=
  dissolve_zero_coverage_noop 0 ⟨1, 0, 0, 1 / 2⟩ ⟨0, 1, 0, 1⟩ (some (1 / 2)) 0
    (by norm_num) (by norm_num)

/-- C36: for every pixel with `aux.a = 1`, opacity 1 and no mask, or a mask of
1, the threshold is 255, every drawn integer `d < 255` is below it, and the
Dissolve operator outputs `(aux.r, aux.g, aux.b, 1)`. -/
theorem dissolve_full_coverage (d : Int) (inp aux : Sample) (hd : d < 255)
    (h : aux.a = 1) :
    aux.a * 1 * 255 = 255 ∧
    dissolve_pixel d inp aux none 1 = { r := aux.r, g := aux.g, b := aux.b, a := 1 } ∧
    dissolve_pixel d inp aux (some 1) 1 = { r := aux.r, g := aux.g, b := aux.b, a := 1 } := by
  have hd' : ¬ ((d : ℚ) ≥ 255) := by
    have : (d : ℚ) < 255 := by exact_mod_cast hd
    exact not_le.2 this
  refine ⟨by rw [h]; norm_num, ?_, ?_⟩
  · rw [dissolve_pixel_eq]; simp [h, hd']
  · rw [dissolve_pixel_eq]; simp [h, hd']

/-- C36 at a concrete input: the largest integer of the range, 254. -/
theorem dissolve_full_coverage_witness :
    (1 : ℚ) * 1 * 255 = 255 ∧
    dissolve_pixel 254 ⟨1, 0, 0, 1 / 2⟩ ⟨0, 1, 0, 1⟩ none 1 = ⟨0, 1, 0, 1⟩ ∧
    dissolve_pixel 254 ⟨1, 0, 0, 1 / 2⟩ ⟨0, 1, 0, 1⟩ (some 1) 1 = ⟨0, 1, 0, 1⟩ :=
  dissolve_full_coverage 254 ⟨1, 0, 0, 1 / 2⟩ ⟨0, 1, 0, 1⟩ (by norm_num) rfl

/-! ## The stroke-state invariant -/

/-- One call of `gimp_smudge_paint` from a state in which `initialized` implies
an accumulator returns, and returns such a state. -/
theorem smudge_paint_keeps_invariant (rc : ReplaceCanvas) (s : SmudgeState) (ev : PaintEvent)
    (paint_state : GimpPaintState)
    (hinv : s.initialized = true → s.accum_buffer.isSome = true) :
    ∃ s1, gimp_smudge_paint rc s ev paint_state = some s1 ∧
      (s1.initialized = true → s1.accum_buffer.isSome = true) := by
  obtain ⟨i, a, p, d⟩ := s
  cases paint_state with
  | GIMP_PAINT_STATE_FINISH => exact ⟨_, rfl, by simp⟩
  | other => exact ⟨_, rfl, hinv⟩
  | GIMP_PAINT_STATE_MOTION =>
    cases i with
    | false =>
      cases hpb : ev.paint_buffer with
      | none => simp [gimp_smudge_paint, gimp_smudge_start, hpb]
      | some pb =>
        obtain ⟨s1, h1, _, h3⟩ :=
          smudge_paint_idle_start rc ⟨false, a, p, d⟩ ev pb rfl hpb
        exact ⟨s1, h1, fun _ => h3⟩
    | true =>
      have ha : a.isSome = true := hinv rfl
      obtain ⟨acc, rfl⟩ := Option.isSome_iff_exists.1 ha
      by_cases hop : ev.opacity = 0
      · simp [gimp_smudge_paint, gimp_smudge_motion, hop]
      · cases hpb : ev.paint_buffer with
        | none => simp [gimp_smudge_paint, gimp_smudge_motion, hop, hpb]
        | some pb => simp [gimp_smudge_paint, gimp_smudge_motion, hop, hpb]

/-- C37: from the initial Idle state, with `initialized` false and no
accumulator, every sequence of paint events handled by `gimp_smudge_paint` runs
to the end without `gimp_smudge_motion` using an accumulator that is not
allocated, and in the state reached `initialized` being true implies that the
accumulator is allocated. -/
theorem stroke_state_invariant (rc : ReplaceCanvas) (paint_buffer drawable : PixelMap)
    (events : List (PaintEvent × GimpPaintState)) :
    ∃ s1, smudge_run rc ⟨false, none, paint_buffer, drawable⟩ events = some s1 ∧
      (s1.initialized = true → s1.accum_buffer.isSome = true) := by
  have key : ∀ (evs : List (PaintEvent × GimpPaintState)) (s : SmudgeState),
      (s.initialized = true → s.accum_buffer.isSome = true) →
      ∃ s1, smudge_run rc s evs = some s1 ∧
        (s1.initialized = true → s1.accum_buffer.isSome = true) := by
    intro evs
    induction evs with
    | nil => intro s hinv; exact ⟨s, rfl, hinv⟩
    | cons e rest ih =>
      intro s hinv
      obtain ⟨ev, st⟩ := e
      obtain ⟨s2, h2, hinv2⟩ := smudge_paint_keeps_invariant rc s ev st hinv
      obtain ⟨s3, h3, hinv3⟩ := ih s2 hinv2
      exact ⟨s3, by simp [smudge_run, h2, h3], hinv3⟩
  exact key events _ (by simp)

end Gimp
